import Mathlib

/-!
# Pipelined Y86-64 simulator (`src/pipe/psim.c`): shallow embedding

The simulator keeps its whole state in process-wide globals.  Here the globals
are the fields of one record, `Sim`, and every C function that mutates them is
a function `Sim → Sim`.  Machine words (`word_t`, 64 bit) are natural numbers
below `2 ^ 64`; additions and subtractions that can wrap are reduced modulo
`2 ^ 64` explicitly.  Trace output (`sim_log`, `printf`, `tty_report`) is not
part of the state and is left out.

The headers `isa.h`, `pipeline.h`, `stages.h`, `sim.h` and the file `isa.c` are
not part of the sources at hand.  What `psim.c` uses from them is collected in
the first section below.
-/

namespace Psim

/-! ## Declarations taken from the missing headers -/

/-- Modelled from the spec: the 64-bit word size of `word_t` (isa.h is not
among the sources); all word arithmetic is reduced modulo this number. -/
def WORD : Nat := 2 ^ 64

/-- Modelled from the spec: opcode constant `I_HALT` of isa.h (the halt
opcode); the numbering is the Y86-64 instruction encoding, in which the opcode
is the high nibble of the first instruction byte. -/
def I_HALT : Nat := 0
/-- Modelled from the spec: opcode constant `I_NOP` of isa.h. -/
def I_NOP : Nat := 1
/-- Modelled from the spec: opcode constant `I_RRMOVQ` of isa.h (register and
conditional move). -/
def I_RRMOVQ : Nat := 2
/-- Modelled from the spec: opcode constant `I_IRMOVQ` of isa.h
(immediate-load). -/
def I_IRMOVQ : Nat := 3
/-- Modelled from the spec: opcode constant `I_RMMOVQ` of isa.h
(memory-store). -/
def I_RMMOVQ : Nat := 4
/-- Modelled from the spec: opcode constant `I_MRMOVQ` of isa.h
(memory-load). -/
def I_MRMOVQ : Nat := 5
/-- Modelled from the spec: opcode constant `I_ALU` of isa.h
(arithmetic/logical operation). -/
def I_ALU : Nat := 6
/-- Modelled from the spec: opcode constant `I_JMP` of isa.h (conditional and
unconditional jump). -/
def I_JMP : Nat := 7
/-- Modelled from the spec: opcode constant `I_CALL` of isa.h. -/
def I_CALL : Nat := 8
/-- Modelled from the spec: opcode constant `I_RET` of isa.h. -/
def I_RET : Nat := 9
/-- Modelled from the spec: opcode constant `I_PUSHQ` of isa.h. -/
def I_PUSHQ : Nat := 10
/-- Modelled from the spec: opcode constant `I_POPQ` of isa.h. -/
def I_POPQ : Nat := 11
/-- Modelled from the spec: opcode constant `I_POP2` of isa.h (the internal
second-pop opcode), which follows `I_POPQ` (11) and the add-immediate opcode
(12) in the enumeration. -/
def I_POP2 : Nat := 13

/-- Modelled from the spec: sub-operation constant `F_NONE` of isa.h. -/
def F_NONE : Nat := 0

/-- Modelled from the spec: register id `REG_RSP` of isa.h, the dedicated
stack pointer. -/
def REG_RSP : Nat := 4
/-- Modelled from the spec: register id `REG_NONE` of isa.h, the sentinel
`NoRegister`. -/
def REG_NONE : Nat := 15

/-- Modelled from the spec: status `STAT_BUB` of isa.h (Bubble). -/
def STAT_BUB : Nat := 0
/-- Modelled from the spec: status `STAT_AOK` of isa.h (Ok). -/
def STAT_AOK : Nat := 1
/-- Modelled from the spec: status `STAT_HLT` of isa.h (Halt). -/
def STAT_HLT : Nat := 2
/-- Modelled from the spec: status `STAT_ADR` of isa.h (AddressFault). -/
def STAT_ADR : Nat := 3
/-- Modelled from the spec: status `STAT_INS` of isa.h (InstructionFault). -/
def STAT_INS : Nat := 4
/-- Modelled from the spec: status `STAT_PIP` of isa.h, the distinguished
pipeline-error status (ControlConflict). -/
def STAT_PIP : Nat := 5

/-- Modelled from the spec: `DEFAULT_CC` of isa.h, the initial condition codes
(zero flag set, sign and overflow clear). -/
def DEFAULT_CC : Nat := 4

/-- Modelled from the spec: `MEM_SIZE` of isa.h, the fixed capacity of the
memory in bytes. -/
def MEM_SIZE : Nat := 8192

/-- Modelled from the spec: macro `HI4` of isa.h, the high nibble of a byte. -/
def HI4 (b : Nat) : Nat := (b / 16) % 16
/-- Modelled from the spec: macro `LO4` of isa.h, the low nibble of a byte. -/
def LO4 (b : Nat) : Nat := b % 16
/-- Modelled from the spec: macro `HPACK` of isa.h, a byte from two nibbles. -/
def HPACK (hi lo : Nat) : Nat := (hi % 16) * 16 + lo % 16

/-- Modelled from the spec: the control tag `p_stat_t` of pipeline.h, one of
Load, Stall, Bubble, Error. -/
inductive p_stat_t where
  | P_LOAD
  | P_STALL
  | P_BUBBLE
  | P_ERROR
  deriving DecidableEq, Repr

open p_stat_t

/-- Modelled from the spec: `mem_t` of isa.h, a fixed-capacity byte array.
`len` is the capacity, `contents a` the byte at address `a`. -/
structure mem_t where
  len : Nat
  contents : Nat → Nat

/-- Modelled from the spec: `init_mem` of isa.c, a zeroed memory of the given
capacity. -/
def init_mem (len : Nat) : mem_t := { len := len, contents := fun _ => 0 }

/-- Modelled from the spec: `clear_mem` of isa.c, zeroes every byte. -/
def clear_mem (m : mem_t) : mem_t := { m with contents := fun _ => 0 }

/-- Modelled from the spec: `get_byte_val` of isa.c, `read(addr, 1)`; `none`
is the out-of-range fault (the C function returns FALSE and leaves the
destination untouched). -/
def get_byte_val (m : mem_t) (pos : Nat) : Option Nat :=
  if pos < m.len then some (m.contents pos) else none

/-- Modelled from the spec: `get_word_val` of isa.c, `read(addr, 8)`, little
endian; `none` is the out-of-range fault. -/
def get_word_val (m : mem_t) (pos : Nat) : Option Nat :=
  if pos + 8 ≤ m.len then
    some ((List.range 8).foldr
      (fun i acc => m.contents (pos + i) % 256 + 256 * acc) 0)
  else none

/-- Modelled from the spec: `set_word_val` of isa.c, `write(addr, 8, bytes)`,
little endian; `none` is the out-of-range fault, in which case the C function
writes nothing. -/
def set_word_val (m : mem_t) (pos val : Nat) : Option mem_t :=
  if pos + 8 ≤ m.len then
    some { m with contents := fun a =>
      if pos ≤ a ∧ a < pos + 8 then (val / 256 ^ (a - pos)) % 256
      else m.contents a }
  else none

/-- Modelled from the spec: the register file (`reg`, a `mem_t` in isa.h) as a
map from register id to 64-bit value. -/
abbrev regfile := Nat → Nat

/-- Modelled from the spec: `get_reg_val` of isa.c, `readReg(id)`, which is 0
for the sentinel `NoRegister`. -/
def get_reg_val (r : regfile) (id : Nat) : Nat :=
  if id = REG_NONE then 0 else r id

/-- Modelled from the spec: `set_reg_val` of isa.c, `writeReg(id, value)`, a
no-op for the sentinel `NoRegister`. -/
def set_reg_val (r : regfile) (id val : Nat) : regfile :=
  if id = REG_NONE then r else fun k => if k = id then val else r k

/-- Modelled from the spec: the functions `compute_alu`, `compute_cc` and
`cond_holds` of isa.c, which the Execute stage calls; they are parameters of
the model. -/
structure isa_fns where
  compute_alu : Nat → Nat → Nat → Nat
  compute_cc : Nat → Nat → Nat → Nat
  cond_holds : Nat → Nat → Bool

/-! ## Pipeline register payloads (stages.h) and their bubble values -/

/-- Payload `pc_ele` of the Fetch register. -/
structure pc_ele where
  pc : Nat
  status : Nat
  deriving DecidableEq, Repr

/-- Payload `if_id_ele` of the Decode-intake register. -/
structure if_id_ele where
  icode : Nat
  ifun : Nat
  ra : Nat
  rb : Nat
  valc : Nat
  valp : Nat
  status : Nat
  stage_pc : Nat
  deriving DecidableEq, Repr

/-- Payload `id_ex_ele` of the Execute-intake register. -/
structure id_ex_ele where
  icode : Nat
  ifun : Nat
  valc : Nat
  vala : Nat
  valb : Nat
  srca : Nat
  srcb : Nat
  deste : Nat
  destm : Nat
  status : Nat
  stage_pc : Nat
  deriving DecidableEq, Repr

/-- Payload `ex_mem_ele` of the Memory-intake register.  The field `srca` is
written by `do_ex_stage` and read by no function of `psim.c`. -/
structure ex_mem_ele where
  icode : Nat
  ifun : Nat
  takebranch : Bool
  vale : Nat
  vala : Nat
  deste : Nat
  destm : Nat
  srca : Nat
  status : Nat
  stage_pc : Nat
  deriving DecidableEq, Repr

/-- Payload `mem_wb_ele` of the Writeback-intake register. -/
structure mem_wb_ele where
  icode : Nat
  ifun : Nat
  vale : Nat
  valm : Nat
  deste : Nat
  destm : Nat
  status : Nat
  stage_pc : Nat
  deriving DecidableEq, Repr

/-- Bubble payload of the Fetch register: `{0, STAT_AOK}`. -/
def bubble_pc : pc_ele := { pc := 0, status := STAT_AOK }

/-- Bubble payload of the Decode-intake register. -/
def bubble_if_id : if_id_ele :=
  { icode := I_NOP, ifun := 0, ra := REG_NONE, rb := REG_NONE,
    valc := 0, valp := 0, status := STAT_BUB, stage_pc := 0 }

/-- Bubble payload of the Execute-intake register. -/
def bubble_id_ex : id_ex_ele :=
  { icode := I_NOP, ifun := 0, valc := 0, vala := 0, valb := 0,
    srca := REG_NONE, srcb := REG_NONE, deste := REG_NONE, destm := REG_NONE,
    status := STAT_BUB, stage_pc := 0 }

/-- Bubble payload of the Memory-intake register:
`{I_NOP, 0, FALSE, 0, 0, REG_NONE, REG_NONE, STAT_BUB, 0}`.  The initialiser
has nine values for the ten fields of the record; as `STAT_BUB` is 0, `srca`,
`status` and `stage_pc` are 0 whichever of them is the zero-filled one. -/
def bubble_ex_mem : ex_mem_ele :=
  { icode := I_NOP, ifun := 0, takebranch := false, vale := 0, vala := 0,
    deste := REG_NONE, destm := REG_NONE, srca := 0, status := STAT_BUB,
    stage_pc := 0 }

/-- Bubble payload of the Writeback-intake register. -/
def bubble_mem_wb : mem_wb_ele :=
  { icode := I_NOP, ifun := 0, vale := 0, valm := 0,
    deste := REG_NONE, destm := REG_NONE, status := STAT_BUB, stage_pc := 0 }

/-! ## Pipeline registers: `new_pipe`, `update_pipes`, `clear_pipes` -/

/-- The record `pipe_ele`: the double-buffered payload, the control tag and
the bubble payload the register was created with.  (`count`, the payload size
in bytes used by `memcpy`, has no counterpart.) -/
structure pipe_ele (α : Type) where
  current : α
  next : α
  op : p_stat_t
  bubble_val : α

/-- Function `new_pipe`: both slots hold the bubble payload, the tag is Load. -/
def new_pipe {α : Type} (bubble_val : α) : pipe_ele α :=
  { current := bubble_val, next := bubble_val, op := P_LOAD,
    bubble_val := bubble_val }

/-- Body of the loop of `update_pipes` for one register `p`. -/
def update_pipe {α : Type} (p : pipe_ele α) : pipe_ele α :=
  let p1 : pipe_ele α :=
    match p.op with
    | P_BUBBLE => { p with current := p.bubble_val }
    | P_LOAD => { p with current := p.next }
    | P_ERROR => { p with current := p.bubble_val }
    | P_STALL => p
  if p1.op ≠ P_ERROR then { p1 with op := P_LOAD } else p1

/-- Body of the loop of `clear_pipes` for one register `p`. -/
def clear_pipe {α : Type} (p : pipe_ele α) : pipe_ele α :=
  { p with current := p.bubble_val, next := p.bubble_val, op := P_LOAD }

/-- Function `pipe_cntl`: the control tag for a stall request and a bubble request
(both `word_t`, tested for non-zero). -/
def pipe_cntl (stall bubble : Nat) : p_stat_t :=
  if stall ≠ 0 then
    if bubble ≠ 0 then P_ERROR else P_STALL
  else
    if bubble ≠ 0 then P_BUBBLE else P_LOAD

/-! ## The simulator state (the globals of `psim.c`) -/

/-- The globals of `psim.c` that some function reads or writes.  The operand
multiplexer globals `amux`, `bmux` and the intermediate values `d_regvala`,
`d_regvalb` are never read and are left out. -/
structure Sim where
  cycles : Nat
  instructions : Nat
  starting_up : Bool
  mem : mem_t
  minAddr : Nat
  memCnt : Nat
  reg : regfile
  cc : Nat
  status : Nat
  cc_in : Nat
  wb_destE : Nat
  wb_valE : Nat
  wb_destM : Nat
  wb_valM : Nat
  mem_addr : Nat
  mem_data : Nat
  mem_write : Bool
  f_pc : Nat
  imem_icode : Nat
  imem_ifun : Nat
  imem_error : Bool
  instr_valid : Bool
  e_vala : Nat
  e_valb : Nat
  e_bcond : Bool
  dmem_error : Bool
  pc_state : pipe_ele pc_ele
  if_id_state : pipe_ele if_id_ele
  id_ex_state : pipe_ele id_ex_ele
  ex_mem_state : pipe_ele ex_mem_ele
  mem_wb_state : pipe_ele mem_wb_ele

/-- Function `update_pipes`: the loop over `pipes[0 .. pipe_count)`, which holds the
five registers created by `sim_init`. -/
def update_pipes (s : Sim) : Sim :=
  { s with
    pc_state := update_pipe s.pc_state
    if_id_state := update_pipe s.if_id_state
    id_ex_state := update_pipe s.id_ex_state
    ex_mem_state := update_pipe s.ex_mem_state
    mem_wb_state := update_pipe s.mem_wb_state }

/-- Function `clear_pipes`: every register back to its bubble payload, tag
Load. -/
def clear_pipes (s : Sim) : Sim :=
  { s with
    pc_state := clear_pipe s.pc_state
    if_id_state := clear_pipe s.if_id_state
    id_ex_state := clear_pipe s.id_ex_state
    ex_mem_state := clear_pipe s.ex_mem_state
    mem_wb_state := clear_pipe s.mem_wb_state }

/-- Function `sim_reset` on an initialised simulator. -/
def sim_reset (s : Sim) : Sim :=
  let s1 := clear_pipes s
  { s1 with
    reg := fun _ => 0
    minAddr := 0
    memCnt := 0
    starting_up := true
    cycles := 0
    instructions := 0
    cc := DEFAULT_CC
    status := STAT_AOK
    cc_in := DEFAULT_CC
    wb_destE := REG_NONE
    wb_valE := 0
    wb_destM := REG_NONE
    wb_valM := 0
    mem_addr := 0
    mem_data := 0
    mem_write := false }

/-- Function `sim_init` at process start: the globals have their static initialisers
(zero where none is written), memory and register file are created, the five
registers are created by `new_pipe`, then `sim_reset` and `clear_mem(mem)`. -/
def sim_init : Sim :=
  let s0 : Sim :=
    { cycles := 0, instructions := 0, starting_up := true,
      mem := init_mem MEM_SIZE, minAddr := 0, memCnt := 0,
      reg := fun _ => 0, cc := 0, status := 0,
      cc_in := DEFAULT_CC, wb_destE := REG_NONE, wb_valE := 0,
      wb_destM := REG_NONE, wb_valM := 0, mem_addr := 0, mem_data := 0,
      mem_write := false,
      f_pc := 0, imem_icode := 0, imem_ifun := 0, imem_error := false,
      instr_valid := false, e_vala := 0, e_valb := 0, e_bcond := false,
      dmem_error := false,
      pc_state := new_pipe bubble_pc,
      if_id_state := new_pipe bubble_if_id,
      id_ex_state := new_pipe bubble_id_ex,
      ex_mem_state := new_pipe bubble_ex_mem,
      mem_wb_state := new_pipe bubble_mem_wb }
  let s1 := sim_reset s0
  { s1 with mem := clear_mem s1.mem }

/-! ## Stage transforms -/

/-- Function `do_wb_stage`: both pending register writes, then the cycle
status. -/
def do_wb_stage (s : Sim) : Sim :=
  let w := s.mem_wb_state.current
  let wb_destE := w.deste
  let wb_valE := w.valm
  let wb_destM := w.destm
  let wb_valM := w.valm
  let reg1 := if wb_destE ≠ REG_NONE then set_reg_val s.reg wb_destE wb_valE
              else s.reg
  let reg2 := if wb_destM ≠ REG_NONE then set_reg_val reg1 wb_destM wb_valM
              else reg1
  { s with
    wb_destE := wb_destE
    wb_valE := wb_valE
    wb_destM := wb_destM
    wb_valM := wb_valM
    reg := reg2
    status := if w.status = STAT_BUB then STAT_AOK else w.status }

/-- Function `do_mem_stage`.  The load of a return instruction stores its word in
`mem_wb_curr->valm`, the loads of memory-load and pop in `mem_wb_next->valm`;
a failing store only writes a trace line. -/
def do_mem_stage (s : Sim) : Sim :=
  let m := s.ex_mem_state.current
  let isStore := m.icode = I_RMMOVQ ∨ m.icode = I_CALL ∨ m.icode = I_PUSHQ
  -- the switch over `ex_mem_curr->icode`
  let status1 := if m.icode = I_HALT then STAT_HLT else s.status
  let mem_write : Bool := decide isStore
  let mem_addr :=
    if isStore then m.vale
    else if m.icode = I_MRMOVQ then m.vale
    else if m.icode = I_POPQ then m.vala
    else 0
  let mem_data := if isStore then m.vala else 0
  let rd : Option (Option Nat) :=
    if m.icode = I_MRMOVQ then some (get_word_val s.mem m.vale)
    else if m.icode = I_RET then some (get_word_val s.mem m.vala)
    else if m.icode = I_POPQ then some (get_word_val s.mem m.vala)
    else none
  let dmem_error : Bool :=
    match rd with
    | some none => true
    | _ => false
  let next_valm : Nat :=
    if m.icode = I_MRMOVQ ∨ m.icode = I_POPQ then
      match rd with
      | some (some v) => v
      | _ => 0
    else 0
  let curr_valm : Nat :=
    if m.icode = I_RET then
      match rd with
      | some (some v) => v
      | _ => s.mem_wb_state.current.valm
    else s.mem_wb_state.current.valm
  -- `if (mem_write) set_word_val(mem, mem_addr, mem_data)`
  let mem1 :=
    if mem_write then
      match set_word_val s.mem mem_addr mem_data with
      | some m1 => m1
      | none => s.mem
    else s.mem
  let wn := s.mem_wb_state.next
  { s with
    status := status1
    mem_addr := mem_addr
    mem_data := mem_data
    mem_write := mem_write
    dmem_error := dmem_error
    imem_error := false
    mem := mem1
    mem_wb_state := { s.mem_wb_state with
      current := { s.mem_wb_state.current with valm := curr_valm }
      next := { wn with
        valm := next_valm
        icode := m.icode
        ifun := m.ifun
        vale := m.vale
        destm := m.destm
        deste := m.deste
        status := if dmem_error then STAT_ADR else m.status } } }

/-- Function `set_CC_Val`: no Halt, AddressFault or InstructionFault status leaving
Memory or in Writeback. -/
def set_CC_Val (s : Sim) : Bool :=
  let n := s.mem_wb_state.next
  let c := s.mem_wb_state.current
  let m_stat := n.status = STAT_HLT ∨ n.status = STAT_ADR ∨ n.status = STAT_INS
  let w_stat := c.status = STAT_HLT ∨ c.status = STAT_ADR ∨ c.status = STAT_INS
  decide (¬ m_stat ∧ ¬ w_stat)

/-- Function `do_ex_stage`.  The local `setcc` is FALSE when `if (setcc) cc = cc_in` is
reached (it is assigned only later, in the arithmetic case, and not read
again), so `cc` is not written. -/
def do_ex_stage (isa : isa_fns) (s : Sim) : Sim :=
  let e := s.id_ex_state.current
  let cc_in0 := s.cc
  let e_vala := e.vala
  let e_valb := e.valb
  let vale : Nat :=
    if e.icode = I_RRMOVQ then e_vala
    else if e.icode = I_IRMOVQ then e.valc
    else if e.icode = I_RMMOVQ then (e_valb + e.valc) % WORD
    else if e.icode = I_MRMOVQ then (e_valb + e_vala) % WORD
    else if e.icode = I_ALU then isa.compute_alu e.ifun e_vala e_valb
    else if e.icode = I_CALL then (e_valb + (WORD - 8)) % WORD
    else if e.icode = I_RET then (e_valb + 8) % WORD
    else if e.icode = I_PUSHQ then (e_valb + (WORD - 8)) % WORD
    else if e.icode = I_POPQ then (e_valb + 8) % WORD
    else 0
  let cc_in :=
    if e.icode = I_ALU then isa.compute_cc e.ifun e_vala e_valb else cc_in0
  let e_bcond : Bool :=
    if e.icode = I_RRMOVQ then isa.cond_holds cc_in0 e.ifun
    else if e.icode = I_JMP then isa.cond_holds cc_in0 e.ifun
    else false
  let my_cond : Bool := decide (e.icode = I_RRMOVQ) && !e_bcond
  let x := s.ex_mem_state.next
  let x1 : ex_mem_ele :=
    { x with
      vale := vale
      vala := e_vala
      ifun := e.ifun
      icode := e.icode
      takebranch := e_bcond
      deste := if my_cond then REG_NONE else e.deste }
  let x2 : ex_mem_ele :=
    if my_cond then x1
    else { x1 with destm := e.destm, srca := e.srca, status := e.status }
  { s with
    cc_in := cc_in
    e_vala := e_vala
    e_valb := e_valb
    e_bcond := e_bcond
    ex_mem_state := { s.ex_mem_state with next := x2 } }

/-- Function `next_vala`: the forwarding chain for source A.  Every branch of the chain
assigns `vala`, so the preceding assignment of `valp` for call and jump is
overwritten. -/
def next_vala (s : Sim) : Sim :=
  let d := s.if_id_state.current
  let n := s.id_ex_state.next
  let xn := s.ex_mem_state.next
  let xc := s.ex_mem_state.current
  let wn := s.mem_wb_state.next
  let wc := s.mem_wb_state.current
  let vala0 := if d.icode = I_CALL ∨ d.icode = I_JMP then d.valp else n.vala
  let vala :=
    if n.srca = xn.deste then xn.vale
    else if n.srca = xc.destm then wn.valm
    else if n.srca = xc.deste then xc.vale
    else if n.srca = wc.destm then wc.valm
    else if n.srca = wc.deste then wc.vale
    else get_reg_val s.reg n.srca
  let n1 : id_ex_ele := { n with vala := vala0 }
  { s with id_ex_state := { s.id_ex_state with next := { n1 with vala := vala } } }

/-- Function `next_valb`: the forwarding chain for source B. -/
def next_valb (s : Sim) : Sim :=
  let n := s.id_ex_state.next
  let xn := s.ex_mem_state.next
  let xc := s.ex_mem_state.current
  let wn := s.mem_wb_state.next
  let wc := s.mem_wb_state.current
  let valb :=
    if n.srcb = xn.deste then xn.vale
    else if n.srcb = xc.destm then wn.valm
    else if n.srcb = xc.deste then xc.vale
    else if n.srcb = wc.destm then wc.valm
    else if n.srcb = wc.deste then wc.vale
    else get_reg_val s.reg n.srcb
  { s with id_ex_state := { s.id_ex_state with next := { n with valb := valb } } }

/-- The switch of `do_id_stage` over `if_id_curr->icode`, applied to the
payload `n0` whose register ids and operand values were just cleared. -/
def id_decode (d : if_id_ele) (n0 : id_ex_ele) : id_ex_ele :=
  if d.icode = I_HALT then n0
  else if d.icode = I_NOP then n0
  else if d.icode = I_RRMOVQ then { n0 with srca := d.ra, deste := d.rb }
  else if d.icode = I_IRMOVQ then { n0 with deste := d.rb, valc := d.valc }
  else if d.icode = I_RMMOVQ then
    { n0 with srca := d.ra, srcb := d.rb, valc := d.valc }
  else if d.icode = I_MRMOVQ then
    { n0 with srcb := d.rb, destm := d.ra, valc := d.valc }
  else if d.icode = I_ALU then
    { n0 with srca := d.ra, srcb := d.rb, deste := d.rb }
  else if d.icode = I_JMP then { n0 with valc := d.valc }
  else if d.icode = I_CALL then
    { n0 with srcb := REG_RSP, deste := REG_RSP, valc := d.valc }
  else if d.icode = I_RET then
    { n0 with srca := REG_RSP, srcb := REG_RSP, deste := REG_RSP }
  else if d.icode = I_PUSHQ then
    { n0 with srca := d.ra, srcb := REG_RSP, deste := REG_RSP }
  else if d.icode = I_POPQ then
    { n0 with srca := REG_RSP, srcb := REG_RSP, deste := REG_RSP,
              destm := d.ra }
  else n0

/-- Function `do_id_stage`. -/
def do_id_stage (s : Sim) : Sim :=
  let d := s.if_id_state.current
  let n0 : id_ex_ele :=
    { s.id_ex_state.next with
      srca := REG_NONE, srcb := REG_NONE, deste := REG_NONE,
      destm := REG_NONE, vala := 0, valb := 0 }
  let s1 : Sim :=
    { s with id_ex_state := { s.id_ex_state with next := id_decode d n0 } }
  let s2 := next_valb (next_vala s1)
  { s2 with id_ex_state := { s2.id_ex_state with
      next := { s2.id_ex_state.next with
        icode := d.icode, ifun := d.ifun, status := d.status } } }

/-- The indeterminate initial values of the two locals of `do_if_stage` that
are declared without initialiser and read before any assignment: `valp` (its
value is used as the address of the operand reads) and `reg_ids` (its value is
used when the byte read fails). -/
structure if_locals where
  valp : Nat
  reg_ids : Nat

/-- Function `do_if_stage`.  The opcode byte is read at the global `f_pc`, which no
function assigns; the locals `valp` and `valc` are not stored anywhere after
the switch, so their final values have no counterpart. -/
def do_if_stage (j : if_locals) (s : Sim) : Sim :=
  let xc := s.ex_mem_state.current
  let wc := s.mem_wb_state.current
  let n := s.if_id_state.next
  -- `(ex_mem_curr->icode) == ((I_JMP) && !(ex_mem_curr->takebranch))`
  let rhs : Nat := if I_JMP ≠ 0 ∧ xc.takebranch = false then 1 else 0
  let valp_next :=
    if xc.icode = rhs then xc.vala
    else if wc.icode = I_RET then wc.valm
    else s.pc_state.current.pc
  let rd := get_byte_val s.mem s.f_pc
  let instr := rd.getD (HPACK I_NOP F_NONE)
  let imem_error : Bool := rd.isNone
  let imem_icode := HI4 instr
  let imem_ifun := LO4 instr
  let icode := if imem_error then I_NOP else imem_ifun
  let ifun := if imem_error then F_NONE else imem_ifun
  let status :=
    if imem_error then STAT_ADR
    else if s.instr_valid = false then STAT_INS
    else if icode = I_HALT then STAT_HLT
    else STAT_AOK
  let instr_valid : Bool := decide (I_HALT ≤ icode ∧ icode ≤ I_POP2)
  -- the switch over `imem_icode`
  let regAddr := if imem_icode = I_RRMOVQ then (s.f_pc + 1) % WORD
                 else (j.valp + 1) % WORD
  let readsReg := imem_icode = I_RRMOVQ ∨ imem_icode = I_IRMOVQ ∨
    imem_icode = I_RMMOVQ ∨ imem_icode = I_MRMOVQ ∨ imem_icode = I_ALU ∨
    imem_icode = I_PUSHQ ∨ imem_icode = I_POPQ
  let regRd := get_byte_val s.mem regAddr
  let reg_ids := regRd.getD j.reg_ids
  let ra :=
    if imem_icode = I_IRMOVQ then LO4 reg_ids
    else if readsReg then HI4 reg_ids
    else n.ra
  let rb := if readsReg ∧ imem_icode ≠ I_IRMOVQ then LO4 reg_ids else n.rb
  let wordAddr : Option Nat :=
    if imem_icode = I_IRMOVQ ∨ imem_icode = I_RMMOVQ ∨ imem_icode = I_MRMOVQ
      then some ((j.valp + 2) % WORD)
    else if imem_icode = I_JMP ∨ imem_icode = I_CALL
      then some ((j.valp + 1) % WORD)
    else none
  let wordFail : Bool :=
    match wordAddr with
    | some a => (get_word_val s.mem a).isNone
    | none => false
  let dmem_error : Bool :=
    (s.dmem_error || (decide readsReg && regRd.isNone)) || wordFail
  let known := imem_icode = I_HALT ∨ imem_icode = I_NOP ∨ readsReg ∨
    imem_icode = I_JMP ∨ imem_icode = I_CALL ∨ imem_icode = I_RET
  let imem_error1 : Bool := if known then imem_error else false
  let n1 : if_id_ele :=
    { n with valp := valp_next, icode := icode, ifun := ifun,
             status := status, ra := ra, rb := rb }
  let pcn : pc_ele :=
    { pc := if n1.icode = I_JMP ∨ n1.icode = I_CALL then n1.valc else n1.valp
      status := if n1.status = STAT_AOK then STAT_AOK else STAT_BUB }
  { s with
    imem_error := imem_error1
    imem_icode := imem_icode
    imem_ifun := imem_ifun
    instr_valid := instr_valid
    dmem_error := dmem_error
    if_id_state := { s.if_id_state with next := n1 }
    pc_state := { s.pc_state with next := pcn } }

/-! ## Hazard/control unit -/

/-- Function `pipe_cntl_F_Bubble`. -/
def pipe_cntl_F_Bubble (_s : Sim) : Bool := false

/-- Function `pipe_cntl_F_Stall`. -/
def pipe_cntl_F_Stall (s : Sim) : Bool :=
  let e := s.id_ex_state.current
  let n := s.id_ex_state.next
  let E_codeIN := e.icode = I_MRMOVQ ∨ e.icode = I_POPQ
  let dstMIN := e.destm = n.srca ∨ e.destm = n.srcb
  let I_RETIN := s.if_id_state.current.icode = I_RET ∨ e.icode = I_RET ∨
    s.ex_mem_state.current.icode = I_RET
  decide ((E_codeIN ∧ dstMIN) ∨ I_RETIN)

/-- Function `pipe_cntl_D_Bubble`. -/
def pipe_cntl_D_Bubble (s : Sim) : Bool :=
  let e := s.id_ex_state.current
  let n := s.id_ex_state.next
  let E_codeIN := e.icode = I_MRMOVQ ∨ e.icode = I_POPQ
  let dstMIN := e.destm = n.srca ∨ e.destm = n.srcb
  decide (E_codeIN ∧ dstMIN)

/-- Function `pipe_cntl_D_Stall`.  `takebranch` is a `bool_t`, compared with the opcode
as the integer 0 or 1. -/
def pipe_cntl_D_Stall (s : Sim) : Bool :=
  let e := s.id_ex_state.current
  let n := s.id_ex_state.next
  let branch := e.icode = I_JMP ∧
    ¬ (e.icode = s.ex_mem_state.next.takebranch.toNat)
  let E_codeIN := e.icode = I_MRMOVQ ∨ e.icode = I_POPQ
  let dstMIN := e.destm = n.srca ∨ e.destm = n.srcb
  let I_RETIN := s.if_id_state.current.icode = I_RET ∨ e.icode = I_RET ∨
    s.ex_mem_state.current.icode = I_RET
  decide (branch ∨ ¬ (E_codeIN ∧ dstMIN ∧ I_RETIN))

/-- Function `pipe_cntl_E_Stall`. -/
def pipe_cntl_E_Stall (_s : Sim) : Bool := false

/-- Function `pipe_cntl_E_Bubble`. -/
def pipe_cntl_E_Bubble (s : Sim) : Bool :=
  let e := s.id_ex_state.current
  let n := s.id_ex_state.next
  let branch := e.icode = I_JMP ∧
    ¬ (e.icode = s.ex_mem_state.next.takebranch.toNat)
  let E_codeIN := e.icode = I_MRMOVQ ∨ e.icode = I_POPQ
  let dstMIN := e.destm = n.srca ∨ e.destm = n.srcb
  decide ((branch ∨ E_codeIN) ∧ dstMIN)

/-- Function `pipe_cntl_M_Stall`. -/
def pipe_cntl_M_Stall (_s : Sim) : Bool := false

/-- Function `pipe_cntl_M_Bubble`. -/
def pipe_cntl_M_Bubble (s : Sim) : Bool :=
  let m := s.ex_mem_state.current
  let w := s.mem_wb_state.current
  let m_stat := m.status = STAT_ADR ∨ m.status = STAT_INS ∨ m.status = STAT_HLT
  let w_stat := w.status = STAT_ADR ∨ w.status = STAT_INS ∨ w.status = STAT_HLT
  decide (m_stat ∨ w_stat)

/-- Function `pipe_cntl_W_Stall`. -/
def pipe_cntl_W_Stall (s : Sim) : Bool :=
  let w := s.mem_wb_state.current
  decide (w.status = STAT_ADR ∨ w.status = STAT_INS ∨ w.status = STAT_HLT)

/-- Function `pipe_cntl_W_Bubble`. -/
def pipe_cntl_W_Bubble (_s : Sim) : Bool := false

/-- Function `do_stall_check`: the control tag of each of the five registers. -/
def do_stall_check (s : Sim) : Sim :=
  { s with
    pc_state := { s.pc_state with
      op := pipe_cntl (pipe_cntl_F_Stall s).toNat (pipe_cntl_F_Bubble s).toNat }
    if_id_state := { s.if_id_state with
      op := pipe_cntl (pipe_cntl_D_Stall s).toNat (pipe_cntl_D_Bubble s).toNat }
    id_ex_state := { s.id_ex_state with
      op := pipe_cntl (pipe_cntl_E_Stall s).toNat (pipe_cntl_E_Bubble s).toNat }
    ex_mem_state := { s.ex_mem_state with
      op := pipe_cntl (pipe_cntl_M_Stall s).toNat (pipe_cntl_M_Bubble s).toNat }
    mem_wb_state := { s.mem_wb_state with
      op := pipe_cntl (pipe_cntl_W_Stall s).toNat (pipe_cntl_W_Bubble s).toNat } }

/-! ## Pipeline driver -/

/-- The error check of `sim_step_pipe` for one register: status `STAT_PIP` in
the current payload when the tag is Error. -/
def pip_check {α : Type} (setStatus : α → Nat → α) (p : pipe_ele α) :
    pipe_ele α :=
  if p.op = P_ERROR then { p with current := setStatus p.current STAT_PIP }
  else p

/-- The five error checks at the start of `sim_step_pipe`. -/
def error_check (s : Sim) : Sim :=
  { s with
    pc_state := pip_check (fun c v => { c with status := v }) s.pc_state
    if_id_state := pip_check (fun c v => { c with status := v }) s.if_id_state
    id_ex_state := pip_check (fun c v => { c with status := v }) s.id_ex_state
    ex_mem_state := pip_check (fun c v => { c with status := v }) s.ex_mem_state
    mem_wb_state := pip_check (fun c v => { c with status := v }) s.mem_wb_state }

/-- The first part of `sim_step_pipe`: `update_pipes` and the error checks.
Its result is the state the stage transforms start from. -/
def step_commit (s : Sim) : Sim := error_check (update_pipes s)

/-- The performance monitoring at the end of `sim_step_pipe`. -/
def perf_count (s : Sim) : Sim :=
  let w := s.mem_wb_state.current
  if w.status ≠ STAT_BUB ∧ w.icode ≠ I_POP2 then
    { s with starting_up := false, instructions := s.instructions + 1,
             cycles := s.cycles + 1 }
  else if s.starting_up = false then { s with cycles := s.cycles + 1 }
  else s

/-- Function `sim_step_pipe`: one cycle.  The returned status is the field `status` of
the result. -/
def sim_step_pipe (isa : isa_fns) (j : if_locals) (s : Sim) : Sim :=
  perf_count (do_stall_check (do_if_stage j (do_id_stage (do_ex_stage isa
    (do_mem_stage (do_wb_stage (step_commit s)))))))

/-- What `sim_run_pipe` leaves: the returned count, `*statusp`, `*ccp`, the
number of cycles simulated (calls of `sim_step_pipe`) and the globals. -/
structure run_result where
  icount : Nat
  run_status : Nat
  ccp : Nat
  steps : Nat
  sim : Sim

/-- The loop of `sim_run_pipe`.  `rem` bounds the iterations still possible;
`sim_run_pipe` starts it at `max_cycle`, and each iteration that does not
leave the loop raises `ccount` by one. -/
def sim_run_loop (isa : isa_fns) (junk : Nat → if_locals)
    (max_instr max_cycle : Int) :
    Nat → Nat → Nat → Nat → Nat → Sim → run_result
  | 0, icount, _ccount, run_status, steps, s =>
    { icount := icount, run_status := run_status, ccp := s.cc,
      steps := steps, sim := s }
  | rem + 1, icount, ccount, run_status, steps, s =>
    if (icount : Int) < max_instr ∧ (ccount : Int) < max_cycle then
      let s1 := sim_step_pipe isa (junk ccount) s
      let run_status1 := s1.status
      let icount1 := if run_status1 ≠ STAT_BUB then icount + 1 else icount
      if run_status1 ≠ STAT_AOK ∧ run_status1 ≠ STAT_BUB then
        { icount := icount1, run_status := run_status1, ccp := s1.cc,
          steps := steps + 1, sim := s1 }
      else
        sim_run_loop isa junk max_instr max_cycle rem icount1 (ccount + 1)
          run_status1 (steps + 1) s1
    else
      { icount := icount, run_status := run_status, ccp := s.cc,
        steps := steps, sim := s }

/-- Function `sim_run_pipe`.  `junk c` gives the indeterminate locals of the Fetch
stage in the cycle numbered `c`. -/
def sim_run_pipe (isa : isa_fns) (junk : Nat → if_locals)
    (max_instr max_cycle : Int) (s : Sim) : run_result :=
  sim_run_loop isa junk max_instr max_cycle max_cycle.toNat 0 0 STAT_AOK 0 s

/-- The state `run_tty_sim` hands to `sim_run_pipe`: `sim_init`, then the
object image loaded into memory. -/
def loaded (image : Nat → Nat) : Sim :=
  { sim_init with mem := { sim_init.mem with contents := image } }

/-! ## Specification-side definitions and concrete states -/

/-- What it means that the control tag of a register was applied: `p` is the
register before the commit, `q` after it. -/
def tag_applied {α : Type} (p q : pipe_ele α) : Prop :=
  (p.op = P_LOAD → q.current = p.next) ∧
  (p.op = P_STALL → q.current = p.current) ∧
  (p.op = P_BUBBLE ∨ p.op = P_ERROR → q.current = p.bubble_val) ∧
  q.next = p.next ∧
  (p.op = P_LOAD ∨ p.op = P_STALL ∨ p.op = P_BUBBLE → q.op = P_LOAD) ∧
  (p.op = P_ERROR → q.op = P_ERROR)

/-- The forwarding sources in priority order, each a destination register id
with the value it offers: Execute's result about to be committed, Memory's
load about to be committed, Memory's current Execute result, Writeback's
current load, Writeback's current Execute result. -/
def forward_candidates (s : Sim) : List (Nat × Nat) :=
  [ (s.ex_mem_state.next.deste, s.ex_mem_state.next.vale),
    (s.ex_mem_state.current.destm, s.mem_wb_state.next.valm),
    (s.ex_mem_state.current.deste, s.ex_mem_state.current.vale),
    (s.mem_wb_state.current.destm, s.mem_wb_state.current.valm),
    (s.mem_wb_state.current.deste, s.mem_wb_state.current.vale) ]

/-- The operand value for source register `r`: the value of the first
forwarding source whose destination is `r`, else the committed register-file
value of `r`. -/
def forward_first_match (s : Sim) (r : Nat) : Nat :=
  match (forward_candidates s).find? (fun c => c.1 == r) with
  | some c => c.2
  | none => s.reg r

/-- A Decode-stage state in which both operands are forwarded: `addq %rax,
%rbx` in Decode, Execute about to commit 42 to `%rax`, Writeback holding a
load of 7 into `%rbx`. -/
def fwd_state : Sim :=
  { sim_init with
    if_id_state := { sim_init.if_id_state with
      current := { bubble_if_id with icode := I_ALU, ra := 0, rb := 3,
                                     status := STAT_AOK } }
    ex_mem_state := { sim_init.ex_mem_state with
      next := { bubble_ex_mem with icode := I_IRMOVQ, deste := 0, vale := 42,
                                   status := STAT_AOK } }
    mem_wb_state := { sim_init.mem_wb_state with
      current := { bubble_mem_wb with icode := I_MRMOVQ, destm := 3, valm := 7,
                                      status := STAT_AOK } } }

/-- A load-use state: `mrmovq (%rbx), %rax` in Execute, and the instruction
just decoded, `addq %rax, %rbx`, reads `%rax`; no return in flight. -/
def load_use_state : Sim :=
  { sim_init with
    id_ex_state := { sim_init.id_ex_state with
      current := { bubble_id_ex with icode := I_MRMOVQ, srcb := 3, destm := 0,
                                     status := STAT_AOK }
      next := { bubble_id_ex with icode := I_ALU, srca := 0, srcb := 3,
                                  deste := 3, status := STAT_AOK } } }

/-- A misprediction state: a conditional jump in Execute that Execute
resolved as not taken (`ex_mem_next.takebranch` false), and `addq %rax, %rbx`
just decoded. -/
def mispredict_state : Sim :=
  { sim_init with
    id_ex_state := { sim_init.id_ex_state with
      current := { bubble_id_ex with icode := I_JMP, ifun := 1,
                                     status := STAT_AOK }
      next := { bubble_id_ex with icode := I_ALU, srca := 0, srcb := 3,
                                  deste := 3, status := STAT_AOK } }
    ex_mem_state := { sim_init.ex_mem_state with
      next := { bubble_ex_mem with icode := I_JMP, ifun := 1,
                                   takebranch := false, status := STAT_AOK } } }

/-- A return-hazard state: a return instruction in Decode (`if_id_curr`),
bubbles in Execute and Memory, hence no load-use hazard. -/
def ret_state : Sim :=
  { sim_init with
    if_id_state := { sim_init.if_id_state with
      current := { bubble_if_id with icode := I_RET, status := STAT_AOK } }
    id_ex_state := { sim_init.id_ex_state with
      next := { bubble_id_ex with icode := I_RET, srca := REG_RSP,
                                  srcb := REG_RSP, deste := REG_RSP,
                                  status := STAT_AOK } } }

/-- A state in which the instruction in the Memory stage is a halt (status
Halt in `ex_mem_curr` and in the Memory stage's output `mem_wb_next`) while
Writeback holds an ordinary instruction with status Ok. -/
def mem_fault_state : Sim :=
  { sim_init with
    ex_mem_state := { sim_init.ex_mem_state with
      current := { bubble_ex_mem with icode := I_HALT, status := STAT_HLT } }
    mem_wb_state := { sim_init.mem_wb_state with
      current := { bubble_mem_wb with icode := I_NOP, status := STAT_AOK }
      next := { bubble_mem_wb with icode := I_HALT, status := STAT_HLT } } }

/-- A state in which Writeback holds a halt instruction (status Halt). -/
def wb_fault_state : Sim :=
  { sim_init with
    mem_wb_state := { sim_init.mem_wb_state with
      current := { bubble_mem_wb with icode := I_HALT, status := STAT_HLT } } }

/-- A state in which the control tag of every register is Error, as
`do_stall_check` leaves it when stall and bubble are requested together. -/
def all_error_state : Sim :=
  { sim_init with
    pc_state := { sim_init.pc_state with op := P_ERROR }
    if_id_state := { sim_init.if_id_state with op := P_ERROR }
    id_ex_state := { sim_init.id_ex_state with op := P_ERROR }
    ex_mem_state := { sim_init.ex_mem_state with op := P_ERROR }
    mem_wb_state := { sim_init.mem_wb_state with op := P_ERROR } }

/-- An instance of the ISA functions for closed examples in which no
arithmetic instruction, conditional move or jump is executed. -/
def isa_zero : isa_fns :=
  { compute_alu := fun _ _ _ => 0, compute_cc := fun _ _ _ => DEFAULT_CC,
    cond_holds := fun _ _ => false }

/-- Values for the indeterminate locals of the Fetch stage in closed
examples. -/
def locals_zero : if_locals := { valp := 0, reg_ids := 0 }

/-- The object image that consists solely of the halt opcode at address 0. -/
def halt_image : Nat → Nat :=
  fun a => if a = 0 then HPACK I_HALT F_NONE else 0

/-- The object image of `irmovq $42, %rax` (bytes `30 F0 2A 00 .. 00` at
addresses 0 to 9) followed by `halt` (byte `00` at address 10). -/
def irmovq_image : Nat → Nat :=
  fun a =>
    if a = 0 then HPACK I_IRMOVQ F_NONE
    else if a = 1 then HPACK REG_NONE 0
    else if a = 2 then 42
    else 0

/-! ## The sequential reference execution -/

/-- Modelled from the spec: the architectural state `state_rec` of isa.h that
the reference execution works on (program counter, register file, memory,
condition codes). -/
structure ref_state where
  pc : Nat
  reg : regfile
  mem : mem_t
  cc : Nat

/-- Modelled from the spec: `step_state` of isa.c, the non-pipelined reference
that executes one instruction at a time.  Fetch reads the opcode byte and, by
opcode, an operand-register byte and an 8-byte immediate; arithmetic writes
the ALU result to rB and sets the condition codes; immediate-load writes the
immediate to rB; memory-store and memory-load use base rB plus displacement;
call and push store at the stack pointer minus 8, return and pop load at the
stack pointer and add 8; a conditional move writes only if its condition
holds; a jump goes to its target if its condition holds.  The result is the
status of the instruction with the state after it; a faulting instruction
leaves the state as it was. -/
def step_state (isa : isa_fns) (st : ref_state) : Nat × ref_state :=
  match get_byte_val st.mem st.pc with
  | none => (STAT_ADR, st)
  | some b0 =>
    let icode := HI4 b0
    let ifun := LO4 b0
    let regs := get_byte_val st.mem ((st.pc + 1) % WORD)
    let ra := HI4 (regs.getD 0)
    let rb := LO4 (regs.getD 0)
    let rsp := get_reg_val st.reg REG_RSP
    if icode = I_HALT then (STAT_HLT, st)
    else if icode = I_NOP then (STAT_AOK, { st with pc := (st.pc + 1) % WORD })
    else if icode = I_RRMOVQ then
      match regs with
      | none => (STAT_ADR, st)
      | some _ =>
        let r1 := if isa.cond_holds st.cc ifun
                  then set_reg_val st.reg rb (get_reg_val st.reg ra)
                  else st.reg
        (STAT_AOK, { st with pc := (st.pc + 2) % WORD, reg := r1 })
    else if icode = I_IRMOVQ then
      match regs, get_word_val st.mem ((st.pc + 2) % WORD) with
      | some _, some c =>
        (STAT_AOK, { st with pc := (st.pc + 10) % WORD,
                             reg := set_reg_val st.reg rb c })
      | _, _ => (STAT_ADR, st)
    else if icode = I_RMMOVQ then
      match regs, get_word_val st.mem ((st.pc + 2) % WORD) with
      | some _, some c =>
        match set_word_val st.mem ((get_reg_val st.reg rb + c) % WORD)
            (get_reg_val st.reg ra) with
        | some m1 => (STAT_AOK, { st with pc := (st.pc + 10) % WORD, mem := m1 })
        | none => (STAT_ADR, st)
      | _, _ => (STAT_ADR, st)
    else if icode = I_MRMOVQ then
      match regs, get_word_val st.mem ((st.pc + 2) % WORD) with
      | some _, some c =>
        match get_word_val st.mem ((get_reg_val st.reg rb + c) % WORD) with
        | some v =>
          (STAT_AOK, { st with pc := (st.pc + 10) % WORD,
                               reg := set_reg_val st.reg ra v })
        | none => (STAT_ADR, st)
      | _, _ => (STAT_ADR, st)
    else if icode = I_ALU then
      match regs with
      | none => (STAT_ADR, st)
      | some _ =>
        let a := get_reg_val st.reg ra
        let b := get_reg_val st.reg rb
        (STAT_AOK, { st with pc := (st.pc + 2) % WORD,
                             reg := set_reg_val st.reg rb
                               (isa.compute_alu ifun a b),
                             cc := isa.compute_cc ifun a b })
    else if icode = I_JMP then
      match get_word_val st.mem ((st.pc + 1) % WORD) with
      | some c =>
        (STAT_AOK, { st with pc := if isa.cond_holds st.cc ifun then c
                                   else (st.pc + 9) % WORD })
      | none => (STAT_ADR, st)
    else if icode = I_CALL then
      match get_word_val st.mem ((st.pc + 1) % WORD) with
      | some c =>
        let sp := (rsp + (WORD - 8)) % WORD
        match set_word_val st.mem sp ((st.pc + 9) % WORD) with
        | some m1 =>
          (STAT_AOK, { st with pc := c, mem := m1,
                               reg := set_reg_val st.reg REG_RSP sp })
        | none => (STAT_ADR, st)
      | none => (STAT_ADR, st)
    else if icode = I_RET then
      match get_word_val st.mem rsp with
      | some v =>
        (STAT_AOK, { st with pc := v,
                             reg := set_reg_val st.reg REG_RSP
                               ((rsp + 8) % WORD) })
      | none => (STAT_ADR, st)
    else if icode = I_PUSHQ then
      match regs with
      | none => (STAT_ADR, st)
      | some _ =>
        let sp := (rsp + (WORD - 8)) % WORD
        match set_word_val st.mem sp (get_reg_val st.reg ra) with
        | some m1 =>
          (STAT_AOK, { st with pc := (st.pc + 2) % WORD, mem := m1,
                               reg := set_reg_val st.reg REG_RSP sp })
        | none => (STAT_ADR, st)
    else if icode = I_POPQ then
      match regs with
      | none => (STAT_ADR, st)
      | some _ =>
        match get_word_val st.mem rsp with
        | some v =>
          (STAT_AOK, { st with pc := (st.pc + 2) % WORD,
                               reg := set_reg_val
                                 (set_reg_val st.reg REG_RSP ((rsp + 8) % WORD))
                                 ra v })
        | none => (STAT_ADR, st)
    else (STAT_INS, st)

/-- The reference loop of `run_tty_sim`:
`for (step = 0; step < instr_limit && e == STAT_AOK; step++) e = step_state(..)`,
with `n` the number of iterations still allowed. -/
def ref_run (isa : isa_fns) : Nat → Nat → ref_state → Nat × ref_state
  | 0, e, st => (e, st)
  | n + 1, e, st =>
    if e = STAT_AOK then
      ref_run isa n (step_state isa st).1 (step_state isa st).2
    else (e, st)

/-- The state `run_tty_sim` gives to the reference: program counter 0 and a
copy of the simulator's memory, register file and condition codes, taken after
the image is loaded and before the pipeline runs. -/
def ref_init (image : Nat → Nat) : ref_state :=
  { pc := 0, reg := (loaded image).reg, mem := (loaded image).mem,
    cc := (loaded image).cc }

/-! ## The idle pipeline -/

/-- A Memory-intake payload that carries a bubble: a nop with status Bubble,
no destination register and result 0. -/
def ex_mem_idle (x : ex_mem_ele) : Prop :=
  x.icode = I_NOP ∧ x.ifun = 0 ∧ x.takebranch = false ∧ x.vale = 0 ∧
  x.deste = REG_NONE ∧ x.destm = REG_NONE ∧ x.status = STAT_BUB

/-- The state of a pipeline that holds bubbles only, between two cycles: the
Decode-intake register holds its bubble and is stalled (or is about to load a
bubble), and every register behind it holds a bubble in both slots and has
tag Load. -/
structure idle (s : Sim) : Prop where
  d_cur : s.if_id_state.current = bubble_if_id
  d_op : s.if_id_state.op = P_STALL ∨
    (s.if_id_state.op = P_LOAD ∧ s.if_id_state.next = bubble_if_id)
  e_cur : s.id_ex_state.current = bubble_id_ex
  e_next : s.id_ex_state.next = bubble_id_ex
  e_op : s.id_ex_state.op = P_LOAD
  m_cur : ex_mem_idle s.ex_mem_state.current
  m_next : ex_mem_idle s.ex_mem_state.next
  m_op : s.ex_mem_state.op = P_LOAD
  w_cur : s.mem_wb_state.current = bubble_mem_wb
  w_next : s.mem_wb_state.next = bubble_mem_wb
  w_op : s.mem_wb_state.op = P_LOAD

/-- The state of such a pipeline inside a cycle, after the commit phase. -/
structure quiet (t : Sim) : Prop where
  d_cur : t.if_id_state.current = bubble_if_id
  e_cur : t.id_ex_state.current = bubble_id_ex
  e_next : t.id_ex_state.next = bubble_id_ex
  m_cur : ex_mem_idle t.ex_mem_state.current
  w_cur : t.mem_wb_state.current = bubble_mem_wb
  w_next : t.mem_wb_state.next = bubble_mem_wb

/-! ## Specification-side definitions for the stage transforms -/

/-- The fetch address by the stated priority: the return address
`mem_wb_curr.valm` when the instruction in Writeback is a return; otherwise
the recovery address `ex_mem_curr.vala` when the instruction in Memory is a
jump whose `takebranch` flag is false; otherwise the predicted address
`pc_curr.pc`. -/
def fetch_address_spec (s : Sim) : Nat :=
  if s.mem_wb_state.current.icode = I_RET then s.mem_wb_state.current.valm
  else if s.ex_mem_state.current.icode = I_JMP ∧
      s.ex_mem_state.current.takebranch = false
    then s.ex_mem_state.current.vala
  else s.pc_state.current.pc

/-- The decode table in the stated form: for an opcode and the register ids
rA and rB of the instruction, the tuple (srca, srcb, deste, destm). -/
def decode_spec (icode ra rb : Nat) : Nat × Nat × Nat × Nat :=
  if icode = I_ALU then (ra, rb, rb, REG_NONE)
  else if icode = I_RRMOVQ then (ra, REG_NONE, rb, REG_NONE)
  else if icode = I_IRMOVQ then (REG_NONE, REG_NONE, rb, REG_NONE)
  else if icode = I_RMMOVQ then (ra, rb, REG_NONE, REG_NONE)
  else if icode = I_MRMOVQ then (REG_NONE, rb, REG_NONE, ra)
  else if icode = I_PUSHQ then (ra, REG_RSP, REG_RSP, REG_NONE)
  else if icode = I_POPQ then (REG_RSP, REG_RSP, REG_RSP, ra)
  else if icode = I_CALL then (REG_NONE, REG_RSP, REG_RSP, REG_NONE)
  else if icode = I_RET then (REG_RSP, REG_RSP, REG_RSP, REG_NONE)
  else (REG_NONE, REG_NONE, REG_NONE, REG_NONE)

/-- The opcodes for which the Memory stage stores: memory-store, call and
push. -/
def is_store (icode : Nat) : Prop :=
  icode = I_RMMOVQ ∨ icode = I_CALL ∨ icode = I_PUSHQ

/-- The opcodes for which the Memory stage loads: memory-load, pop and
return. -/
def is_load (icode : Nat) : Prop :=
  icode = I_MRMOVQ ∨ icode = I_POPQ ∨ icode = I_RET

/-- An instance of the ISA functions for a closed example with an addition:
`compute_alu` adds modulo `2 ^ 64` and `compute_cc` gives the zero flag of the
sum (value 4) or no flag (value 0). -/
def isa_addq : isa_fns :=
  { compute_alu := fun _ a b => (a + b) % WORD,
    compute_cc := fun _ a b => if (a + b) % WORD = 0 then 4 else 0,
    cond_holds := fun _ _ => true }

/-- The loaded image `irmovq $42, %rax; halt` with the predicted address
`pc_curr.pc` at 10, where the halt is; Memory and Writeback hold bubbles. -/
def fetch_pc_state : Sim :=
  { loaded irmovq_image with
    pc_state := { (loaded irmovq_image).pc_state with
      current := { pc := 10, status := STAT_AOK } } }

/-- The object image of `jmp 0x100` (byte `70` at address 0, the target
`00 01 00 00 00 00 00 00` at addresses 1 to 8). -/
def jmp_image : Nat → Nat :=
  fun a =>
    if a = 0 then HPACK I_JMP F_NONE
    else if a = 2 then 1
    else 0

/-- An Execute-stage state with `mrmovq 8(%rbx), %rax` in Execute: base
`valb = 0x100`, displacement `valc = 8`, no source A (`vala = 0`). -/
def mrmovq_ex_state : Sim :=
  { sim_init with
    id_ex_state := { sim_init.id_ex_state with
      current := { bubble_id_ex with icode := I_MRMOVQ, valc := 8, vala := 0,
                                     valb := 256, srcb := 3, destm := 0,
                                     status := STAT_AOK } } }

/-- An Execute-stage state with `addq %rax, %rbx` in Execute, operands 1 and
1, condition codes at their initial value (zero flag set), bubbles behind. -/
def addq_ex_state : Sim :=
  { sim_init with
    id_ex_state := { sim_init.id_ex_state with
      current := { bubble_id_ex with icode := I_ALU, ifun := 0, vala := 1,
                                     valb := 1, srca := 0, srcb := 3,
                                     deste := 3, status := STAT_AOK } } }

/-- A memory image with the word `0x55` at address `0x100`. -/
def stack_image : Nat → Nat :=
  fun a => if a = 256 then 85 else 0

/-- A Memory-stage state with a return instruction in Memory whose old stack
pointer `vala` is `0x100`, where the memory holds the return address `0x55`. -/
def ret_mem_state : Sim :=
  { loaded stack_image with
    ex_mem_state := { (loaded stack_image).ex_mem_state with
      current := { bubble_ex_mem with icode := I_RET, vala := 256,
                                      vale := 264, deste := REG_RSP,
                                      status := STAT_AOK } } }

/-- A Memory-stage state with `pushq` in Memory: the word `vala = 0x1234` goes
to address `vale = 0x100`. -/
def push_mem_state : Sim :=
  { sim_init with
    ex_mem_state := { sim_init.ex_mem_state with
      current := { bubble_ex_mem with icode := I_PUSHQ, vala := 4660,
                                      vale := 256, deste := REG_RSP,
                                      status := STAT_AOK } } }

/-! ## Runs, counters and reset: specification-side definitions -/

/-- The state after `k` cycles of a run that starts in `s`; the cycle numbered
`c` (from 0) gets the Fetch locals `junk c`, as in the loop of
`sim_run_pipe`. -/
def run_state (isa : isa_fns) (junk : Nat → if_locals) (s : Sim) : Nat → Sim
  | 0 => s
  | k + 1 => sim_step_pipe isa (junk k) (run_state isa junk s k)

/-- The test of the performance monitoring on the state a cycle ends in:
Writeback holds a real instruction (status not Bubble, opcode not the
second-pop opcode). -/
def wb_real (s : Sim) : Bool :=
  decide (s.mem_wb_state.current.status ≠ STAT_BUB ∧
    s.mem_wb_state.current.icode ≠ I_POP2)

/-- The number of cycles among the first `k` of a run in which Writeback held
a real instruction. -/
def real_commits (isa : isa_fns) (junk : Nat → if_locals) (s : Sim) :
    Nat → Nat
  | 0 => 0
  | k + 1 => real_commits isa junk s k +
      (if wb_real (run_state isa junk s (k + 1)) then 1 else 0)

/-- A status that lets the run go on: Ok or Bubble. -/
def status_goes_on (st : Nat) : Prop := st = STAT_AOK ∨ st = STAT_BUB

/-- Reloading the object image: the image is written to memory again, all
else is kept. -/
def reload (image : Nat → Nat) (s : Sim) : Sim :=
  { s with mem := { s.mem with contents := image } }

/-- The five registers still have the bubble payloads they were created
with. -/
structure bubbles_kept (s : Sim) : Prop where
  b_pc : s.pc_state.bubble_val = bubble_pc
  b_if_id : s.if_id_state.bubble_val = bubble_if_id
  b_id_ex : s.id_ex_state.bubble_val = bubble_id_ex
  b_ex_mem : s.ex_mem_state.bubble_val = bubble_ex_mem
  b_mem_wb : s.mem_wb_state.bubble_val = bubble_mem_wb

/-- The idle pipeline as it is from reset on: idle, no real commit yet, both
counters 0 and the condition codes at their initial value. -/
structure idle_from_reset (s : Sim) : Prop where
  is_idle : idle s
  kept : bubbles_kept s
  starting : s.starting_up = true
  no_cycles : s.cycles = 0
  no_instr : s.instructions = 0
  cc_init : s.cc = DEFAULT_CC

/-- A Memory-stage state with `rmmovq` in Memory whose address `vale` is the
capacity of the memory, hence out of range; the instruction's status is Ok. -/
def store_fault_state : Sim :=
  { sim_init with
    ex_mem_state := { sim_init.ex_mem_state with
      current := { bubble_ex_mem with icode := I_RMMOVQ, vala := 7,
                                      vale := MEM_SIZE, status := STAT_AOK } } }

/-- A Writeback-stage state with a faulted memory-load in Writeback: status
AddressFault, `destm` is `%rax`, `valm` is 7. -/
def wb_adr_state : Sim :=
  { sim_init with
    mem_wb_state := { sim_init.mem_wb_state with
      current := { bubble_mem_wb with icode := I_MRMOVQ, destm := 0, valm := 7,
                                      status := STAT_ADR } } }

/-- A state before a cycle in which a halt is about to enter the Memory stage
(`ex_mem_next` holds it, tag Load) while Writeback is about to take a
bubble. -/
def halt_to_mem_state : Sim :=
  { sim_init with
    ex_mem_state := { sim_init.ex_mem_state with
      next := { bubble_ex_mem with icode := I_HALT, status := STAT_HLT } } }

/-- A state before a cycle in which an immediate-load with status Ok is about
to enter Writeback (`mem_wb_next` holds it, tag Load); no commit so far. -/
def commit_state : Sim :=
  { sim_init with
    mem_wb_state := { sim_init.mem_wb_state with
      next := { bubble_mem_wb with icode := I_IRMOVQ, deste := 0, vale := 42,
                                   status := STAT_AOK } } }

/-! ### Status propagation, Writeback values and sentinel operands:
specification-side definitions -/

/-- A status that is neither Ok nor Bubble. -/
def status_faulted (st : Nat) : Prop := st ≠ STAT_AOK ∧ st ≠ STAT_BUB

/-- The instruction in Execute is a conditional move whose condition does not
hold: the case `my_cond` of `do_ex_stage`. -/
def cmov_not_taken (isa : isa_fns) (s : Sim) : Prop :=
  s.id_ex_state.current.icode = I_RRMOVQ ∧
  isa.cond_holds s.cc s.id_ex_state.current.ifun = false

/-- An Execute-stage state with a conditional move (`cmovl %rax, %rbx`) in
Execute that carries status AddressFault, while `ex_mem_next` still holds the
payload of the instruction before it, an immediate-load with status Ok. -/
def cmov_fault_state : Sim :=
  { sim_init with
    id_ex_state := { sim_init.id_ex_state with
      current := { bubble_id_ex with icode := I_RRMOVQ, ifun := 2, srca := 0,
                                     deste := 3, status := STAT_ADR } }
    ex_mem_state := { sim_init.ex_mem_state with
      next := { bubble_ex_mem with icode := I_IRMOVQ, deste := 0, vale := 42,
                                   status := STAT_AOK } } }

/-- A Writeback-stage state with `irmovq $42, %rax` in Writeback, status Ok:
`deste` is `%rax`, `vale` is 42, no load (`destm` is `REG_NONE`, `valm` 0). -/
def wb_irmovq_state : Sim :=
  { sim_init with
    reg := fun _ => 5
    mem_wb_state := { sim_init.mem_wb_state with
      current := { bubble_mem_wb with icode := I_IRMOVQ, deste := 0, vale := 42,
                                      status := STAT_AOK } } }

/-- The operand value that the forwarding chain of `next_vala` and
`next_valb` gives for the sentinel `REG_NONE`: the value of the first
forwarding source whose destination id is `REG_NONE` too, else 0 (the
register-file read of the sentinel). -/
def forward_sentinel (s : Sim) : Nat :=
  match (forward_candidates s).find? (fun c => c.1 == REG_NONE) with
  | some c => c.2
  | none => 0

/-- A Decode-stage state with a `nop` in Decode (no source register) while
Execute is about to commit a memory-store, whose `deste` is `REG_NONE` and
whose `vale` is the store address `0x108`. -/
def nop_fwd_state : Sim :=
  { sim_init with
    if_id_state := { sim_init.if_id_state with
      current := { bubble_if_id with icode := I_NOP, status := STAT_AOK } }
    ex_mem_state := { sim_init.ex_mem_state with
      next := { bubble_ex_mem with icode := I_RMMOVQ, vale := 264, vala := 7,
                                   status := STAT_AOK } } }

/-- A Decode-stage state with a `nop` in Decode in which every forwarding
source names a real register. -/
def no_sentinel_state : Sim :=
  { sim_init with
    if_id_state := { sim_init.if_id_state with
      current := { bubble_if_id with icode := I_NOP, status := STAT_AOK } }
    ex_mem_state := { sim_init.ex_mem_state with
      next := { bubble_ex_mem with icode := I_POPQ, deste := 4, destm := 0,
                                   vale := 264, status := STAT_AOK }
      current := { bubble_ex_mem with icode := I_POPQ, deste := 4, destm := 1,
                                      vale := 256, status := STAT_AOK } }
    mem_wb_state := { sim_init.mem_wb_state with
      next := { bubble_mem_wb with icode := I_POPQ, deste := 4, destm := 1,
                                   vale := 256, valm := 9, status := STAT_AOK }
      current := { bubble_mem_wb with icode := I_POPQ, deste := 4, destm := 2,
                                      vale := 248, valm := 8,
                                      status := STAT_AOK } } }

end Psim

/-!
# Cache simulator (`src/cache/cache.c`): shallow embedding

The globals of `cache.c` are the fields of the record `Cache`; the two-level
array `cache.sets[i].lines[j]` is a function of the set index and the line
index, of which the code uses the part below `S` and `E`.  The `data` buffer
of a line is never read or written after `initCache` and is left out.  The
counter `lru` of a line is 64 bit wide and the three statistics counters are
`int`; they are natural numbers here, as they only ever grow by one per
access, so a wrap-around would need more than `2 ^ 31` accesses.  The address
types `word_t` and `mem_addr_t` come from `cache.h`, which is not part of the
sources; addresses are natural numbers here and `>>` is the logical shift,
which is what the code computes for every address below `2 ^ 63` whichever of
the two types is signed.
-/

namespace CacheSim

/-- The record `cache_line_t` without its `data` pointer.  The field `valid`
is a `char` that the code tests for non-zero and sets to 1. -/
structure cache_line_t where
  valid : Bool
  tag : Nat
  lru : Nat
  deriving DecidableEq, Repr

/-- The globals of `cache.c` (`verbosity_cache` has no effect on them). -/
structure Cache where
  s : Nat
  b : Nat
  E : Nat
  S : Nat
  B : Nat
  s_mask : Nat
  lines : Nat → Nat → cache_line_t
  miss_count : Nat
  hit_count : Nat
  eviction_count : Nat

/-- The globals at process start: every static initialiser is 0, no lines
are allocated. -/
def cache_start : Cache :=
  { s := 0, b := 0, E := 0, S := 0, B := 0, s_mask := 0,
    lines := fun _ _ => { valid := false, tag := 0, lru := 0 },
    miss_count := 0, hit_count := 0, eviction_count := 0 }

/-- Function `initCache`: sets the geometry and allocates `S` sets of `E`
lines, all invalid with tag 0 and counter 0.  The statistics counters are not
touched. -/
def initCache (s_in b_in E_in : Nat) (c : Cache) : Cache :=
  { c with
    s := s_in
    b := b_in
    E := E_in
    S := 2 ^ s_in
    B := 2 ^ b_in
    lines := fun _ _ => { valid := false, tag := 0, lru := 0 }
    s_mask := 2 ^ s_in - 1 }

/-- The tag of an address: `addr >> (s + b)`. -/
def addr_tag (c : Cache) (addr : Nat) : Nat := addr >>> (c.s + c.b)

/-- The set index of an address: `(addr >> b) & s_mask`. -/
def addr_set (c : Cache) (addr : Nat) : Nat := (addr >>> c.b) &&& c.s_mask

/-- The search loop of `get_line`, `for (i = 0; i < E; i++)`, entered at `i`
with `n` iterations left: the first line whose tag matches and that is
valid. -/
def get_line_loop (set : Nat → cache_line_t) (tag_add : Nat) :
    Nat → Nat → Option Nat
  | 0, _ => none
  | n + 1, i =>
    if (set i).tag = tag_add then
      if (set i).valid = true then some i
      else get_line_loop set tag_add n (i + 1)
    else get_line_loop set tag_add n (i + 1)

/-- The update of `get_line` on a hit at line `i`: every valid line whose
counter is below that of line `i` is incremented, then the counter of line
`i` is set to 0. -/
def hit_update (E : Nat) (set : Nat → cache_line_t) (i : Nat) :
    Nat → cache_line_t :=
  fun j =>
    if j = i then { set i with lru := 0 }
    else if j < E ∧ (set j).valid = true ∧ (set j).lru < (set i).lru
      then { set j with lru := (set j).lru + 1 }
    else set j

/-- Function `get_line`: the globals afterwards and the index of the line
returned (`none` for NULL). -/
def get_line (c : Cache) (addr : Nat) : Cache × Option Nat :=
  let tag_add := addr_tag c addr
  let idx := addr_set c addr
  match get_line_loop (c.lines idx) tag_add c.E 0 with
  | some i =>
    ({ c with
        hit_count := c.hit_count + 1
        lines := fun k =>
          if k = idx then hit_update c.E (c.lines idx) i else c.lines k },
      some i)
  | none => ({ c with miss_count := c.miss_count + 1 }, none)

/-- The `while` loop of `select_line`, entered with the loop variables `j`,
`biggest_I`, `farLru` and `n = E - j` iterations left; the result is `j` and
`biggest_I` at the exit. -/
def select_line_scan (set : Nat → cache_line_t) :
    Nat → Nat → Nat → Nat → Nat × Nat
  | 0, j, biggest_I, _ => (j, biggest_I)
  | n + 1, j, biggest_I, farLru =>
    if (set j).valid = true then
      if (set j).lru ≥ farLru then
        select_line_scan set n (j + 1) j (set j).lru
      else select_line_scan set n (j + 1) biggest_I farLru
    else (j, biggest_I)

/-- The update of `select_line` when the invalid line `j` is filled: every
valid line is incremented, then line `j` gets counter 0, valid 1 and the
tag. -/
def fill_update (E : Nat) (set : Nat → cache_line_t) (j tag_add : Nat) :
    Nat → cache_line_t :=
  fun k =>
    if k = j then { valid := true, tag := tag_add, lru := 0 }
    else if k < E ∧ (set k).valid = true
      then { set k with lru := (set k).lru + 1 }
    else set k

/-- The update of `select_line` when line `biggest_I` is replaced: every
line is incremented, then line `biggest_I` gets counter 0 and the tag. -/
def evict_update (E : Nat) (set : Nat → cache_line_t) (biggest_I tag_add : Nat) :
    Nat → cache_line_t :=
  fun k =>
    if k = biggest_I then { set k with lru := 0, tag := tag_add }
    else if k < E then { set k with lru := (set k).lru + 1 }
    else set k

/-- Function `select_line`: the globals afterwards and the index of the line
returned. -/
def select_line (c : Cache) (addr : Nat) : Cache × Nat :=
  let tag_add := addr_tag c addr
  let idx := addr_set c addr
  let r := select_line_scan (c.lines idx) c.E 0 0 0
  if r.1 ≠ c.E then
    ({ c with
        lines := fun k =>
          if k = idx then fill_update c.E (c.lines idx) r.1 tag_add
          else c.lines k },
      r.1)
  else
    ({ c with
        eviction_count := c.eviction_count + 1
        lines := fun k =>
          if k = idx then evict_update c.E (c.lines idx) r.2 tag_add
          else c.lines k },
      r.2)

/-- Function `check_hit`: whether `get_line` returned a line. -/
def check_hit (c : Cache) (pos : Nat) : Cache × Bool :=
  ((get_line c pos).1, (get_line c pos).2.isSome)

/-- The pointer that `select_line` returns, as the index of the line it
points to: both `return` statements give the address of a line of the
selected set, none gives NULL. -/
def select_line_ptr (c : Cache) (addr : Nat) : Option Nat :=
  some (select_line c addr).2

/-- Function `handle_miss`: `select_line(pos) != NULL ? 1 : 0`. -/
def handle_miss (c : Cache) (pos : Nat) : Cache × Bool :=
  ((select_line c pos).1, (select_line_ptr c pos).isSome)

/-- Function `accessData`. -/
def accessData (c : Cache) (addr : Nat) : Cache :=
  if (check_hit c addr).2 = false then
    (handle_miss (check_hit c addr).1 addr).1
  else (check_hit c addr).1

/-! ## Specification-side definitions for the cache -/

/-- The access hits: the set selected by the address holds, among its `E`
lines, a valid line whose tag is that of the address. -/
def is_hit (c : Cache) (addr : Nat) : Prop :=
  ∃ i, i < c.E ∧ (c.lines (addr_set c addr) i).valid = true ∧
    (c.lines (addr_set c addr) i).tag = addr_tag c addr

/-- All `E` lines of the set selected by the address are valid. -/
def set_full (c : Cache) (addr : Nat) : Prop :=
  ∀ i, i < c.E → (c.lines (addr_set c addr) i).valid = true

/-- The cache after the accesses of `hist`, listed most recent first, made
from the state `c0`. -/
def cache_after (c0 : Cache) : List Nat → Cache
  | [] => c0
  | a :: older => accessData (cache_after c0 older) a

/-- The line that an access touches: the line hit, or else the line filled
or replaced. -/
def touched_line (c : Cache) (addr : Nat) : Nat :=
  match (get_line c addr).2 with
  | some i => i
  | none => (select_line (get_line c addr).1 addr).2

/-- The time of the most recent access (hit or fill) to line `k` of set
`idx` in the history `hist` (most recent first); accesses are numbered from
1, and 0 means the line was never accessed. -/
def last_touch (c0 : Cache) : List Nat → Nat → Nat → Nat
  | [], _, _ => 0
  | a :: older, idx, k =>
    if addr_set (cache_after c0 older) a = idx ∧
        touched_line (cache_after c0 older) a = k
      then older.length + 1
    else last_touch c0 older idx k

/-- The order of the counters of the valid lines of one set mirrors the order
of their most recent accesses: `touch k` is the time of the last access to
line `k` (0 for never), `T` the number of accesses so far. -/
structure lru_inv (E : Nat) (set : Nat → cache_line_t) (touch : Nat → Nat) (T : Nat) : Prop where
  pos : ∀ i, i < E → (set i).valid = true → 0 < touch i
  le : ∀ i, touch i ≤ T
  inj : ∀ i j, touch i = touch j → 0 < touch i → i = j
  ord : ∀ i j, i < E → j < E → (set i).valid = true → (set j).valid = true →
    ((set i).lru < (set j).lru ↔ touch j < touch i)

/-- The shape of one set with `k` valid lines: the valid lines are exactly
the lines `0 .. k - 1`, their tags are pairwise different, and their counters
are pairwise different values below `k`. -/
structure set_inv (E : Nat) (set : Nat → cache_line_t) (k : Nat) : Prop where
  le : k ≤ E
  valid_iff : ∀ i, i < E → ((set i).valid = true ↔ i < k)
  tag_inj : ∀ i j, i < k → j < k → (set i).tag = (set j).tag → i = j
  lru_lt : ∀ i, i < k → (set i).lru < k
  lru_inj : ∀ i j, i < k → j < k → (set i).lru = (set j).lru → i = j

/-- The counters of the lines `0 .. k - 1` of a set, in line order. -/
def lru_list (set : Nat → cache_line_t) (k : Nat) : List Nat :=
  (List.range k).map (fun i => (set i).lru)

/-- A small example geometry: one set (`s = 0`), blocks of one byte
(`b = 0`), two lines per set. -/
def cache_two : Cache := initCache 0 0 2 cache_start

end CacheSim

namespace Psim

open p_stat_t

/-! ## Theorems -/

/-! ### Frame properties of the stage transforms -/

@[simp] theorem do_wb_stage_frame (s : Sim) :
    (do_wb_stage s).pc_state = s.pc_state ∧
    (do_wb_stage s).if_id_state = s.if_id_state ∧
    (do_wb_stage s).id_ex_state = s.id_ex_state ∧
    (do_wb_stage s).ex_mem_state = s.ex_mem_state ∧
    (do_wb_stage s).mem_wb_state = s.mem_wb_state ∧
    (do_wb_stage s).mem = s.mem ∧ (do_wb_stage s).cc = s.cc ∧
    (do_wb_stage s).instructions = s.instructions ∧
    (do_wb_stage s).cycles = s.cycles ∧
    (do_wb_stage s).starting_up = s.starting_up ∧
    (do_wb_stage s).instr_valid = s.instr_valid ∧
    (do_wb_stage s).f_pc = s.f_pc :=
  ⟨rfl, rfl, rfl, rfl, rfl, rfl, rfl, rfl, rfl, rfl, rfl, rfl⟩

@[simp] theorem do_mem_stage_frame (s : Sim) :
    (do_mem_stage s).pc_state = s.pc_state ∧
    (do_mem_stage s).if_id_state = s.if_id_state ∧
    (do_mem_stage s).id_ex_state = s.id_ex_state ∧
    (do_mem_stage s).ex_mem_state = s.ex_mem_state ∧
    (do_mem_stage s).mem_wb_state.op = s.mem_wb_state.op ∧
    (do_mem_stage s).mem_wb_state.bubble_val = s.mem_wb_state.bubble_val ∧
    (do_mem_stage s).reg = s.reg ∧ (do_mem_stage s).cc = s.cc ∧
    (do_mem_stage s).instructions = s.instructions ∧
    (do_mem_stage s).cycles = s.cycles ∧
    (do_mem_stage s).starting_up = s.starting_up ∧
    (do_mem_stage s).instr_valid = s.instr_valid ∧
    (do_mem_stage s).f_pc = s.f_pc :=
  ⟨rfl, rfl, rfl, rfl, rfl, rfl, rfl, rfl, rfl, rfl, rfl, rfl, rfl⟩

@[simp] theorem do_ex_stage_frame (isa : isa_fns) (s : Sim) :
    (do_ex_stage isa s).pc_state = s.pc_state ∧
    (do_ex_stage isa s).if_id_state = s.if_id_state ∧
    (do_ex_stage isa s).id_ex_state = s.id_ex_state ∧
    (do_ex_stage isa s).ex_mem_state.current = s.ex_mem_state.current ∧
    (do_ex_stage isa s).ex_mem_state.op = s.ex_mem_state.op ∧
    (do_ex_stage isa s).ex_mem_state.bubble_val = s.ex_mem_state.bubble_val ∧
    (do_ex_stage isa s).mem_wb_state = s.mem_wb_state ∧
    (do_ex_stage isa s).status = s.status ∧
    (do_ex_stage isa s).reg = s.reg ∧ (do_ex_stage isa s).mem = s.mem ∧
    (do_ex_stage isa s).cc = s.cc ∧
    (do_ex_stage isa s).instructions = s.instructions ∧
    (do_ex_stage isa s).cycles = s.cycles ∧
    (do_ex_stage isa s).starting_up = s.starting_up ∧
    (do_ex_stage isa s).instr_valid = s.instr_valid ∧
    (do_ex_stage isa s).f_pc = s.f_pc :=
  ⟨rfl, rfl, rfl, rfl, rfl, rfl, rfl, rfl, rfl, rfl, rfl, rfl, rfl, rfl, rfl,
   rfl⟩

@[simp] theorem do_id_stage_frame (s : Sim) :
    (do_id_stage s).pc_state = s.pc_state ∧
    (do_id_stage s).if_id_state = s.if_id_state ∧
    (do_id_stage s).id_ex_state.current = s.id_ex_state.current ∧
    (do_id_stage s).id_ex_state.op = s.id_ex_state.op ∧
    (do_id_stage s).id_ex_state.bubble_val = s.id_ex_state.bubble_val ∧
    (do_id_stage s).ex_mem_state = s.ex_mem_state ∧
    (do_id_stage s).mem_wb_state = s.mem_wb_state ∧
    (do_id_stage s).status = s.status ∧
    (do_id_stage s).reg = s.reg ∧ (do_id_stage s).mem = s.mem ∧
    (do_id_stage s).cc = s.cc ∧
    (do_id_stage s).instructions = s.instructions ∧
    (do_id_stage s).cycles = s.cycles ∧
    (do_id_stage s).starting_up = s.starting_up ∧
    (do_id_stage s).instr_valid = s.instr_valid ∧
    (do_id_stage s).f_pc = s.f_pc :=
  by
  simp [do_id_stage, next_valb, next_vala]

@[simp] theorem do_if_stage_frame (j : if_locals) (s : Sim) :
    (do_if_stage j s).pc_state.current = s.pc_state.current ∧
    (do_if_stage j s).pc_state.op = s.pc_state.op ∧
    (do_if_stage j s).pc_state.bubble_val = s.pc_state.bubble_val ∧
    (do_if_stage j s).if_id_state.current = s.if_id_state.current ∧
    (do_if_stage j s).if_id_state.op = s.if_id_state.op ∧
    (do_if_stage j s).if_id_state.bubble_val = s.if_id_state.bubble_val ∧
    (do_if_stage j s).id_ex_state = s.id_ex_state ∧
    (do_if_stage j s).ex_mem_state = s.ex_mem_state ∧
    (do_if_stage j s).mem_wb_state = s.mem_wb_state ∧
    (do_if_stage j s).status = s.status ∧
    (do_if_stage j s).reg = s.reg ∧ (do_if_stage j s).mem = s.mem ∧
    (do_if_stage j s).cc = s.cc ∧
    (do_if_stage j s).instructions = s.instructions ∧
    (do_if_stage j s).cycles = s.cycles ∧
    (do_if_stage j s).starting_up = s.starting_up ∧
    (do_if_stage j s).f_pc = s.f_pc :=
  ⟨rfl, rfl, rfl, rfl, rfl, rfl, rfl, rfl, rfl, rfl, rfl, rfl, rfl, rfl, rfl,
   rfl, rfl⟩

@[simp] theorem do_stall_check_frame (s : Sim) :
    (do_stall_check s).pc_state.current = s.pc_state.current ∧
    (do_stall_check s).pc_state.next = s.pc_state.next ∧
    (do_stall_check s).pc_state.bubble_val = s.pc_state.bubble_val ∧
    (do_stall_check s).if_id_state.current = s.if_id_state.current ∧
    (do_stall_check s).if_id_state.next = s.if_id_state.next ∧
    (do_stall_check s).if_id_state.bubble_val = s.if_id_state.bubble_val ∧
    (do_stall_check s).id_ex_state.current = s.id_ex_state.current ∧
    (do_stall_check s).id_ex_state.next = s.id_ex_state.next ∧
    (do_stall_check s).id_ex_state.bubble_val = s.id_ex_state.bubble_val ∧
    (do_stall_check s).ex_mem_state.current = s.ex_mem_state.current ∧
    (do_stall_check s).ex_mem_state.next = s.ex_mem_state.next ∧
    (do_stall_check s).ex_mem_state.bubble_val = s.ex_mem_state.bubble_val ∧
    (do_stall_check s).mem_wb_state.current = s.mem_wb_state.current ∧
    (do_stall_check s).mem_wb_state.next = s.mem_wb_state.next ∧
    (do_stall_check s).mem_wb_state.bubble_val = s.mem_wb_state.bubble_val ∧
    (do_stall_check s).status = s.status ∧
    (do_stall_check s).reg = s.reg ∧ (do_stall_check s).mem = s.mem ∧
    (do_stall_check s).cc = s.cc ∧
    (do_stall_check s).instructions = s.instructions ∧
    (do_stall_check s).cycles = s.cycles ∧
    (do_stall_check s).starting_up = s.starting_up ∧
    (do_stall_check s).instr_valid = s.instr_valid ∧
    (do_stall_check s).f_pc = s.f_pc :=
  ⟨rfl, rfl, rfl, rfl, rfl, rfl, rfl, rfl, rfl, rfl, rfl, rfl, rfl, rfl, rfl,
   rfl, rfl, rfl, rfl, rfl, rfl, rfl, rfl, rfl⟩

@[simp] theorem step_commit_frame (s : Sim) :
    (step_commit s).status = s.status ∧
    (step_commit s).reg = s.reg ∧ (step_commit s).mem = s.mem ∧
    (step_commit s).cc = s.cc ∧
    (step_commit s).instructions = s.instructions ∧
    (step_commit s).cycles = s.cycles ∧
    (step_commit s).starting_up = s.starting_up ∧
    (step_commit s).instr_valid = s.instr_valid ∧
    (step_commit s).f_pc = s.f_pc :=
  ⟨rfl, rfl, rfl, rfl, rfl, rfl, rfl, rfl, rfl⟩

theorem perf_count_frame (s : Sim) :
    (perf_count s).pc_state = s.pc_state ∧
    (perf_count s).if_id_state = s.if_id_state ∧
    (perf_count s).id_ex_state = s.id_ex_state ∧
    (perf_count s).ex_mem_state = s.ex_mem_state ∧
    (perf_count s).mem_wb_state = s.mem_wb_state ∧
    (perf_count s).status = s.status ∧ (perf_count s).reg = s.reg ∧
    (perf_count s).mem = s.mem ∧ (perf_count s).cc = s.cc ∧
    (perf_count s).instr_valid = s.instr_valid ∧
    (perf_count s).f_pc = s.f_pc := by
  unfold perf_count
  by_cases h1 : s.mem_wb_state.current.status ≠ STAT_BUB ∧
      s.mem_wb_state.current.icode ≠ I_POP2
  · rw [if_pos h1]; exact ⟨rfl, rfl, rfl, rfl, rfl, rfl, rfl, rfl, rfl, rfl, rfl⟩
  · rw [if_neg h1]
    by_cases h2 : s.starting_up = false
    · rw [if_pos h2]
      exact ⟨rfl, rfl, rfl, rfl, rfl, rfl, rfl, rfl, rfl, rfl, rfl⟩
    · rw [if_neg h2]
      exact ⟨rfl, rfl, rfl, rfl, rfl, rfl, rfl, rfl, rfl, rfl, rfl⟩

theorem perf_count_bubble (s : Sim)
    (h : s.mem_wb_state.current.status = STAT_BUB) :
    (perf_count s).instructions = s.instructions := by
  unfold perf_count
  rw [if_neg (fun c => c.1 h)]
  by_cases h2 : s.starting_up = false
  · rw [if_pos h2]
  · rw [if_neg h2]

/-! ### The idle pipeline stays idle -/

theorem idle_loaded (image : Nat → Nat) : idle (loaded image) := by
  constructor <;>
    first
    | rfl
    | exact ⟨rfl, rfl, rfl, rfl, rfl, rfl, rfl⟩
    | exact Or.inr ⟨rfl, rfl⟩

theorem wb_mem_quiet (t : Sim) (h : quiet t) :
    (do_mem_stage (do_wb_stage t)).status = STAT_AOK ∧
    (do_mem_stage (do_wb_stage t)).reg = t.reg ∧
    (do_mem_stage (do_wb_stage t)).mem = t.mem ∧
    (do_mem_stage (do_wb_stage t)).mem_wb_state.current = bubble_mem_wb ∧
    (do_mem_stage (do_wb_stage t)).mem_wb_state.next = bubble_mem_wb := by
  obtain ⟨h1, h2, h3, ⟨m1, m2, m3, m4, m5, m6, m7⟩, h5, h6⟩ := h
  refine ⟨?_, ?_, ?_, ?_, ?_⟩
  · simp [do_mem_stage, do_wb_stage, m1, h5, bubble_mem_wb, I_NOP, I_HALT,
      STAT_BUB]
  · simp [do_mem_stage, do_wb_stage, h5, bubble_mem_wb]
  · simp [do_mem_stage, do_wb_stage, m1, I_NOP, I_RMMOVQ, I_CALL, I_PUSHQ]
  · simp [do_mem_stage, do_wb_stage, m1, h5, I_NOP, I_RET]
  · simp [do_mem_stage, do_wb_stage, m1, m2, m4, m5, m6, m7, h6,
      bubble_mem_wb, I_NOP, I_MRMOVQ, I_POPQ, I_RET, STAT_BUB]

theorem ex_quiet (isa : isa_fns) (u : Sim)
    (he : u.id_ex_state.current = bubble_id_ex) :
    ex_mem_idle (do_ex_stage isa u).ex_mem_state.next := by
  simp [do_ex_stage, he, bubble_id_ex, ex_mem_idle, I_NOP, I_RRMOVQ,
    I_IRMOVQ, I_RMMOVQ, I_MRMOVQ, I_ALU, I_CALL, I_RET, I_PUSHQ, I_POPQ,
    I_JMP]

theorem id_quiet (c : Sim)
    (hd : c.if_id_state.current = bubble_if_id)
    (hn : c.id_ex_state.next = bubble_id_ex)
    (hx : ex_mem_idle c.ex_mem_state.next) :
    (do_id_stage c).id_ex_state.next = bubble_id_ex := by
  obtain ⟨x1, x2, x3, x4, x5, x6, x7⟩ := hx
  simp [do_id_stage, next_vala, next_valb, id_decode, hd, hn, x5, x4,
    bubble_if_id, bubble_id_ex, I_NOP, I_HALT]

theorem stall_check_quiet (e : Sim)
    (he : e.id_ex_state.current = bubble_id_ex)
    (hm : ex_mem_idle e.ex_mem_state.current)
    (hw : e.mem_wb_state.current = bubble_mem_wb) :
    (do_stall_check e).if_id_state.op = P_STALL ∧
    (do_stall_check e).id_ex_state.op = P_LOAD ∧
    (do_stall_check e).ex_mem_state.op = P_LOAD ∧
    (do_stall_check e).mem_wb_state.op = P_LOAD := by
  obtain ⟨x1, x2, x3, x4, x5, x6, x7⟩ := hm
  refine ⟨?_, ?_, ?_, ?_⟩
  · simp [do_stall_check, pipe_cntl, pipe_cntl_D_Stall, pipe_cntl_D_Bubble,
      he, bubble_id_ex, I_NOP, I_JMP, I_MRMOVQ, I_POPQ]
  · simp [do_stall_check, pipe_cntl, pipe_cntl_E_Stall, pipe_cntl_E_Bubble,
      he, bubble_id_ex, I_NOP, I_JMP, I_MRMOVQ, I_POPQ]
  · simp [do_stall_check, pipe_cntl, pipe_cntl_M_Stall, pipe_cntl_M_Bubble,
      hw, x7, bubble_mem_wb, STAT_BUB, STAT_ADR, STAT_INS, STAT_HLT]
  · simp [do_stall_check, pipe_cntl, pipe_cntl_W_Stall, pipe_cntl_W_Bubble,
      hw, bubble_mem_wb, STAT_BUB, STAT_ADR, STAT_INS, STAT_HLT]

theorem step_commit_quiet (s : Sim) (h : idle s) : quiet (step_commit s) := by
  obtain ⟨h1, h2, h3, h4, h5, h6, h7, h8, h9, h10, h11⟩ := h
  refine ⟨?_, ?_, ?_, ?_, ?_, ?_⟩
  · rcases h2 with h2 | ⟨h2, h2n⟩
    · simp [step_commit, error_check, update_pipes, pip_check, update_pipe,
        h2, h1]
    · simp [step_commit, error_check, update_pipes, pip_check, update_pipe,
        h2, h2n]
  · simp [step_commit, error_check, update_pipes, pip_check, update_pipe, h5,
      h4]
  · simp [step_commit, error_check, update_pipes, pip_check, update_pipe, h5,
      h4]
  · simp [step_commit, error_check, update_pipes, pip_check, update_pipe, h8,
      h7]
  · simp [step_commit, error_check, update_pipes, pip_check, update_pipe, h11,
      h10]
  · simp [step_commit, error_check, update_pipes, pip_check, update_pipe, h11,
      h10]

theorem sim_step_pipe_idle (isa : isa_fns) (j : if_locals) (s : Sim)
    (h : idle s) :
    idle (sim_step_pipe isa j s) ∧
    (sim_step_pipe isa j s).status = STAT_AOK ∧
    (sim_step_pipe isa j s).reg = s.reg ∧
    (sim_step_pipe isa j s).mem = s.mem ∧
    (sim_step_pipe isa j s).cc = s.cc ∧
    (sim_step_pipe isa j s).instructions = s.instructions := by
  have q := step_commit_quiet s h
  obtain ⟨q1, q2, q3, q4, q5, q6⟩ := q
  obtain ⟨b1, b2, b3, b4, b5⟩ := wb_mem_quiet (step_commit s) ⟨q1, q2, q3, q4, q5, q6⟩
  have c1 := ex_quiet isa (do_mem_stage (do_wb_stage (step_commit s)))
    (by simpa using q2)
  have d1 := id_quiet (do_ex_stage isa (do_mem_stage (do_wb_stage (step_commit s))))
    (by simpa using q1) (by simpa using q3) c1
  obtain ⟨f1, f2, f3, f4⟩ := stall_check_quiet
    (do_if_stage j (do_id_stage (do_ex_stage isa (do_mem_stage
      (do_wb_stage (step_commit s))))))
    (by simpa using q2) (by simpa using q4) (by simpa using b4)
  obtain ⟨p1, p2, p3, p4, p5, p6, p7, p8, p9, -⟩ := perf_count_frame
    (do_stall_check (do_if_stage j (do_id_stage (do_ex_stage isa
      (do_mem_stage (do_wb_stage (step_commit s)))))))
  unfold sim_step_pipe
  refine ⟨⟨?_, ?_, ?_, ?_, ?_, ?_, ?_, ?_, ?_, ?_, ?_⟩, ?_, ?_, ?_, ?_, ?_⟩
  · rw [p2]; simpa using q1
  · rw [p2]; exact Or.inl f1
  · rw [p3]; simpa using q2
  · rw [p3]; simpa using d1
  · rw [p3]; exact f2
  · rw [p4]; simpa using q4
  · rw [p4]; simpa using c1
  · rw [p4]; exact f3
  · rw [p5]; simpa using b4
  · rw [p5]; simpa using b5
  · rw [p5]; exact f4
  · rw [p6]; simpa using b1
  · rw [p7]; simpa using b2
  · rw [p8]; simpa using b3
  · rw [p9]; simp
  · rw [perf_count_bubble]
    · simp
    · simp only [do_stall_check_frame, do_if_stage_frame, do_id_stage_frame,
        do_ex_stage_frame]
      rw [b4]; rfl


/-- One iteration of the loop of `sim_run_pipe`, written out. -/
theorem sim_run_loop_succ (isa : isa_fns) (junk : Nat → if_locals)
    (max_instr max_cycle : Int) (rem icount ccount st steps : Nat) (s : Sim) :
    sim_run_loop isa junk max_instr max_cycle (rem + 1) icount ccount st
      steps s =
    if (icount : Int) < max_instr ∧ (ccount : Int) < max_cycle then
      if (sim_step_pipe isa (junk ccount) s).status ≠ STAT_AOK ∧
         (sim_step_pipe isa (junk ccount) s).status ≠ STAT_BUB then
        { icount :=
            if (sim_step_pipe isa (junk ccount) s).status ≠ STAT_BUB
            then icount + 1 else icount,
          run_status := (sim_step_pipe isa (junk ccount) s).status,
          ccp := (sim_step_pipe isa (junk ccount) s).cc,
          steps := steps + 1, sim := sim_step_pipe isa (junk ccount) s }
      else
        sim_run_loop isa junk max_instr max_cycle rem
          (if (sim_step_pipe isa (junk ccount) s).status ≠ STAT_BUB
           then icount + 1 else icount)
          (ccount + 1) (sim_step_pipe isa (junk ccount) s).status (steps + 1)
          (sim_step_pipe isa (junk ccount) s)
    else
      { icount := icount, run_status := st, ccp := s.cc, steps := steps,
        sim := s } := by
  rw [sim_run_loop]

/-- The bound `rem` of `sim_run_loop` is never what ends the loop: once
`ccount + rem` has reached `max_cycle`, one more allowed iteration gives the
same result, because the loop condition `ccount < max_cycle` fails first. -/
theorem sim_run_loop_bound_enough (isa : isa_fns) (junk : Nat → if_locals)
    (max_instr max_cycle : Int) :
    ∀ (rem icount ccount st steps : Nat) (s : Sim),
      max_cycle ≤ ((ccount + rem : Nat) : Int) →
      sim_run_loop isa junk max_instr max_cycle (rem + 1) icount ccount st
        steps s =
      sim_run_loop isa junk max_instr max_cycle rem icount ccount st steps
        s := by
  intro rem
  induction rem with
  | zero =>
    intro icount ccount st steps s h
    have hc : ¬ ((icount : Int) < max_instr ∧ (ccount : Int) < max_cycle) := by
      intro c
      have := c.2
      simp only [Nat.add_zero] at h
      omega
    rw [sim_run_loop_succ, if_neg hc]
    rfl
  | succ rem ih =>
    intro icount ccount st steps s h
    rw [sim_run_loop_succ isa junk max_instr max_cycle (rem + 1) icount ccount
        st steps s,
      sim_run_loop_succ isa junk max_instr max_cycle rem icount ccount st
        steps s]
    by_cases hc : (icount : Int) < max_instr ∧ (ccount : Int) < max_cycle
    · rw [if_pos hc, if_pos hc]
      by_cases hb : (sim_step_pipe isa (junk ccount) s).status ≠ STAT_AOK ∧
         (sim_step_pipe isa (junk ccount) s).status ≠ STAT_BUB
      · rw [if_pos hb, if_pos hb]
      · rw [if_neg hb, if_neg hb]
        exact ih _ _ _ _ _ (by push_cast at h ⊢; omega)
    · rw [if_neg hc, if_neg hc]
/-- On an idle pipeline the loop of `sim_run_pipe` runs `k` cycles, each with
status Ok, until a budget is used up; registers, memory, condition codes and
the instruction counter stay as they were. -/
theorem sim_run_loop_idle (isa : isa_fns) (junk : Nat → if_locals)
    (max_instr max_cycle : Int) :
    ∀ (rem icount ccount st steps : Nat) (s : Sim), idle s →
    ∃ k : Nat, k ≤ rem ∧
      (sim_run_loop isa junk max_instr max_cycle rem icount ccount st steps
        s).icount = icount + k ∧
      (sim_run_loop isa junk max_instr max_cycle rem icount ccount st steps
        s).steps = steps + k ∧
      (k = 0 → (sim_run_loop isa junk max_instr max_cycle rem icount ccount st
        steps s).run_status = st) ∧
      (0 < k → (sim_run_loop isa junk max_instr max_cycle rem icount ccount st
        steps s).run_status = STAT_AOK) ∧
      (0 < k → ((icount + k : Nat) : Int) ≤ max_instr ∧
        ((ccount + k : Nat) : Int) ≤ max_cycle) ∧
      (k = rem ∨ ¬ (((icount + k : Nat) : Int) < max_instr ∧
        ((ccount + k : Nat) : Int) < max_cycle)) ∧
      (sim_run_loop isa junk max_instr max_cycle rem icount ccount st steps
        s).sim.reg = s.reg ∧
      (sim_run_loop isa junk max_instr max_cycle rem icount ccount st steps
        s).sim.mem = s.mem ∧
      (sim_run_loop isa junk max_instr max_cycle rem icount ccount st steps
        s).sim.cc = s.cc ∧
      (sim_run_loop isa junk max_instr max_cycle rem icount ccount st steps
        s).ccp = s.cc ∧
      (sim_run_loop isa junk max_instr max_cycle rem icount ccount st steps
        s).sim.instructions = s.instructions := by
  intro rem
  induction rem with
  | zero =>
    intro icount ccount st steps s _
    exact ⟨0, le_refl _, rfl, rfl, fun _ => rfl, fun h => absurd h (lt_irrefl _),
      fun h => absurd h (lt_irrefl _), Or.inl rfl, rfl, rfl, rfl, rfl, rfl⟩
  | succ rem ih =>
    intro icount ccount st steps s hs
    by_cases hc : (icount : Int) < max_instr ∧ (ccount : Int) < max_cycle
    · obtain ⟨hi, hst, hreg, hmem, hcc, hins⟩ :=
        sim_step_pipe_idle isa (junk ccount) s hs
      have hne : ¬ (STAT_AOK ≠ STAT_AOK ∧ STAT_AOK ≠ STAT_BUB) :=
        fun c => c.1 rfl
      have hunf : sim_run_loop isa junk max_instr max_cycle (rem + 1) icount
          ccount st steps s =
          sim_run_loop isa junk max_instr max_cycle rem (icount + 1)
            (ccount + 1) STAT_AOK (steps + 1)
            (sim_step_pipe isa (junk ccount) s) := by
        rw [sim_run_loop, if_pos hc]
        simp only [hst]
        rw [if_neg hne]
        simp [STAT_AOK, STAT_BUB]
      obtain ⟨k, k1, k2, k3, k4, k5, k6, k7, k8, k9, k10, k11, k12⟩ :=
        ih (icount + 1) (ccount + 1) STAT_AOK (steps + 1)
          (sim_step_pipe isa (junk ccount) s) hi
      rw [hunf]
      refine ⟨k + 1, by omega, by omega, by omega, fun h => by omega, ?_, ?_,
        ?_, by rw [k8, hreg], by rw [k9, hmem], by rw [k10, hcc],
        by rw [k11, hcc], by rw [k12, hins]⟩
      · intro _
        rcases Nat.eq_zero_or_pos k with h0 | hp
        · exact k4 h0
        · exact k5 hp
      · intro _
        rcases Nat.eq_zero_or_pos k with h0 | hp
        · subst h0; omega
        · have := k6 hp; omega
      · rcases k7 with h | h
        · left; omega
        · right
          intro c
          apply h
          constructor <;> [skip; skip] <;> omega
    · have hunf : sim_run_loop isa junk max_instr max_cycle (rem + 1) icount
          ccount st steps s =
          { icount := icount, run_status := st, ccp := s.cc, steps := steps,
            sim := s } := by
        rw [sim_run_loop, if_neg hc]
      rw [hunf]
      exact ⟨0, Nat.zero_le _, rfl, rfl, fun _ => rfl,
        fun h => absurd h (lt_irrefl _), fun h => absurd h (lt_irrefl _),
        Or.inr (by simpa using hc), rfl, rfl, rfl, rfl, rfl⟩

theorem ref_run_stopped (isa : isa_fns) (n e : Nat) (st : ref_state)
    (h : e ≠ STAT_AOK) : ref_run isa n e st = (e, st) := by
  cases n with
  | zero => rfl
  | succ n => rw [ref_run, if_neg h]

/-- From the initialised, loaded state, with instruction budget `n` and cycle
budget `5 * n`, `sim_run_pipe` simulates exactly `n` cycles, ends with status
Ok and leaves registers, memory, condition codes and the instruction counter
as they were, whatever the image. -/
theorem sim_run_pipe_idle (isa : isa_fns) (junk : Nat → if_locals)
    (image : Nat → Nat) (n : Nat) :
    (sim_run_pipe isa junk n (5 * n) (loaded image)).run_status = STAT_AOK ∧
    (sim_run_pipe isa junk n (5 * n) (loaded image)).icount = n ∧
    (sim_run_pipe isa junk n (5 * n) (loaded image)).steps = n ∧
    (sim_run_pipe isa junk n (5 * n) (loaded image)).sim.reg =
      (loaded image).reg ∧
    (sim_run_pipe isa junk n (5 * n) (loaded image)).sim.mem =
      (loaded image).mem ∧
    (sim_run_pipe isa junk n (5 * n) (loaded image)).sim.cc =
      (loaded image).cc ∧
    (sim_run_pipe isa junk n (5 * n) (loaded image)).ccp =
      (loaded image).cc ∧
    (sim_run_pipe isa junk n (5 * n) (loaded image)).sim.instructions = 0 := by
  obtain ⟨k, k1, k2, k3, k4, k5, k6, k7, k8, k9, k10, k11, k12⟩ :=
    sim_run_loop_idle isa junk n (5 * n) (5 * (n : Int)).toNat 0 0 STAT_AOK 0
      (loaded image) (idle_loaded image)
  unfold sim_run_pipe
  have hk : k = n := by
    rcases Nat.eq_zero_or_pos k with h0 | hp
    · subst h0
      rcases k7 with h | h
      · omega
      · by_contra hn
        apply h
        constructor <;> omega
    · have := k6 hp
      rcases k7 with h | h
      · omega
      · have : ¬ ((k : Int) < n) := by
          intro c
          apply h
          constructor <;> omega
        omega
  subst hk
  refine ⟨?_, by omega, by omega, k8, k9, k10, k11, k12⟩
  rcases Nat.eq_zero_or_pos k with h0 | hp
  · exact k4 h0
  · exact k5 hp

theorem ref_run_irmovq (isa : isa_fns) (n : Nat) :
    ref_run isa (n + 2) STAT_AOK (ref_init irmovq_image) =
      (STAT_HLT, { ref_init irmovq_image with
        pc := 10, reg := set_reg_val (ref_init irmovq_image).reg 0 42 }) := by
  have h1 : step_state isa (ref_init irmovq_image) =
      (STAT_AOK, { ref_init irmovq_image with
        pc := 10, reg := set_reg_val (ref_init irmovq_image).reg 0 42 }) := rfl
  have h2 : step_state isa { ref_init irmovq_image with
        pc := 10, reg := set_reg_val (ref_init irmovq_image).reg 0 42 } =
      (STAT_HLT, { ref_init irmovq_image with
        pc := 10, reg := set_reg_val (ref_init irmovq_image).reg 0 42 }) := rfl
  rw [ref_run, if_pos rfl, h1, ref_run, if_pos rfl, h2]
  exact ref_run_stopped isa n STAT_HLT _ (by decide)

/-! ### The run as a whole -/

/-- C1 (the code departs from the claim): on the image `irmovq $42, %rax;
halt`, with any instruction budget `n + 2` and cycle budget five times that,
the reference execution reaches halt without a fault and leaves 42 in `%rax`,
while `sim_run_pipe` ends with status Ok, `%rax` still 0 and the register file
as it was loaded. -/
theorem sim_run_pipe_differs_from_reference (isa : isa_fns)
    (junk : Nat → if_locals) (n : Nat) :
    (ref_run isa (n + 2) STAT_AOK (ref_init irmovq_image)).1 = STAT_HLT ∧
    (ref_run isa (n + 2) STAT_AOK (ref_init irmovq_image)).2.reg 0 = 42 ∧
    (sim_run_pipe isa junk ((n + 2 : Nat) : Int) (5 * ((n + 2 : Nat) : Int))
      (loaded irmovq_image)).sim.reg 0 = 0 ∧
    (sim_run_pipe isa junk ((n + 2 : Nat) : Int) (5 * ((n + 2 : Nat) : Int))
      (loaded irmovq_image)).run_status = STAT_AOK := by
  obtain ⟨h1, -, -, h4, -⟩ := sim_run_pipe_idle isa junk irmovq_image (n + 2)
  rw [ref_run_irmovq]
  refine ⟨rfl, rfl, ?_, h1⟩
  rw [h4]
  rfl

/-- C2 (the code departs from the claim): on the image that is solely the
halt opcode, with any instruction budget `n` and cycle budget `5 * n`,
`sim_run_pipe` simulates `n` cycles and leaves the completed-instruction
counter as it was, but its final status is Ok, not Halt. -/
theorem sim_run_pipe_halt_only (isa : isa_fns) (junk : Nat → if_locals)
    (n : Nat) :
    (sim_run_pipe isa junk n (5 * n) (loaded halt_image)).run_status
      = STAT_AOK ∧
    (sim_run_pipe isa junk n (5 * n) (loaded halt_image)).run_status
      ≠ STAT_HLT ∧
    (sim_run_pipe isa junk n (5 * n) (loaded halt_image)).steps = n ∧
    (sim_run_pipe isa junk n (5 * n) (loaded halt_image)).sim.instructions
      = (loaded halt_image).instructions := by
  obtain ⟨h1, -, h3, -, -, -, -, h8⟩ := sim_run_pipe_idle isa junk halt_image n
  refine ⟨h1, ?_, h3, ?_⟩
  · rw [h1]; decide
  · rw [h8]; rfl

/-! ### Forwarding network -/

theorem find_first_cons_eq (d v r : Nat) (l : List (Nat × Nat)) (h : r = d) :
    ((d, v) :: l).find? (fun c => c.1 == r) = some (d, v) := by
  simp [List.find?, h]

theorem find_first_cons_ne (d v r : Nat) (l : List (Nat × Nat)) (h : ¬ r = d) :
    ((d, v) :: l).find? (fun c => c.1 == r) = l.find? (fun c => c.1 == r) := by
  have : (d == r) = false := by simpa using fun e => h e.symm
  simp [List.find?, this]

/-- The if-chain of `next_vala` and `next_valb`, for a real register `r`, is
the first match among the forwarding sources. -/
theorem forward_chain_eq (s : Sim) (r : Nat) (h : r ≠ REG_NONE) :
    (if r = s.ex_mem_state.next.deste then s.ex_mem_state.next.vale
     else if r = s.ex_mem_state.current.destm then s.mem_wb_state.next.valm
     else if r = s.ex_mem_state.current.deste then s.ex_mem_state.current.vale
     else if r = s.mem_wb_state.current.destm then s.mem_wb_state.current.valm
     else if r = s.mem_wb_state.current.deste then s.mem_wb_state.current.vale
     else get_reg_val s.reg r) = forward_first_match s r := by
  unfold forward_first_match forward_candidates
  by_cases h1 : r = s.ex_mem_state.next.deste
  · rw [if_pos h1, find_first_cons_eq _ _ _ _ h1]
  rw [if_neg h1, find_first_cons_ne _ _ _ _ h1]
  by_cases h2 : r = s.ex_mem_state.current.destm
  · rw [if_pos h2, find_first_cons_eq _ _ _ _ h2]
  rw [if_neg h2, find_first_cons_ne _ _ _ _ h2]
  by_cases h3 : r = s.ex_mem_state.current.deste
  · rw [if_pos h3, find_first_cons_eq _ _ _ _ h3]
  rw [if_neg h3, find_first_cons_ne _ _ _ _ h3]
  by_cases h4 : r = s.mem_wb_state.current.destm
  · rw [if_pos h4, find_first_cons_eq _ _ _ _ h4]
  rw [if_neg h4, find_first_cons_ne _ _ _ _ h4]
  by_cases h5 : r = s.mem_wb_state.current.deste
  · rw [if_pos h5, find_first_cons_eq _ _ _ _ h5]
  rw [if_neg h5, find_first_cons_ne _ _ _ _ h5]
  simp [get_reg_val, h]

/-- C3: for each source operand of the instruction in Decode whose register id
is a real register, the operand value written by `do_id_stage` is the value of
the first matching forwarding source, in the order Execute-next `deste`,
Memory-current `destm` (value `mem_wb_next.valm`), Memory-current `deste`,
Writeback-current `destm`, Writeback-current `deste`, and the committed
register-file value if none matches. -/
theorem do_id_stage_forwarding (s : Sim) :
    ((do_id_stage s).id_ex_state.next.srca ≠ REG_NONE →
      (do_id_stage s).id_ex_state.next.vala =
        forward_first_match s (do_id_stage s).id_ex_state.next.srca) ∧
    ((do_id_stage s).id_ex_state.next.srcb ≠ REG_NONE →
      (do_id_stage s).id_ex_state.next.valb =
        forward_first_match s (do_id_stage s).id_ex_state.next.srcb) :=
  ⟨fun h => forward_chain_eq s _ h, fun h => forward_chain_eq s _ h⟩

/-- Witness for C3 at `fwd_state`: both source registers are real, source A
(`%rax`) is forwarded from Execute and source B (`%rbx`) from Writeback. -/
theorem do_id_stage_forwarding_witness :
    (do_id_stage fwd_state).id_ex_state.next.srca ≠ REG_NONE ∧
    (do_id_stage fwd_state).id_ex_state.next.srcb ≠ REG_NONE ∧
    (do_id_stage fwd_state).id_ex_state.next.vala =
      forward_first_match fwd_state
        (do_id_stage fwd_state).id_ex_state.next.srca ∧
    (do_id_stage fwd_state).id_ex_state.next.valb =
      forward_first_match fwd_state
        (do_id_stage fwd_state).id_ex_state.next.srcb :=
  ⟨by decide, by decide,
   (do_id_stage_forwarding fwd_state).1 (by decide),
   (do_id_stage_forwarding fwd_state).2 (by decide)⟩

/-! ### Control tags -/

/-- C8: `pipe_cntl` returns Error exactly when both requests are non-zero,
Stall exactly when only the stall request is, Bubble exactly when only the
bubble request is, and Load exactly when both are zero; so a simultaneous
request is never resolved to Stall, Bubble or Load. -/
theorem pipe_cntl_tags (stall bubble : Nat) :
    (pipe_cntl stall bubble = P_ERROR ↔ stall ≠ 0 ∧ bubble ≠ 0) ∧
    (pipe_cntl stall bubble = P_STALL ↔ stall ≠ 0 ∧ bubble = 0) ∧
    (pipe_cntl stall bubble = P_BUBBLE ↔ stall = 0 ∧ bubble ≠ 0) ∧
    (pipe_cntl stall bubble = P_LOAD ↔ stall = 0 ∧ bubble = 0) := by
  unfold pipe_cntl
  by_cases hs : stall = 0 <;> by_cases hb : bubble = 0 <;> simp [hs, hb]

theorem update_pipe_tag_applied {α : Type} (p : pipe_ele α) :
    tag_applied p (update_pipe p) := by
  unfold tag_applied update_pipe
  cases h : p.op <;> simp [h]

/-- C9: `update_pipes` applies the control tag of each of the five registers:
Load copies next to current, Stall keeps current, Bubble and Error put the
bubble payload in current; next is not modified; the tag afterwards is Load
unless it was Error, which stays. -/
theorem update_pipes_applies_tags (s : Sim) :
    tag_applied s.pc_state (update_pipes s).pc_state ∧
    tag_applied s.if_id_state (update_pipes s).if_id_state ∧
    tag_applied s.id_ex_state (update_pipes s).id_ex_state ∧
    tag_applied s.ex_mem_state (update_pipes s).ex_mem_state ∧
    tag_applied s.mem_wb_state (update_pipes s).mem_wb_state :=
  ⟨update_pipe_tag_applied _, update_pipe_tag_applied _,
   update_pipe_tag_applied _, update_pipe_tag_applied _,
   update_pipe_tag_applied _⟩

theorem pip_update_error {α : Type} (f : α → Nat → α) (p : pipe_ele α)
    (h : p.op = P_ERROR) :
    (pip_check f (update_pipe p)).current = f p.bubble_val STAT_PIP := by
  simp [pip_check, update_pipe, h]

theorem pip_update_other {α : Type} (f : α → Nat → α) (p : pipe_ele α)
    (h : p.op ≠ P_ERROR) :
    (pip_check f (update_pipe p)).current = (update_pipe p).current := by
  cases hp : p.op <;> simp [pip_check, update_pipe, hp] at h ⊢

/-- C10: after the commit phase of `sim_step_pipe` (the state the stage
transforms start from), the current payload of a register whose tag was Error
is its bubble payload with status `STAT_PIP`, and the current payload of any
other register is what `update_pipes` left; to the end of the cycle the stage
transforms and the hazard unit keep these current payloads (for the
Writeback-intake register, its status). -/
theorem step_commit_error_tag (isa : isa_fns) (j : if_locals) (s : Sim) :
    ((step_commit s).pc_state.current =
      if s.pc_state.op = P_ERROR
      then { s.pc_state.bubble_val with status := STAT_PIP }
      else (update_pipes s).pc_state.current) ∧
    ((step_commit s).if_id_state.current =
      if s.if_id_state.op = P_ERROR
      then { s.if_id_state.bubble_val with status := STAT_PIP }
      else (update_pipes s).if_id_state.current) ∧
    ((step_commit s).id_ex_state.current =
      if s.id_ex_state.op = P_ERROR
      then { s.id_ex_state.bubble_val with status := STAT_PIP }
      else (update_pipes s).id_ex_state.current) ∧
    ((step_commit s).ex_mem_state.current =
      if s.ex_mem_state.op = P_ERROR
      then { s.ex_mem_state.bubble_val with status := STAT_PIP }
      else (update_pipes s).ex_mem_state.current) ∧
    ((step_commit s).mem_wb_state.current =
      if s.mem_wb_state.op = P_ERROR
      then { s.mem_wb_state.bubble_val with status := STAT_PIP }
      else (update_pipes s).mem_wb_state.current) ∧
    (sim_step_pipe isa j s).pc_state.current =
      (step_commit s).pc_state.current ∧
    (sim_step_pipe isa j s).if_id_state.current =
      (step_commit s).if_id_state.current ∧
    (sim_step_pipe isa j s).id_ex_state.current =
      (step_commit s).id_ex_state.current ∧
    (sim_step_pipe isa j s).ex_mem_state.current =
      (step_commit s).ex_mem_state.current ∧
    (sim_step_pipe isa j s).mem_wb_state.current.status =
      (step_commit s).mem_wb_state.current.status := by
  obtain ⟨p1, p2, p3, p4, p5, -⟩ := perf_count_frame
    (do_stall_check (do_if_stage j (do_id_stage (do_ex_stage isa
      (do_mem_stage (do_wb_stage (step_commit s)))))))
  refine ⟨?_, ?_, ?_, ?_, ?_, ?_, ?_, ?_, ?_, ?_⟩
  · by_cases h : s.pc_state.op = P_ERROR
    · rw [if_pos h]; exact pip_update_error _ _ h
    · rw [if_neg h]; exact pip_update_other _ _ h
  · by_cases h : s.if_id_state.op = P_ERROR
    · rw [if_pos h]; exact pip_update_error _ _ h
    · rw [if_neg h]; exact pip_update_other _ _ h
  · by_cases h : s.id_ex_state.op = P_ERROR
    · rw [if_pos h]; exact pip_update_error _ _ h
    · rw [if_neg h]; exact pip_update_other _ _ h
  · by_cases h : s.ex_mem_state.op = P_ERROR
    · rw [if_pos h]; exact pip_update_error _ _ h
    · rw [if_neg h]; exact pip_update_other _ _ h
  · by_cases h : s.mem_wb_state.op = P_ERROR
    · rw [if_pos h]; exact pip_update_error _ _ h
    · rw [if_neg h]; exact pip_update_other _ _ h
  · unfold sim_step_pipe; rw [p1]; simp
  · unfold sim_step_pipe; rw [p2]; simp
  · unfold sim_step_pipe; rw [p3]; simp
  · unfold sim_step_pipe; rw [p4]; simp
  · unfold sim_step_pipe; rw [p5]; simp [do_mem_stage]

/-- C10 at `all_error_state`, where every tag is Error: the stage transforms
start from the five bubble payloads with status `STAT_PIP`. -/
theorem step_commit_error_tag_witness :
    (step_commit all_error_state).pc_state.current =
      { bubble_pc with status := STAT_PIP } ∧
    (step_commit all_error_state).if_id_state.current =
      { bubble_if_id with status := STAT_PIP } ∧
    (step_commit all_error_state).id_ex_state.current =
      { bubble_id_ex with status := STAT_PIP } ∧
    (step_commit all_error_state).ex_mem_state.current =
      { bubble_ex_mem with status := STAT_PIP } ∧
    (step_commit all_error_state).mem_wb_state.current =
      { bubble_mem_wb with status := STAT_PIP } := by
  obtain ⟨h1, h2, h3, h4, h5, -⟩ :=
    step_commit_error_tag isa_zero locals_zero all_error_state
  exact ⟨h1, h2, h3, h4, h5⟩

/-! ### Hazard/control unit -/

/-- Without a load-use hazard `pipe_cntl_D_Stall` is true and
`pipe_cntl_D_Bubble` false, so the Decode-intake register is stalled. -/
theorem if_id_tag_without_load_use (s : Sim)
    (h : ¬ ((s.id_ex_state.current.icode = I_MRMOVQ ∨
             s.id_ex_state.current.icode = I_POPQ) ∧
            (s.id_ex_state.current.destm = s.id_ex_state.next.srca ∨
             s.id_ex_state.current.destm = s.id_ex_state.next.srcb))) :
    (do_stall_check s).if_id_state.op = P_STALL := by
  have hb : pipe_cntl_D_Bubble s = false := by
    simpa [pipe_cntl_D_Bubble] using h
  have hs : pipe_cntl_D_Stall s = true := by
    simp only [pipe_cntl_D_Stall, decide_eq_true_eq]
    right
    intro c
    exact h ⟨c.1, c.2.1⟩
  simp [do_stall_check, pipe_cntl, hb, hs]

/-- The Fetch register is stalled exactly by a load-use hazard or a return in
flight: `pipe_cntl_F_Stall` with `pipe_cntl_F_Bubble` false. -/
theorem pc_tag_stall (s : Sim)
    (h : ((s.id_ex_state.current.icode = I_MRMOVQ ∨
           s.id_ex_state.current.icode = I_POPQ) ∧
          (s.id_ex_state.current.destm = s.id_ex_state.next.srca ∨
           s.id_ex_state.current.destm = s.id_ex_state.next.srcb)) ∨
         (s.if_id_state.current.icode = I_RET ∨
          s.id_ex_state.current.icode = I_RET ∨
          s.ex_mem_state.current.icode = I_RET)) :
    (do_stall_check s).pc_state.op = P_STALL := by
  have hs : pipe_cntl_F_Stall s = true := by
    simp only [pipe_cntl_F_Stall, decide_eq_true_eq]
    exact h
  simp [do_stall_check, pipe_cntl, hs, pipe_cntl_F_Bubble]

/-- C4 (the code departs from the claim): in every load-use state (a
memory-load or pop in Execute whose `destm` is source A or source B of the
instruction just decoded, no return in flight) `do_stall_check` gives the
Fetch register the tag Stall and the Execute-intake register the tag Bubble,
but the Decode-intake register the tag Error, not Stall: for it both
`pipe_cntl_D_Stall` and `pipe_cntl_D_Bubble` are true. -/
theorem do_stall_check_load_use (s : Sim)
    (hE : s.id_ex_state.current.icode = I_MRMOVQ ∨
          s.id_ex_state.current.icode = I_POPQ)
    (hM : s.id_ex_state.current.destm = s.id_ex_state.next.srca ∨
          s.id_ex_state.current.destm = s.id_ex_state.next.srcb)
    (hR : ¬ (s.if_id_state.current.icode = I_RET ∨
             s.id_ex_state.current.icode = I_RET ∨
             s.ex_mem_state.current.icode = I_RET)) :
    (do_stall_check s).pc_state.op = P_STALL ∧
    (do_stall_check s).if_id_state.op = P_ERROR ∧
    (do_stall_check s).id_ex_state.op = P_BUBBLE := by
  have hb : pipe_cntl_D_Bubble s = true := by
    simp only [pipe_cntl_D_Bubble, decide_eq_true_eq]
    exact ⟨hE, hM⟩
  have hs : pipe_cntl_D_Stall s = true := by
    simp only [pipe_cntl_D_Stall, decide_eq_true_eq]
    right
    intro c
    exact hR c.2.2
  have he : pipe_cntl_E_Bubble s = true := by
    simp only [pipe_cntl_E_Bubble, decide_eq_true_eq]
    exact ⟨Or.inr hE, hM⟩
  refine ⟨pc_tag_stall s (Or.inl ⟨hE, hM⟩), ?_, ?_⟩
  · simp [do_stall_check, pipe_cntl, hb, hs]
  · simp [do_stall_check, pipe_cntl, he, pipe_cntl_E_Stall]

/-- The code at the failing input of C4, `load_use_state`: `mrmovq (%rbx),
%rax` in Execute and `addq %rax, %rbx` just decoded. -/
theorem do_stall_check_load_use_witness :
    (do_stall_check load_use_state).pc_state.op = P_STALL ∧
    (do_stall_check load_use_state).if_id_state.op = P_ERROR ∧
    (do_stall_check load_use_state).id_ex_state.op = P_BUBBLE :=
  do_stall_check_load_use load_use_state (Or.inl (by decide))
    (Or.inl (by decide)) (by decide)

/-- C5 (the code departs from the claim): whenever a jump is in Execute,
resolved as not taken, `do_stall_check` gives the Decode-intake register the
tag Stall, not Bubble, and the Execute-intake register the tag Bubble only if
the jump's `destm` equals a source register of the instruction just decoded,
else Load. -/
theorem do_stall_check_mispredict (s : Sim)
    (hJ : s.id_ex_state.current.icode = I_JMP)
    (hT : s.ex_mem_state.next.takebranch = false) :
    (do_stall_check s).if_id_state.op = P_STALL ∧
    (do_stall_check s).id_ex_state.op =
      if s.id_ex_state.current.destm = s.id_ex_state.next.srca ∨
         s.id_ex_state.current.destm = s.id_ex_state.next.srcb
      then P_BUBBLE else P_LOAD := by
  constructor
  · apply if_id_tag_without_load_use
    rw [hJ]
    exact fun c => absurd c.1 (by decide)
  · by_cases hM : s.id_ex_state.current.destm = s.id_ex_state.next.srca ∨
        s.id_ex_state.current.destm = s.id_ex_state.next.srcb
    · have he : pipe_cntl_E_Bubble s = true := by
        simp only [pipe_cntl_E_Bubble, decide_eq_true_eq]
        refine ⟨Or.inl ⟨hJ, ?_⟩, hM⟩
        rw [hJ, hT]
        decide
      rw [if_pos hM]
      simp [do_stall_check, pipe_cntl, he, pipe_cntl_E_Stall]
    · have he : pipe_cntl_E_Bubble s = false := by
        simp only [pipe_cntl_E_Bubble, decide_eq_false_iff_not]
        exact fun c => hM c.2
      rw [if_neg hM]
      simp [do_stall_check, pipe_cntl, he, pipe_cntl_E_Stall]

/-- The code at the failing input of C5, `mispredict_state`: a jump in
Execute resolved as not taken and `addq %rax, %rbx` just decoded; the tags of
the Decode-intake and Execute-intake registers are Stall and Load. -/
theorem do_stall_check_mispredict_witness :
    (do_stall_check mispredict_state).if_id_state.op = P_STALL ∧
    (do_stall_check mispredict_state).id_ex_state.op = P_LOAD := by
  have h := do_stall_check_mispredict mispredict_state (by decide) (by decide)
  exact ⟨h.1, by rw [h.2]; decide⟩

/-- C6 (the code departs from the claim): whenever a return instruction is
held in `if_id_curr`, `id_ex_curr` or `ex_mem_curr` and no load-use hazard
holds, `do_stall_check` gives the Fetch register the tag Stall, but the
Decode-intake register the tag Stall too, not Bubble. -/
theorem do_stall_check_ret (s : Sim)
    (hR : s.if_id_state.current.icode = I_RET ∨
          s.id_ex_state.current.icode = I_RET ∨
          s.ex_mem_state.current.icode = I_RET)
    (hL : ¬ ((s.id_ex_state.current.icode = I_MRMOVQ ∨
              s.id_ex_state.current.icode = I_POPQ) ∧
             (s.id_ex_state.current.destm = s.id_ex_state.next.srca ∨
              s.id_ex_state.current.destm = s.id_ex_state.next.srcb))) :
    (do_stall_check s).pc_state.op = P_STALL ∧
    (do_stall_check s).if_id_state.op = P_STALL :=
  ⟨pc_tag_stall s (Or.inr hR), if_id_tag_without_load_use s hL⟩

/-- The code at the failing input of C6, `ret_state`: a return instruction in
Decode, bubbles in Execute and Memory. -/
theorem do_stall_check_ret_witness :
    (do_stall_check ret_state).pc_state.op = P_STALL ∧
    (do_stall_check ret_state).if_id_state.op = P_STALL :=
  do_stall_check_ret ret_state (Or.inl (by decide)) (by decide)

/-- C7, as stated, fails: in `mem_fault_state` the instruction in the Memory
stage carries status Halt, which is neither Ok nor Bubble, and
`do_stall_check` gives the Writeback-intake register the tag Load. -/
theorem do_stall_check_mem_fault_not_stalled :
    mem_fault_state.ex_mem_state.current.status ≠ STAT_AOK ∧
    mem_fault_state.ex_mem_state.current.status ≠ STAT_BUB ∧
    mem_fault_state.mem_wb_state.next.status ≠ STAT_AOK ∧
    mem_fault_state.mem_wb_state.next.status ≠ STAT_BUB ∧
    (do_stall_check mem_fault_state).mem_wb_state.op ≠ P_STALL := by
  decide

/-- C7, amended: whenever the instruction in the Writeback stage carries
status Halt, AddressFault or InstructionFault, `do_stall_check` sets the tag
of the Writeback-intake register to Stall. -/
theorem do_stall_check_wb_fault (s : Sim)
    (h : s.mem_wb_state.current.status = STAT_HLT ∨
         s.mem_wb_state.current.status = STAT_ADR ∨
         s.mem_wb_state.current.status = STAT_INS) :
    (do_stall_check s).mem_wb_state.op = P_STALL := by
  have hs : pipe_cntl_W_Stall s = true := by
    simp only [pipe_cntl_W_Stall, decide_eq_true_eq]
    rcases h with h | h | h
    · exact Or.inr (Or.inr h)
    · exact Or.inl h
    · exact Or.inr (Or.inl h)
  simp [do_stall_check, pipe_cntl, hs, pipe_cntl_W_Bubble]

/-- Witness for the amended C7 at `wb_fault_state`, where Writeback holds a
halt instruction. -/
theorem do_stall_check_wb_fault_witness :
    wb_fault_state.mem_wb_state.current.status = STAT_HLT ∧
    (do_stall_check wb_fault_state).mem_wb_state.op = P_STALL :=
  ⟨by decide, do_stall_check_wb_fault wb_fault_state (Or.inl (by decide))⟩

/-! ### Fetch stage -/

/-- No cycle changes the global `f_pc`. -/
theorem sim_step_pipe_f_pc (isa : isa_fns) (j : if_locals) (s : Sim) :
    (sim_step_pipe isa j s).f_pc = s.f_pc := by
  unfold sim_step_pipe
  rw [(perf_count_frame _).2.2.2.2.2.2.2.2.2.2]
  simp

/-- No cycle changes the condition codes `cc`. -/
theorem sim_step_pipe_cc (isa : isa_fns) (j : if_locals) (s : Sim) :
    (sim_step_pipe isa j s).cc = s.cc := by
  unfold sim_step_pipe
  rw [(perf_count_frame _).2.2.2.2.2.2.2.2.1]
  simp

/-- C11 (the code departs from the claim): `do_if_stage` reads the opcode
byte at the global `f_pc`, whatever the payloads in Writeback and Memory and
whatever `pc_curr.pc` is; `f_pc` is 0 after `sim_init` and no cycle changes
it.  The address chosen from the three sources goes to `if_id_next.valp`
instead, with the test on Memory first and in the form
`icode == (I_JMP && !takebranch)`. -/
theorem do_if_stage_read_address (isa : isa_fns) (j : if_locals) (s : Sim) :
    (do_if_stage j s).imem_icode =
      HI4 ((get_byte_val s.mem s.f_pc).getD (HPACK I_NOP F_NONE)) ∧
    (do_if_stage j s).imem_ifun =
      LO4 ((get_byte_val s.mem s.f_pc).getD (HPACK I_NOP F_NONE)) ∧
    (sim_step_pipe isa j s).f_pc = s.f_pc ∧
    sim_init.f_pc = 0 ∧
    (do_if_stage j s).if_id_state.next.valp =
      if s.ex_mem_state.current.icode =
          (if s.ex_mem_state.current.takebranch = false then 1 else 0)
        then s.ex_mem_state.current.vala
      else if s.mem_wb_state.current.icode = I_RET
        then s.mem_wb_state.current.valm
      else s.pc_state.current.pc := by
  refine ⟨rfl, rfl, sim_step_pipe_f_pc isa j s, rfl, ?_⟩
  simp [do_if_stage, I_JMP]

/-- The code at the failing input of C11, `fetch_pc_state`: the stated
priority selects address 10, where the halt opcode is, but the opcode fetched
is the immediate-load at address 0. -/
theorem do_if_stage_read_address_witness :
    fetch_address_spec fetch_pc_state = 10 ∧
    get_byte_val fetch_pc_state.mem 10 = some (HPACK I_HALT F_NONE) ∧
    (do_if_stage locals_zero fetch_pc_state).imem_icode = I_IRMOVQ := by
  refine ⟨by decide, by decide, ?_⟩
  rw [(do_if_stage_read_address isa_zero locals_zero fetch_pc_state).1]
  decide

/-- C12 (the code departs from the claim): when `do_if_stage` reads the
opcode byte `b` successfully it sets both `if_id_next.icode` and
`if_id_next.ifun` to the low 4 bits of `b`; when the read fails it sets
icode = nop and ifun = none. -/
theorem do_if_stage_icode_ifun (j : if_locals) (s : Sim) :
    (∀ b, get_byte_val s.mem s.f_pc = some b →
      (do_if_stage j s).if_id_state.next.icode = LO4 b ∧
      (do_if_stage j s).if_id_state.next.ifun = LO4 b) ∧
    (get_byte_val s.mem s.f_pc = none →
      (do_if_stage j s).if_id_state.next.icode = I_NOP ∧
      (do_if_stage j s).if_id_state.next.ifun = F_NONE) := by
  constructor
  · intro b h
    simp [do_if_stage, h]
  · intro h
    simp [do_if_stage, h]

/-- The code at the failing input of C12: the opcode byte `30` of
`irmovq` gives icode 0, the halt opcode, not 3. -/
theorem do_if_stage_icode_ifun_witness :
    get_byte_val (loaded irmovq_image).mem (loaded irmovq_image).f_pc =
      some (HPACK I_IRMOVQ F_NONE) ∧
    HI4 (HPACK I_IRMOVQ F_NONE) = I_IRMOVQ ∧
    (do_if_stage locals_zero (loaded irmovq_image)).if_id_state.next.icode =
      I_HALT := by
  have h := (do_if_stage_icode_ifun locals_zero (loaded irmovq_image)).1
    (HPACK I_IRMOVQ F_NONE) (by decide)
  exact ⟨by decide, by decide, by rw [h.1]; decide⟩

/-- C13 (the code departs from the claim): the status `do_if_stage` writes
is AddressFault if the opcode read fails; otherwise InstructionFault if the
global `instr_valid`, left by the previous fetch, is false; otherwise Halt if
the low 4 bits of the byte are the halt opcode; otherwise Ok.  It depends on
the previous fetch and not on the opcode in the high 4 bits. -/
theorem do_if_stage_status (j : if_locals) (s : Sim) :
    (do_if_stage j s).if_id_state.next.status =
      match get_byte_val s.mem s.f_pc with
      | none => STAT_ADR
      | some b =>
        if s.instr_valid = false then STAT_INS
        else if LO4 b = I_HALT then STAT_HLT
        else STAT_AOK := by
  cases h : get_byte_val s.mem s.f_pc with
  | none => simp [do_if_stage, h]
  | some b => simp [do_if_stage, h]

/-- The code at the failing input of C13: the first fetch of the halt-only
image gives status InstructionFault, not Halt. -/
theorem do_if_stage_status_witness :
    get_byte_val (loaded halt_image).mem (loaded halt_image).f_pc =
      some (HPACK I_HALT F_NONE) ∧
    (do_if_stage locals_zero (loaded halt_image)).if_id_state.next.status =
      STAT_INS := by
  refine ⟨by decide, ?_⟩
  rw [do_if_stage_status]
  decide

/-- C14 (the code departs from the claim): `do_if_stage` leaves
`if_id_next.valc` as it was (the immediate is read into a local only), sets
`if_id_next.valp` to one of the three candidate addresses without adding the
instruction length, and sets `pc_next.pc` to that `valp` or to the old
`if_id_next.valc`. -/
theorem do_if_stage_next_pc (j : if_locals) (s : Sim) :
    (do_if_stage j s).if_id_state.next.valc = s.if_id_state.next.valc ∧
    ((do_if_stage j s).if_id_state.next.valp = s.ex_mem_state.current.vala ∨
     (do_if_stage j s).if_id_state.next.valp = s.mem_wb_state.current.valm ∨
     (do_if_stage j s).if_id_state.next.valp = s.pc_state.current.pc) ∧
    ((do_if_stage j s).pc_state.next.pc =
        (do_if_stage j s).if_id_state.next.valp ∨
     (do_if_stage j s).pc_state.next.pc = s.if_id_state.next.valc) := by
  refine ⟨rfl, ?_, ?_⟩
  · simp only [do_if_stage]
    split_ifs <;> simp
  · simp only [do_if_stage]
    split_ifs <;> simp

/-- The code at the failing input of C14: fetching `jmp 0x100` at address 0
leaves `if_id_next.valc`, `if_id_next.valp` and `pc_next.pc` all 0, not the
target `0x100` and not the address 9 after the instruction. -/
theorem do_if_stage_next_pc_witness :
    get_byte_val (loaded jmp_image).mem 0 = some (HPACK I_JMP F_NONE) ∧
    get_word_val (loaded jmp_image).mem 1 = some 256 ∧
    (do_if_stage locals_zero (loaded jmp_image)).if_id_state.next.valc = 0 ∧
    (do_if_stage locals_zero (loaded jmp_image)).if_id_state.next.valp = 0 ∧
    (do_if_stage locals_zero (loaded jmp_image)).pc_state.next.pc = 0 := by
  have h := do_if_stage_next_pc locals_zero (loaded jmp_image)
  exact ⟨by decide, by decide, h.1.trans (by decide), by decide, by decide⟩

/-! ### Decode and Execute stages -/

/-- The switch of `do_id_stage` agrees with the decode table. -/
theorem id_decode_table (d : if_id_ele) (n0 : id_ex_ele)
    (h1 : n0.srca = REG_NONE) (h2 : n0.srcb = REG_NONE)
    (h3 : n0.deste = REG_NONE) (h4 : n0.destm = REG_NONE) :
    ((id_decode d n0).srca, (id_decode d n0).srcb, (id_decode d n0).deste,
      (id_decode d n0).destm) = decode_spec d.icode d.ra d.rb := by
  by_cases c0 : d.icode = 0
  · simp [id_decode, decode_spec, c0, I_HALT, I_NOP, I_RRMOVQ, I_IRMOVQ,
      I_RMMOVQ, I_MRMOVQ, I_ALU, I_JMP, I_CALL, I_RET, I_PUSHQ, I_POPQ, h1,
      h2, h3, h4]
  by_cases c1 : d.icode = 1
  · simp [id_decode, decode_spec, c1, I_HALT, I_NOP, I_RRMOVQ, I_IRMOVQ,
      I_RMMOVQ, I_MRMOVQ, I_ALU, I_JMP, I_CALL, I_RET, I_PUSHQ, I_POPQ, h1,
      h2, h3, h4]
  by_cases c2 : d.icode = 2
  · simp [id_decode, decode_spec, c2, I_HALT, I_NOP, I_RRMOVQ, I_IRMOVQ,
      I_RMMOVQ, I_MRMOVQ, I_ALU, I_JMP, I_CALL, I_RET, I_PUSHQ, I_POPQ, h1,
      h2, h3, h4]
  by_cases c3 : d.icode = 3
  · simp [id_decode, decode_spec, c3, I_HALT, I_NOP, I_RRMOVQ, I_IRMOVQ,
      I_RMMOVQ, I_MRMOVQ, I_ALU, I_JMP, I_CALL, I_RET, I_PUSHQ, I_POPQ, h1,
      h2, h3, h4]
  by_cases c4 : d.icode = 4
  · simp [id_decode, decode_spec, c4, I_HALT, I_NOP, I_RRMOVQ, I_IRMOVQ,
      I_RMMOVQ, I_MRMOVQ, I_ALU, I_JMP, I_CALL, I_RET, I_PUSHQ, I_POPQ, h1,
      h2, h3, h4]
  by_cases c5 : d.icode = 5
  · simp [id_decode, decode_spec, c5, I_HALT, I_NOP, I_RRMOVQ, I_IRMOVQ,
      I_RMMOVQ, I_MRMOVQ, I_ALU, I_JMP, I_CALL, I_RET, I_PUSHQ, I_POPQ, h1,
      h2, h3, h4]
  by_cases c6 : d.icode = 6
  · simp [id_decode, decode_spec, c6, I_HALT, I_NOP, I_RRMOVQ, I_IRMOVQ,
      I_RMMOVQ, I_MRMOVQ, I_ALU, I_JMP, I_CALL, I_RET, I_PUSHQ, I_POPQ, h1,
      h2, h3, h4]
  by_cases c7 : d.icode = 7
  · simp [id_decode, decode_spec, c7, I_HALT, I_NOP, I_RRMOVQ, I_IRMOVQ,
      I_RMMOVQ, I_MRMOVQ, I_ALU, I_JMP, I_CALL, I_RET, I_PUSHQ, I_POPQ, h1,
      h2, h3, h4]
  by_cases c8 : d.icode = 8
  · simp [id_decode, decode_spec, c8, I_HALT, I_NOP, I_RRMOVQ, I_IRMOVQ,
      I_RMMOVQ, I_MRMOVQ, I_ALU, I_JMP, I_CALL, I_RET, I_PUSHQ, I_POPQ, h1,
      h2, h3, h4]
  by_cases c9 : d.icode = 9
  · simp [id_decode, decode_spec, c9, I_HALT, I_NOP, I_RRMOVQ, I_IRMOVQ,
      I_RMMOVQ, I_MRMOVQ, I_ALU, I_JMP, I_CALL, I_RET, I_PUSHQ, I_POPQ, h1,
      h2, h3, h4]
  by_cases c10 : d.icode = 10
  · simp [id_decode, decode_spec, c10, I_HALT, I_NOP, I_RRMOVQ, I_IRMOVQ,
      I_RMMOVQ, I_MRMOVQ, I_ALU, I_JMP, I_CALL, I_RET, I_PUSHQ, I_POPQ, h1,
      h2, h3, h4]
  by_cases c11 : d.icode = 11
  · simp [id_decode, decode_spec, c11, I_HALT, I_NOP, I_RRMOVQ, I_IRMOVQ,
      I_RMMOVQ, I_MRMOVQ, I_ALU, I_JMP, I_CALL, I_RET, I_PUSHQ, I_POPQ, h1,
      h2, h3, h4]
  simp [id_decode, decode_spec, c0, c1, c2, c3, c4, c5, c6, c7, c8, c9, c10,
    c11, I_HALT, I_NOP, I_RRMOVQ, I_IRMOVQ, I_RMMOVQ, I_MRMOVQ, I_ALU, I_JMP,
    I_CALL, I_RET, I_PUSHQ, I_POPQ, h1, h2, h3, h4]

/-- C15: for every instruction in Decode, `do_id_stage` sets (srca, srcb,
deste, destm) by opcode as the table `decode_spec` says (arithmetic (rA, rB,
rB, none); move (rA, none, rB, none); immediate-load (none, none, rB, none);
memory-store (rA, rB, none, none); memory-load (none, rB, none, rA); push (rA,
rsp, rsp, none); pop (rsp, rsp, rsp, rA); call (none, rsp, rsp, none); return
(rsp, rsp, rsp, none); halt, nop, jump (none, none, none, none)) and copies
icode, ifun and status from `if_id_curr`. -/
theorem do_id_stage_decode (s : Sim) :
    ((do_id_stage s).id_ex_state.next.srca,
     (do_id_stage s).id_ex_state.next.srcb,
     (do_id_stage s).id_ex_state.next.deste,
     (do_id_stage s).id_ex_state.next.destm) =
      decode_spec s.if_id_state.current.icode s.if_id_state.current.ra
        s.if_id_state.current.rb ∧
    (do_id_stage s).id_ex_state.next.icode = s.if_id_state.current.icode ∧
    (do_id_stage s).id_ex_state.next.ifun = s.if_id_state.current.ifun ∧
    (do_id_stage s).id_ex_state.next.status = s.if_id_state.current.status := by
  refine ⟨?_, ?_, ?_, ?_⟩
  · rw [← id_decode_table s.if_id_state.current
      { s.id_ex_state.next with
        srca := REG_NONE, srcb := REG_NONE, deste := REG_NONE,
        destm := REG_NONE, vala := 0, valb := 0 } rfl rfl rfl rfl]
    simp [do_id_stage, next_vala, next_valb]
  · simp [do_id_stage, next_vala, next_valb]
  · simp [do_id_stage, next_vala, next_valb]
  · simp [do_id_stage, next_vala, next_valb]

/-- C16 (the code departs from the claim): `ex_mem_next.vale` is
`compute_alu(ifun, valA, valB)` for an arithmetic op, `valB + valC` for a
memory-store, `valB - 8` for call and push, `valB + 8` for return and pop,
`valC` for immediate-load, `valA` for a conditional move and 0 for halt, nop
and jump, all modulo `2 ^ 64`; but for a memory-load it is `valB + valA`, not
`valB + valC`. -/
theorem do_ex_stage_vale (isa : isa_fns) (s : Sim) :
    (s.id_ex_state.current.icode = I_ALU →
      (do_ex_stage isa s).ex_mem_state.next.vale =
        isa.compute_alu s.id_ex_state.current.ifun s.id_ex_state.current.vala
          s.id_ex_state.current.valb) ∧
    (s.id_ex_state.current.icode = I_RMMOVQ →
      (do_ex_stage isa s).ex_mem_state.next.vale =
        (s.id_ex_state.current.valb + s.id_ex_state.current.valc) % WORD) ∧
    (s.id_ex_state.current.icode = I_MRMOVQ →
      (do_ex_stage isa s).ex_mem_state.next.vale =
        (s.id_ex_state.current.valb + s.id_ex_state.current.vala) % WORD) ∧
    (s.id_ex_state.current.icode = I_CALL ∨
     s.id_ex_state.current.icode = I_PUSHQ →
      (do_ex_stage isa s).ex_mem_state.next.vale =
        (s.id_ex_state.current.valb + (WORD - 8)) % WORD) ∧
    (s.id_ex_state.current.icode = I_RET ∨
     s.id_ex_state.current.icode = I_POPQ →
      (do_ex_stage isa s).ex_mem_state.next.vale =
        (s.id_ex_state.current.valb + 8) % WORD) ∧
    (s.id_ex_state.current.icode = I_IRMOVQ →
      (do_ex_stage isa s).ex_mem_state.next.vale =
        s.id_ex_state.current.valc) ∧
    (s.id_ex_state.current.icode = I_RRMOVQ →
      (do_ex_stage isa s).ex_mem_state.next.vale =
        s.id_ex_state.current.vala) ∧
    (s.id_ex_state.current.icode = I_HALT ∨
     s.id_ex_state.current.icode = I_NOP ∨
     s.id_ex_state.current.icode = I_JMP →
      (do_ex_stage isa s).ex_mem_state.next.vale = 0) := by
  refine ⟨?_, ?_, ?_, ?_, ?_, ?_, ?_, ?_⟩
  · intro h
    simp [do_ex_stage, h, I_NOP, I_RRMOVQ, I_IRMOVQ, I_RMMOVQ, I_MRMOVQ, I_ALU]
  · intro h
    simp [do_ex_stage, h, I_NOP, I_RRMOVQ, I_IRMOVQ, I_RMMOVQ, I_MRMOVQ, I_ALU]
  · intro h
    simp [do_ex_stage, h, I_NOP, I_RRMOVQ, I_IRMOVQ, I_RMMOVQ, I_MRMOVQ, I_ALU]
  · rintro (h | h) <;>
    simp [do_ex_stage, h, I_NOP, I_RRMOVQ, I_IRMOVQ, I_RMMOVQ, I_MRMOVQ, I_ALU,
      I_CALL, I_RET, I_PUSHQ]
  · rintro (h | h) <;>
    simp [do_ex_stage, h, I_NOP, I_RRMOVQ, I_IRMOVQ, I_RMMOVQ, I_MRMOVQ, I_ALU,
      I_CALL, I_RET, I_PUSHQ, I_POPQ]
  · intro h
    simp [do_ex_stage, h, I_NOP, I_RRMOVQ, I_IRMOVQ, I_RMMOVQ, I_MRMOVQ, I_ALU]
  · intro h
    cases hc : isa.cond_holds s.cc s.id_ex_state.current.ifun <;>
      simp [do_ex_stage, h, hc]
  · rintro (h | h | h) <;>
    simp [do_ex_stage, h, I_HALT, I_NOP, I_RRMOVQ, I_IRMOVQ, I_RMMOVQ,
      I_MRMOVQ, I_ALU, I_CALL, I_RET, I_PUSHQ, I_POPQ, I_JMP]

/-- The code at the failing input of C16, `mrmovq_ex_state`: base `0x100`,
displacement 8, and the result is `0x100`, not `0x108`. -/
theorem do_ex_stage_vale_witness :
    mrmovq_ex_state.id_ex_state.current.icode = I_MRMOVQ ∧
    (mrmovq_ex_state.id_ex_state.current.valb +
      mrmovq_ex_state.id_ex_state.current.valc) % WORD = 264 ∧
    (do_ex_stage isa_zero mrmovq_ex_state).ex_mem_state.next.vale = 256 := by
  refine ⟨by decide, by decide, ?_⟩
  rw [(do_ex_stage_vale isa_zero mrmovq_ex_state).2.2.1 (by decide)]
  decide

/-- C17 (the code departs from the claim): `do_ex_stage` never changes the
committed condition codes `cc`, and neither does a whole cycle; for an
arithmetic op the new codes `compute_cc(ifun, valA, valB)` only reach the
pending value `cc_in`. -/
theorem do_ex_stage_cc (isa : isa_fns) (j : if_locals) (s : Sim) :
    (do_ex_stage isa s).cc = s.cc ∧
    (sim_step_pipe isa j s).cc = s.cc ∧
    (s.id_ex_state.current.icode = I_ALU →
      (do_ex_stage isa s).cc_in =
        isa.compute_cc s.id_ex_state.current.ifun s.id_ex_state.current.vala
          s.id_ex_state.current.valb) := by
  refine ⟨rfl, ?_, ?_⟩
  · exact sim_step_pipe_cc isa j s
  · intro h
    simp [do_ex_stage, h]

/-- The code at the failing input of C17, `addq_ex_state`: an addition 1 + 1
with no fault pending; the new condition codes are 0 (no flag), they reach
`cc_in`, and `cc` keeps its initial value. -/
theorem do_ex_stage_cc_witness :
    addq_ex_state.id_ex_state.current.icode = I_ALU ∧
    set_CC_Val addq_ex_state = true ∧
    isa_addq.compute_cc addq_ex_state.id_ex_state.current.ifun
      addq_ex_state.id_ex_state.current.vala
      addq_ex_state.id_ex_state.current.valb = 0 ∧
    (do_ex_stage isa_addq addq_ex_state).cc = DEFAULT_CC ∧
    (do_ex_stage isa_addq addq_ex_state).cc_in = 0 := by
  have h := do_ex_stage_cc isa_addq locals_zero addq_ex_state
  refine ⟨by decide, by decide, by decide, ?_, ?_⟩
  · rw [h.1]; decide
  · rw [h.2.2 (by decide)]; decide

/-- C18: `do_ex_stage` sets `ex_mem_next.deste` to `REG_NONE` for a
conditional move whose condition `cond_holds(cc, ifun)` is false and to
`id_ex_curr.deste` in every other case, and `ex_mem_next.takebranch` to
`cond_holds(cc, ifun)` for conditional moves and jumps and to false
otherwise. -/
theorem do_ex_stage_deste_takebranch (isa : isa_fns) (s : Sim) :
    (do_ex_stage isa s).ex_mem_state.next.deste =
      (if s.id_ex_state.current.icode = I_RRMOVQ ∧
          isa.cond_holds s.cc s.id_ex_state.current.ifun = false
        then REG_NONE else s.id_ex_state.current.deste) ∧
    (do_ex_stage isa s).ex_mem_state.next.takebranch =
      (if s.id_ex_state.current.icode = I_RRMOVQ ∨
          s.id_ex_state.current.icode = I_JMP
        then isa.cond_holds s.cc s.id_ex_state.current.ifun else false) := by
  constructor
  · by_cases h : s.id_ex_state.current.icode = I_RRMOVQ
    · cases hc : isa.cond_holds s.cc s.id_ex_state.current.ifun <;>
        simp [do_ex_stage, h, hc]
    · simp [do_ex_stage, h]
  · by_cases h : s.id_ex_state.current.icode = I_RRMOVQ
    · cases hc : isa.cond_holds s.cc s.id_ex_state.current.ifun <;>
        simp [do_ex_stage, h, hc]
    · by_cases h2 : s.id_ex_state.current.icode = I_JMP
      · cases hc : isa.cond_holds s.cc s.id_ex_state.current.ifun <;>
        simp [do_ex_stage, h2, hc, I_JMP, I_RRMOVQ]
      · simp [do_ex_stage, h, h2]

/-! ### Memory stage -/

/-- The eight little-endian bytes of `v` sum up to `v` modulo `2 ^ 64`. -/
theorem le_bytes_sum (v : Nat) :
    v / 1 % 256 + 256 * (v / 256 % 256 + 256 * (v / 65536 % 256 + 256 *
      (v / 16777216 % 256 + 256 * (v / 4294967296 % 256 + 256 *
      (v / 1099511627776 % 256 + 256 * (v / 281474976710656 % 256 + 256 *
      (v / 72057594037927936 % 256))))))) = v % 18446744073709551616 := by
  omega

/-- A memory that holds the little-endian bytes of `v` at `pos` reads as the
word `v` there. -/
theorem get_word_val_of_bytes (m1 : mem_t) (pos v : Nat)
    (hl : pos + 8 ≤ m1.len)
    (hb : ∀ i, i < 8 → m1.contents (pos + i) = v / 256 ^ i % 256) :
    get_word_val m1 pos = some (v % WORD) := by
  have hr : List.range 8 = [0, 1, 2, 3, 4, 5, 6, 7] := by decide
  simp only [get_word_val, if_pos hl, hr, List.foldr, WORD]
  rw [hb 0 (by omega), hb 1 (by omega), hb 2 (by omega), hb 3 (by omega),
    hb 4 (by omega), hb 5 (by omega), hb 6 (by omega), hb 7 (by omega)]
  simp only [Nat.mod_mod]
  norm_num
  have := le_bytes_sum v
  omega

/-- An in-range `set_word_val` succeeds; the word can be read back, the
capacity is kept and the bytes outside the word are unchanged. -/
theorem set_word_val_in_range (m : mem_t) (pos val : Nat)
    (h : pos + 8 ≤ m.len) :
    ∃ m1, set_word_val m pos val = some m1 ∧
      get_word_val m1 pos = some (val % WORD) ∧
      m1.len = m.len ∧
      ∀ a, a < pos ∨ pos + 8 ≤ a → m1.contents a = m.contents a := by
  rw [set_word_val, if_pos h]
  refine ⟨_, rfl, ?_, rfl, ?_⟩
  · refine get_word_val_of_bytes _ pos val ?_ ?_
    · exact h
    intro i hi
    show (if pos ≤ pos + i ∧ pos + i < pos + 8
          then val / 256 ^ (pos + i - pos) % 256
          else m.contents (pos + i)) = val / 256 ^ i % 256
    rw [if_pos ⟨Nat.le_add_right _ _, by omega⟩, Nat.add_sub_cancel_left]
  · intro a ha
    have hn : ¬ (pos ≤ a ∧ a < pos + 8) := by omega
    show (if pos ≤ a ∧ a < pos + 8 then val / 256 ^ (a - pos) % 256
          else m.contents a) = m.contents a
    rw [if_neg hn]

/-- C19: `do_mem_stage` performs a memory write exactly for memory-store,
call and push; when the address `valE` is in range, the memory afterwards
holds the 8-byte word `valA` at `valE` and is unchanged elsewhere (when it is
out of range, and for every other opcode, the memory is unchanged); and an
instruction that stores is not one that loads: it leaves `mem_wb_next.valm` 0
and `mem_wb_curr.valm` as it was. -/
theorem do_mem_stage_store (s : Sim) :
    ((do_mem_stage s).mem_write = true ↔
      is_store s.ex_mem_state.current.icode) ∧
    (is_store s.ex_mem_state.current.icode →
      s.ex_mem_state.current.vale + 8 ≤ s.mem.len →
      get_word_val (do_mem_stage s).mem s.ex_mem_state.current.vale =
        some (s.ex_mem_state.current.vala % WORD) ∧
      (do_mem_stage s).mem.len = s.mem.len ∧
      ∀ a, a < s.ex_mem_state.current.vale ∨
          s.ex_mem_state.current.vale + 8 ≤ a →
        (do_mem_stage s).mem.contents a = s.mem.contents a) ∧
    (is_store s.ex_mem_state.current.icode →
      ¬ s.ex_mem_state.current.vale + 8 ≤ s.mem.len →
      (do_mem_stage s).mem = s.mem) ∧
    (¬ is_store s.ex_mem_state.current.icode →
      (do_mem_stage s).mem = s.mem) ∧
    (is_store s.ex_mem_state.current.icode →
      ¬ is_load s.ex_mem_state.current.icode ∧
      (do_mem_stage s).mem_wb_state.next.valm = 0 ∧
      (do_mem_stage s).mem_wb_state.current.valm =
        s.mem_wb_state.current.valm) := by
  have hst : is_store s.ex_mem_state.current.icode → ∀ r,
      set_word_val s.mem s.ex_mem_state.current.vale
        s.ex_mem_state.current.vala = r →
      (do_mem_stage s).mem = r.getD s.mem := by
    intro h r hr
    unfold is_store at h
    cases r with
    | none => simp [do_mem_stage, h, hr]
    | some m1 => simp [do_mem_stage, h, hr]
  have hno : ¬ is_store s.ex_mem_state.current.icode →
      (do_mem_stage s).mem = s.mem := by
    intro h
    unfold is_store at h
    simp [do_mem_stage, h]
  refine ⟨?_, ?_, ?_, ?_, ?_⟩
  · simp [do_mem_stage, is_store]
  · intro h hr
    obtain ⟨m1, e1, e2, e3, e4⟩ := set_word_val_in_range s.mem
      s.ex_mem_state.current.vale s.ex_mem_state.current.vala hr
    rw [hst h _ e1]
    exact ⟨e2, e3, e4⟩
  · intro h hr
    rw [hst h none (by simp [set_word_val, hr])]
    rfl
  · exact hno
  · intro h
    unfold is_store at h
    unfold is_load
    rcases h with h | h | h <;>
      simp [do_mem_stage, h, I_RMMOVQ, I_CALL, I_PUSHQ, I_MRMOVQ, I_POPQ, I_RET]

/-- Witness for C19 at `push_mem_state`: the pushed word `0x1234` is in
memory at address `0x100` after the stage. -/
theorem do_mem_stage_store_witness :
    is_store push_mem_state.ex_mem_state.current.icode ∧
    push_mem_state.ex_mem_state.current.vale + 8 ≤ push_mem_state.mem.len ∧
    get_word_val (do_mem_stage push_mem_state).mem 256 = some 4660 := by
  have hs : is_store push_mem_state.ex_mem_state.current.icode :=
    Or.inr (Or.inr (by decide))
  have hr : push_mem_state.ex_mem_state.current.vale + 8 ≤
      push_mem_state.mem.len := by decide
  exact ⟨hs, hr, ((do_mem_stage_store push_mem_state).2.1 hs hr).1⟩

/-- C20 (the code departs from the claim): for a memory-load the word read
at `valE`, and for a pop the word read at `valA`, is placed in
`mem_wb_next.valm`; for every other opcode `mem_wb_next.valm` is 0, also for
a return, whose word read at `valA` is placed in `mem_wb_curr.valm`
instead. -/
theorem do_mem_stage_valm (s : Sim) :
    (s.ex_mem_state.current.icode = I_MRMOVQ →
      ∀ v, get_word_val s.mem s.ex_mem_state.current.vale = some v →
        (do_mem_stage s).mem_wb_state.next.valm = v) ∧
    (s.ex_mem_state.current.icode = I_POPQ →
      ∀ v, get_word_val s.mem s.ex_mem_state.current.vala = some v →
        (do_mem_stage s).mem_wb_state.next.valm = v) ∧
    (s.ex_mem_state.current.icode = I_RET →
      (do_mem_stage s).mem_wb_state.next.valm = 0 ∧
      ∀ v, get_word_val s.mem s.ex_mem_state.current.vala = some v →
        (do_mem_stage s).mem_wb_state.current.valm = v) ∧
    (s.ex_mem_state.current.icode ≠ I_MRMOVQ →
      s.ex_mem_state.current.icode ≠ I_POPQ →
      (do_mem_stage s).mem_wb_state.next.valm = 0) := by
  refine ⟨?_, ?_, ?_, ?_⟩
  · intro h v hv
    simp [do_mem_stage, h, hv]
  · intro h v hv
    simp [do_mem_stage, h, hv, I_POPQ, I_MRMOVQ, I_RET]
  · intro h
    refine ⟨by simp [do_mem_stage, h, I_POPQ, I_MRMOVQ, I_RET], ?_⟩
    intro v hv
    simp [do_mem_stage, h, hv, I_POPQ, I_MRMOVQ, I_RET]
  · intro h1 h2
    simp [do_mem_stage, h1, h2]

/-- The code at the failing input of C20, `ret_mem_state`: the return address
`0x55` read at `0x100` is in `mem_wb_curr.valm`, and `mem_wb_next.valm` is
0. -/
theorem do_mem_stage_valm_witness :
    ret_mem_state.ex_mem_state.current.icode = I_RET ∧
    get_word_val ret_mem_state.mem ret_mem_state.ex_mem_state.current.vala =
      some 85 ∧
    (do_mem_stage ret_mem_state).mem_wb_state.next.valm = 0 ∧
    (do_mem_stage ret_mem_state).mem_wb_state.current.valm = 85 := by
  have h := (do_mem_stage_valm ret_mem_state).2.2.1 (by decide)
  exact ⟨by decide, by decide, h.1, h.2 85 (by decide)⟩

/-! ### Memory status and Writeback -/

/-- C21 (the code departs from the claim): for a load (memory-load at
`valE`, pop and return at `valA`) that is out of range `mem_wb_next.status` is
AddressFault whatever the prior status, and for a load in range it is
`ex_mem_curr.status`; for every opcode that is not a load it is
`ex_mem_curr.status` too, also for a store whose address is out of range. -/
theorem do_mem_stage_status (s : Sim) :
    (s.ex_mem_state.current.icode = I_MRMOVQ →
      get_word_val s.mem s.ex_mem_state.current.vale = none →
      (do_mem_stage s).mem_wb_state.next.status = STAT_ADR) ∧
    (s.ex_mem_state.current.icode = I_POPQ ∨
     s.ex_mem_state.current.icode = I_RET →
      get_word_val s.mem s.ex_mem_state.current.vala = none →
      (do_mem_stage s).mem_wb_state.next.status = STAT_ADR) ∧
    (s.ex_mem_state.current.icode = I_MRMOVQ →
      (get_word_val s.mem s.ex_mem_state.current.vale).isSome = true →
      (do_mem_stage s).mem_wb_state.next.status =
        s.ex_mem_state.current.status) ∧
    (s.ex_mem_state.current.icode = I_POPQ ∨
     s.ex_mem_state.current.icode = I_RET →
      (get_word_val s.mem s.ex_mem_state.current.vala).isSome = true →
      (do_mem_stage s).mem_wb_state.next.status =
        s.ex_mem_state.current.status) ∧
    (¬ is_load s.ex_mem_state.current.icode →
      (do_mem_stage s).mem_wb_state.next.status =
        s.ex_mem_state.current.status) := by
  refine ⟨?_, ?_, ?_, ?_, ?_⟩
  · intro h hv
    simp [do_mem_stage, h, hv]
  · rintro (h | h) hv <;>
      simp [do_mem_stage, h, hv, I_MRMOVQ, I_POPQ, I_RET]
  · intro h hv
    obtain ⟨v, hv⟩ := Option.isSome_iff_exists.mp hv
    simp [do_mem_stage, h, hv]
  · rintro (h | h) hv <;>
    · obtain ⟨v, hv⟩ := Option.isSome_iff_exists.mp hv
      simp [do_mem_stage, h, hv, I_MRMOVQ, I_POPQ, I_RET]
  · intro h
    unfold is_load at h
    simp only [not_or] at h
    simp [do_mem_stage, h.1, h.2.1, h.2.2]

/-- The code at the failing input of C21, `store_fault_state`: a memory-store
to the out-of-range address `MEM_SIZE` keeps status Ok. -/
theorem do_mem_stage_status_witness :
    is_store store_fault_state.ex_mem_state.current.icode ∧
    ¬ store_fault_state.ex_mem_state.current.vale + 8 ≤
      store_fault_state.mem.len ∧
    (do_mem_stage store_fault_state).mem_wb_state.next.status = STAT_AOK := by
  refine ⟨Or.inl (by decide), by decide, ?_⟩
  rw [(do_mem_stage_status store_fault_state).2.2.2.2 (by unfold is_load; decide)]
  decide

/-- C22, as stated, fails: in `wb_adr_state` the instruction in Writeback has
status AddressFault, and `do_wb_stage` writes its `valm` 7 to `%rax`. -/
theorem do_wb_stage_fault_writes :
    wb_adr_state.mem_wb_state.current.status ≠ STAT_AOK ∧
    wb_adr_state.reg 0 = 0 ∧
    (do_wb_stage wb_adr_state).reg 0 = 7 := by
  decide

/-- C22, amended: if the `deste` and `destm` fields of the instruction in
Writeback are both `REG_NONE` (as in every bubble payload), `do_wb_stage`
leaves every register of the register file unchanged, whatever the status. -/
theorem do_wb_stage_no_dest (s : Sim)
    (hE : s.mem_wb_state.current.deste = REG_NONE)
    (hM : s.mem_wb_state.current.destm = REG_NONE) :
    (do_wb_stage s).reg = s.reg := by
  simp [do_wb_stage, hE, hM]

/-- Witness for the amended C22 at `wb_fault_state`, a halt in Writeback. -/
theorem do_wb_stage_no_dest_witness :
    (do_wb_stage wb_fault_state).reg = wb_fault_state.reg :=
  do_wb_stage_no_dest wb_fault_state (by decide) (by decide)


/-! ### Runs, counters and reset -/

/-- The status a cycle returns: the Memory stage overrides the Writeback
status with Halt when it holds a halt. -/
theorem sim_step_pipe_status_eq (isa : isa_fns) (j : if_locals) (s : Sim) :
    (sim_step_pipe isa j s).status =
      if (step_commit s).ex_mem_state.current.icode = I_HALT then STAT_HLT
      else if (step_commit s).mem_wb_state.current.status = STAT_BUB
        then STAT_AOK
      else (step_commit s).mem_wb_state.current.status := by
  unfold sim_step_pipe
  rw [(perf_count_frame _).2.2.2.2.2.1]
  simp [do_mem_stage, do_wb_stage]

/-- No cycle returns the status Bubble. -/
theorem sim_step_pipe_status_ne_bub (isa : isa_fns) (j : if_locals) (s : Sim) :
    (sim_step_pipe isa j s).status ≠ STAT_BUB := by
  rw [sim_step_pipe_status_eq]
  split_ifs with h1 h2
  · decide
  · decide
  · exact h2

/-- The loop of `sim_run_pipe`, entered at cycle `c` of a run from `s`. -/
theorem sim_run_loop_trace (isa : isa_fns) (junk : Nat → if_locals)
    (max_instr max_cycle : Int) (s : Sim) :
    ∀ (rem icount c st : Nat) (r : run_result),
      r = sim_run_loop isa junk max_instr max_cycle rem icount c st c
        (run_state isa junk s c) →
      c ≤ r.steps ∧ r.steps ≤ c + rem ∧
      r.sim = run_state isa junk s r.steps ∧
      r.ccp = r.sim.cc ∧
      (∀ k, c < k → k < r.steps →
        status_goes_on (run_state isa junk s k).status) ∧
      (r.steps = c → r.run_status = st) ∧
      (c < r.steps → r.run_status = (run_state isa junk s r.steps).status) ∧
      r.icount = icount + (r.steps - c) ∧
      (c < r.steps → (r.icount : Int) ≤ max_instr ∧
        (r.steps : Int) ≤ max_cycle) := by
  intro rem
  induction rem with
  | zero =>
    intro icount c st r hr
    subst hr
    refine ⟨le_refl _, le_refl _, rfl, rfl, ?_, fun _ => rfl, ?_, ?_, ?_⟩
    · intro k h1 h2
      exact absurd (show k < c from h2) (by omega)
    · intro h; exact absurd (show c < c from h) (lt_irrefl _)
    · show icount = icount + (c - c)
      omega
    · intro h; exact absurd (show c < c from h) (lt_irrefl _)
  | succ rem ih =>
    intro icount c st r hr
    rw [sim_run_loop_succ] at hr
    by_cases hc : (icount : Int) < max_instr ∧ (c : Int) < max_cycle
    · rw [if_pos hc] at hr
      have hnb := sim_step_pipe_status_ne_bub isa (junk c)
        (run_state isa junk s c)
      rw [if_pos hnb] at hr
      have hs1 : sim_step_pipe isa (junk c) (run_state isa junk s c) =
          run_state isa junk s (c + 1) := rfl
      rw [hs1] at hr
      by_cases hb : (run_state isa junk s (c + 1)).status ≠ STAT_AOK ∧
          (run_state isa junk s (c + 1)).status ≠ STAT_BUB
      · rw [if_pos hb] at hr
        subst hr
        refine ⟨Nat.le_succ _, by show c + 1 ≤ c + (rem + 1); omega, rfl, rfl,
          ?_, ?_, fun _ => rfl, ?_, ?_⟩
        · intro k h1 h2
          exact absurd (show k < c + 1 from h2) (by omega)
        · intro h
          exact absurd (show c + 1 = c from h) (by omega)
        · show icount + 1 = icount + (c + 1 - c)
          omega
        · intro _
          show ((icount + 1 : Nat) : Int) ≤ max_instr ∧
            ((c + 1 : Nat) : Int) ≤ max_cycle
          omega
      · rw [if_neg hb] at hr
        obtain ⟨a1, a2, a3, a4, a5, a6, a7, a8, a9⟩ :=
          ih (icount + 1) (c + 1) (run_state isa junk s (c + 1)).status r hr
        have hgood : status_goes_on (run_state isa junk s (c + 1)).status := by
          unfold status_goes_on
          by_contra hn
          simp only [not_or] at hn
          exact hb hn
        refine ⟨by omega, by omega, a3, a4, ?_, ?_, ?_, by omega, ?_⟩
        · intro k h1 h2
          rcases Nat.lt_or_ge (c + 1) k with h | h
          · exact a5 k h h2
          · have : k = c + 1 := by omega
            subst this
            exact hgood
        · intro h
          exact absurd h (by omega)
        · intro _
          rcases Nat.lt_or_ge (c + 1) r.steps with h | h
          · exact a7 h
          · have : r.steps = c + 1 := by omega
            rw [a6 this, this]
        · intro _
          rcases Nat.lt_or_ge (c + 1) r.steps with h | h
          · exact a9 h
          · have h1 : r.steps = c + 1 := by omega
            rw [a8, h1]
            constructor
            · have : (c + 1 - (c + 1) : Nat) = 0 := by omega
              rw [this]
              push_cast
              omega
            · push_cast
              omega
    · rw [if_neg hc] at hr
      subst hr
      refine ⟨le_refl _, by show c ≤ c + (rem + 1); omega, rfl, rfl, ?_,
        fun _ => rfl, ?_, ?_, ?_⟩
      · intro k h1 h2
        exact absurd (show k < c from h2) (by omega)
      · intro h; exact absurd (show c < c from h) (lt_irrefl _)
      · show icount = icount + (c - c)
        omega
      · intro h; exact absurd (show c < c from h) (lt_irrefl _)
/-- The counters after `perf_count`, by the test `wb_real`. -/
theorem perf_count_counters (t : Sim) :
    (perf_count t).instructions =
      t.instructions + (if wb_real t = true then 1 else 0) ∧
    (perf_count t).cycles =
      t.cycles + (if wb_real t = true ∨ t.starting_up = false then 1 else 0) ∧
    (perf_count t).starting_up =
      (if wb_real t = true then false else t.starting_up) := by
  unfold perf_count
  by_cases h1 : t.mem_wb_state.current.status ≠ STAT_BUB ∧
      t.mem_wb_state.current.icode ≠ I_POP2
  · have hw : wb_real t = true := by simp [wb_real, h1]
    rw [if_pos h1, hw]
    simp
  · have hw : wb_real t = false := by simp only [wb_real]; exact decide_eq_false h1
    rw [if_neg h1, hw]
    by_cases h2 : t.starting_up = false
    · rw [if_pos h2]; simp [h2]
    · rw [if_neg h2]; simp [h2]

/-- What Writeback holds during a cycle, as far as the performance monitoring
looks at it, is what the commit phase put there. -/
theorem sim_step_pipe_wb_real (isa : isa_fns) (j : if_locals) (s : Sim) :
    wb_real (sim_step_pipe isa j s) = wb_real (step_commit s) := by
  unfold sim_step_pipe wb_real
  rw [(perf_count_frame _).2.2.2.2.1]
  simp [do_mem_stage]

/-- The counters after one cycle. -/
theorem sim_step_pipe_counters (isa : isa_fns) (j : if_locals) (s : Sim) :
    (sim_step_pipe isa j s).instructions =
      s.instructions + (if wb_real (sim_step_pipe isa j s) = true then 1 else 0) ∧
    (sim_step_pipe isa j s).cycles =
      s.cycles + (if wb_real (sim_step_pipe isa j s) = true ∨
        s.starting_up = false then 1 else 0) ∧
    (sim_step_pipe isa j s).starting_up =
      (if wb_real (sim_step_pipe isa j s) = true then false
       else s.starting_up) := by
  have hw : wb_real (sim_step_pipe isa j s) =
      wb_real (do_stall_check (do_if_stage j (do_id_stage (do_ex_stage isa
        (do_mem_stage (do_wb_stage (step_commit s))))))) := by
    unfold sim_step_pipe wb_real
    rw [(perf_count_frame _).2.2.2.2.1]
  rw [hw]
  obtain ⟨h1, h2, h3⟩ := perf_count_counters
    (do_stall_check (do_if_stage j (do_id_stage (do_ex_stage isa
      (do_mem_stage (do_wb_stage (step_commit s)))))))
  unfold sim_step_pipe
  rw [h1, h2, h3]
  simp

/-- The instruction counter along a run counts the real commits. -/
theorem run_state_instructions (isa : isa_fns) (junk : Nat → if_locals)
    (s : Sim) (k : Nat) :
    (run_state isa junk s k).instructions =
      s.instructions + real_commits isa junk s k := by
  induction k with
  | zero => rfl
  | succ k ih =>
    show (sim_step_pipe isa (junk k) (run_state isa junk s k)).instructions = _
    rw [(sim_step_pipe_counters isa (junk k) (run_state isa junk s k)).1, ih]
    show _ = s.instructions + (real_commits isa junk s k +
      (if wb_real (run_state isa junk s (k + 1)) then 1 else 0))
    have : sim_step_pipe isa (junk k) (run_state isa junk s k) =
      run_state isa junk s (k + 1) := rfl
    rw [this]
    omega

/-- From a state with `starting_up = 1` the flag is 0 after `k` cycles exactly
when one of them had a real commit. -/
theorem run_state_starting_up (isa : isa_fns) (junk : Nat → if_locals)
    (s : Sim) (hs : s.starting_up = true) (k : Nat) :
    (run_state isa junk s k).starting_up = false ↔
      ∃ i, i < k ∧ wb_real (run_state isa junk s (i + 1)) = true := by
  induction k with
  | zero =>
    constructor
    · intro h
      rw [show run_state isa junk s 0 = s from rfl, hs] at h
      exact absurd h (by decide)
    · rintro ⟨i, hi, -⟩
      exact absurd hi (Nat.not_lt_zero _)
  | succ k ih =>
    have e : run_state isa junk s (k + 1) =
      sim_step_pipe isa (junk k) (run_state isa junk s k) := rfl
    have h3 := (sim_step_pipe_counters isa (junk k) (run_state isa junk s k)).2.2
    rw [← e] at h3
    rw [h3]
    by_cases hw : wb_real (run_state isa junk s (k + 1)) = true
    · rw [if_pos hw]
      exact ⟨fun _ => ⟨k, Nat.lt_succ_self _, hw⟩, fun _ => rfl⟩
    · rw [if_neg hw, ih]
      constructor
      · rintro ⟨i, hi, h⟩
        exact ⟨i, Nat.lt_succ_of_lt hi, h⟩
      · rintro ⟨i, hi, h⟩
        rcases Nat.lt_or_ge i k with h' | h'
        · exact ⟨i, h', h⟩
        · have : i = k := by omega
          subst this
          exact absurd h hw

/-- A larger bound for the loop of `sim_run_pipe` gives the same result. -/
theorem sim_run_loop_more (isa : isa_fns) (junk : Nat → if_locals)
    (max_instr max_cycle : Int) (s : Sim) (extra : Nat) :
    sim_run_loop isa junk max_instr max_cycle (max_cycle.toNat + extra) 0 0
      STAT_AOK 0 s = sim_run_pipe isa junk max_instr max_cycle s := by
  induction extra with
  | zero => rfl
  | succ e ih =>
    rw [← ih]
    exact sim_run_loop_bound_enough isa junk max_instr max_cycle
      (max_cycle.toNat + e) 0 0 STAT_AOK 0 s (by omega)

/-- C24, as stated, fails: with `max_instr = -1` and `max_cycle = 5` the
returned count is 0, which exceeds `max_instr`. -/
theorem sim_run_pipe_negative_budget :
    ¬ (((sim_run_pipe isa_zero (fun _ => locals_zero) (-1) 5
      (loaded halt_image)).icount : Int) ≤ -1) := by
  decide

/-- C24, amended: for all budgets, `sim_run_pipe` terminates (the bound of the
model never cuts the loop short) after at most `max_cycle` cycles, none if a
budget is not positive; every cycle before the last one it ran had status Ok
or Bubble; the returned count does not exceed `max_instr` when that is not
negative and is 0 otherwise; and the status reported is that of the last
cycle run, Ok if none was run. -/
theorem sim_run_pipe_budget (isa : isa_fns) (junk : Nat → if_locals)
    (max_instr max_cycle : Int) (s : Sim) :
    (∀ extra, sim_run_loop isa junk max_instr max_cycle
      (max_cycle.toNat + extra) 0 0 STAT_AOK 0 s =
        sim_run_pipe isa junk max_instr max_cycle s) ∧
    (sim_run_pipe isa junk max_instr max_cycle s).steps ≤ max_cycle.toNat ∧
    (max_instr ≤ 0 ∨ max_cycle ≤ 0 →
      (sim_run_pipe isa junk max_instr max_cycle s).steps = 0) ∧
    (sim_run_pipe isa junk max_instr max_cycle s).sim =
      run_state isa junk s
        (sim_run_pipe isa junk max_instr max_cycle s).steps ∧
    (∀ k, 0 < k → k < (sim_run_pipe isa junk max_instr max_cycle s).steps →
      status_goes_on (run_state isa junk s k).status) ∧
    (sim_run_pipe isa junk max_instr max_cycle s).icount ≤ max_instr.toNat ∧
    ((sim_run_pipe isa junk max_instr max_cycle s).steps = 0 →
      (sim_run_pipe isa junk max_instr max_cycle s).run_status = STAT_AOK) ∧
    (0 < (sim_run_pipe isa junk max_instr max_cycle s).steps →
      (sim_run_pipe isa junk max_instr max_cycle s).run_status =
        (run_state isa junk s
          (sim_run_pipe isa junk max_instr max_cycle s).steps).status) := by
  obtain ⟨a1, a2, a3, a4, a5, a6, a7, a8, a9⟩ :=
    sim_run_loop_trace isa junk max_instr max_cycle s max_cycle.toNat 0 0
      STAT_AOK (sim_run_pipe isa junk max_instr max_cycle s) rfl
  refine ⟨sim_run_loop_more isa junk max_instr max_cycle s, by omega, ?_, a3,
    a5, ?_, a6, a7⟩
  · intro h
    by_contra hn
    have := a9 (by omega)
    omega
  · rcases Nat.eq_zero_or_pos
      (sim_run_pipe isa junk max_instr max_cycle s).steps with h | h
    · rw [a8, h]; simp
    · have := (a9 h).1
      omega

/-- Witness for the amended C24: the halt-only image with budgets 5 and 25. -/
theorem sim_run_pipe_budget_witness :
    (sim_run_pipe isa_zero (fun _ => locals_zero) 5 25
      (loaded halt_image)).steps ≤ 25 ∧
    (sim_run_pipe isa_zero (fun _ => locals_zero) 5 25
      (loaded halt_image)).icount ≤ 5 := by
  have h := sim_run_pipe_budget isa_zero (fun _ => locals_zero) 5 25
    (loaded halt_image)
  exact ⟨h.2.1, h.2.2.2.2.2.1⟩

/-- C25 (the code departs from the claim): the value returned by
`sim_run_pipe` is the number of cycles simulated, bubble cycles included; the
number of cycles in which Writeback held a real instruction is the increase
of the global instruction counter. -/
theorem sim_run_pipe_count (isa : isa_fns) (junk : Nat → if_locals)
    (max_instr max_cycle : Int) (s : Sim) :
    (sim_run_pipe isa junk max_instr max_cycle s).icount =
      (sim_run_pipe isa junk max_instr max_cycle s).steps ∧
    (sim_run_pipe isa junk max_instr max_cycle s).sim.instructions =
      s.instructions + real_commits isa junk s
        (sim_run_pipe isa junk max_instr max_cycle s).steps := by
  obtain ⟨a1, a2, a3, a4, a5, a6, a7, a8, a9⟩ :=
    sim_run_loop_trace isa junk max_instr max_cycle s max_cycle.toNat 0 0
      STAT_AOK (sim_run_pipe isa junk max_instr max_cycle s) rfl
  refine ⟨by omega, ?_⟩
  rw [← run_state_instructions, ← a3]

/-- The code at the failing input of C25: on the halt-only image with budgets
5 and 25 the returned count is 5 and the instruction counter has not
moved. -/
theorem sim_run_pipe_count_witness :
    (sim_run_pipe isa_zero (fun _ => locals_zero) 5 25
      (loaded halt_image)).icount = 5 ∧
    (sim_run_pipe isa_zero (fun _ => locals_zero) 5 25
      (loaded halt_image)).sim.instructions =
        (loaded halt_image).instructions := by
  have h := sim_run_pipe_count isa_zero (fun _ => locals_zero) 5 25
    (loaded halt_image)
  have hi := sim_run_pipe_idle isa_zero (fun _ => locals_zero) halt_image 5
  exact ⟨h.1.trans hi.2.2.1, hi.2.2.2.2.2.2.2⟩

/-- C26: in every `sim_step_pipe` the instruction counter goes up by 1 if the
payload in Writeback after the commit phase is real (status not Bubble,
opcode not second-pop) and is unchanged otherwise; the cycle counter goes up
by 1 if that holds or `starting_up` is already 0, which from a state with
`starting_up = 1` (as `sim_reset` leaves it) is the case exactly when an
earlier cycle had a real commit, and is unchanged otherwise; no cycle
decreases either counter. -/
theorem sim_step_pipe_perf (isa : isa_fns) (j : if_locals) (s : Sim) :
    wb_real (sim_step_pipe isa j s) =
      decide ((step_commit s).mem_wb_state.current.status ≠ STAT_BUB ∧
        (step_commit s).mem_wb_state.current.icode ≠ I_POP2) ∧
    (sim_step_pipe isa j s).instructions =
      s.instructions +
        (if wb_real (sim_step_pipe isa j s) = true then 1 else 0) ∧
    (sim_step_pipe isa j s).cycles =
      s.cycles + (if wb_real (sim_step_pipe isa j s) = true ∨
        s.starting_up = false then 1 else 0) ∧
    (∀ junk k, s.starting_up = true →
      ((run_state isa junk s k).starting_up = false ↔
        ∃ i, i < k ∧ wb_real (run_state isa junk s (i + 1)) = true)) ∧
    (sim_reset s).starting_up = true ∧
    s.instructions ≤ (sim_step_pipe isa j s).instructions ∧
    s.cycles ≤ (sim_step_pipe isa j s).cycles := by
  obtain ⟨h1, h2, h3⟩ := sim_step_pipe_counters isa j s
  refine ⟨sim_step_pipe_wb_real isa j s, h1, h2,
    fun junk k hs => run_state_starting_up isa junk s hs k, rfl, ?_, ?_⟩
  · rw [h1]; exact Nat.le_add_right _ _
  · rw [h2]; exact Nat.le_add_right _ _

/-- Witness for C26 at `commit_state`: an immediate-load enters Writeback and
both counters go up by 1. -/
theorem sim_step_pipe_perf_witness :
    wb_real (sim_step_pipe isa_zero locals_zero commit_state) = true ∧
    (sim_step_pipe isa_zero locals_zero commit_state).instructions =
      commit_state.instructions + 1 ∧
    (sim_step_pipe isa_zero locals_zero commit_state).cycles =
      commit_state.cycles + 1 := by
  obtain ⟨h1, h2, h3, -⟩ := sim_step_pipe_perf isa_zero locals_zero commit_state
  have hw : wb_real (sim_step_pipe isa_zero locals_zero commit_state) = true := by
    rw [h1]; decide
  rw [hw] at h2 h3
  exact ⟨hw, h2, by simpa using h3⟩

/-- C27, as stated, fails: after `sim_reset` on the state with the image
`irmovq $42, %rax; halt` loaded, the byte at address 0 is still `30`. -/
theorem sim_reset_keeps_memory :
    (sim_reset (loaded irmovq_image)).mem.contents 0 ≠ 0 := by
  decide

/-- C27, amended: after `sim_reset`, whatever the state before, the cycle
and instruction counters are 0, the current and next payloads of every
pipeline register equal its bubble payload and its tag is Load, every
register of the register file is 0, the condition codes have their initial
value, the status is Ok, and the memory is as it was. -/
theorem sim_reset_state (s : Sim) :
    (sim_reset s).cycles = 0 ∧ (sim_reset s).instructions = 0 ∧
    ((sim_reset s).pc_state.current = s.pc_state.bubble_val ∧
     (sim_reset s).pc_state.next = s.pc_state.bubble_val ∧
     (sim_reset s).pc_state.op = P_LOAD) ∧
    ((sim_reset s).if_id_state.current = s.if_id_state.bubble_val ∧
     (sim_reset s).if_id_state.next = s.if_id_state.bubble_val ∧
     (sim_reset s).if_id_state.op = P_LOAD) ∧
    ((sim_reset s).id_ex_state.current = s.id_ex_state.bubble_val ∧
     (sim_reset s).id_ex_state.next = s.id_ex_state.bubble_val ∧
     (sim_reset s).id_ex_state.op = P_LOAD) ∧
    ((sim_reset s).ex_mem_state.current = s.ex_mem_state.bubble_val ∧
     (sim_reset s).ex_mem_state.next = s.ex_mem_state.bubble_val ∧
     (sim_reset s).ex_mem_state.op = P_LOAD) ∧
    ((sim_reset s).mem_wb_state.current = s.mem_wb_state.bubble_val ∧
     (sim_reset s).mem_wb_state.next = s.mem_wb_state.bubble_val ∧
     (sim_reset s).mem_wb_state.op = P_LOAD) ∧
    (∀ r, (sim_reset s).reg r = 0) ∧
    (sim_reset s).cc = DEFAULT_CC ∧ (sim_reset s).status = STAT_AOK ∧
    (sim_reset s).mem = s.mem :=
  ⟨rfl, rfl, ⟨rfl, rfl, rfl⟩, ⟨rfl, rfl, rfl⟩, ⟨rfl, rfl, rfl⟩,
   ⟨rfl, rfl, rfl⟩, ⟨rfl, rfl, rfl⟩, fun _ => rfl, rfl, rfl, rfl⟩

/-- The commit phase keeps the bubble payload of a register. -/
theorem pip_update_bubble_val {α : Type} (f : α → Nat → α) (p : pipe_ele α) :
    (pip_check f (update_pipe p)).bubble_val = p.bubble_val := by
  cases hp : p.op <;> simp [pip_check, update_pipe, hp]

/-- No cycle changes the bubble payload of a register. -/
theorem sim_step_pipe_bubbles_kept (isa : isa_fns) (j : if_locals) (s : Sim)
    (h : bubbles_kept s) : bubbles_kept (sim_step_pipe isa j s) := by
  obtain ⟨h1, h2, h3, h4, h5⟩ := h
  obtain ⟨p1, p2, p3, p4, p5, -⟩ := perf_count_frame
    (do_stall_check (do_if_stage j (do_id_stage (do_ex_stage isa
      (do_mem_stage (do_wb_stage (step_commit s)))))))
  unfold sim_step_pipe
  refine ⟨?_, ?_, ?_, ?_, ?_⟩
  · rw [p1]
    simp only [do_stall_check_frame, do_if_stage_frame, do_id_stage_frame,
      do_ex_stage_frame, do_mem_stage_frame, do_wb_stage_frame]
    exact (pip_update_bubble_val _ _).trans h1
  · rw [p2]
    simp only [do_stall_check_frame, do_if_stage_frame, do_id_stage_frame,
      do_ex_stage_frame, do_mem_stage_frame, do_wb_stage_frame]
    exact (pip_update_bubble_val _ _).trans h2
  · rw [p3]
    simp only [do_stall_check_frame, do_if_stage_frame, do_id_stage_frame,
      do_ex_stage_frame, do_mem_stage_frame, do_wb_stage_frame]
    exact (pip_update_bubble_val _ _).trans h3
  · rw [p4]
    simp only [do_stall_check_frame, do_if_stage_frame, do_id_stage_frame,
      do_ex_stage_frame, do_mem_stage_frame, do_wb_stage_frame]
    exact (pip_update_bubble_val _ _).trans h4
  · rw [p5]
    simp only [do_stall_check_frame, do_if_stage_frame, do_id_stage_frame,
      do_ex_stage_frame, do_mem_stage_frame, do_wb_stage_frame]
    exact (pip_update_bubble_val _ _).trans h5

/-- One cycle of the idle pipeline from reset: still idle, status Ok, counters
still 0. -/
theorem sim_step_pipe_idle_from_reset (isa : isa_fns) (j : if_locals)
    (s : Sim) (h : idle_from_reset s) :
    idle_from_reset (sim_step_pipe isa j s) ∧
    (sim_step_pipe isa j s).status = STAT_AOK := by
  obtain ⟨hi, hk, hs, hc, hn, hcc⟩ := h
  obtain ⟨i1, i2, -, -, i5, i6⟩ := sim_step_pipe_idle isa j s hi
  obtain ⟨c1, c2, c3⟩ := sim_step_pipe_counters isa j s
  have hw : wb_real (sim_step_pipe isa j s) = false := by
    simp [wb_real, i1.w_cur, bubble_mem_wb]
  rw [hw] at c1 c2 c3
  refine ⟨⟨i1, sim_step_pipe_bubbles_kept isa j s hk, ?_, ?_, ?_, ?_⟩, i2⟩
  · rw [c3]; simpa using hs
  · rw [c2, hc]; simp [hs]
  · rw [i6, hn]
  · rw [i5, hcc]

/-- The loop of `sim_run_pipe` keeps the idle pipeline from reset. -/
theorem sim_run_loop_from_reset (isa : isa_fns) (junk : Nat → if_locals)
    (max_instr max_cycle : Int) :
    ∀ (rem icount ccount st steps : Nat) (s : Sim), idle_from_reset s →
      idle_from_reset
        (sim_run_loop isa junk max_instr max_cycle rem icount ccount st steps
          s).sim := by
  intro rem
  induction rem with
  | zero => intro icount ccount st steps s h; exact h
  | succ rem ih =>
    intro icount ccount st steps s h
    rw [sim_run_loop_succ]
    obtain ⟨h1, h2⟩ := sim_step_pipe_idle_from_reset isa (junk ccount) s h
    by_cases hc : (icount : Int) < max_instr ∧ (ccount : Int) < max_cycle
    · rw [if_pos hc]
      have hb : ¬ ((sim_step_pipe isa (junk ccount) s).status ≠ STAT_AOK ∧
          (sim_step_pipe isa (junk ccount) s).status ≠ STAT_BUB) :=
        fun c => c.1 h2
      rw [if_neg hb]
      exact ih _ _ _ _ _ h1
    · rw [if_neg hc]
      exact h

/-- The initialised, loaded state is the idle pipeline from reset. -/
theorem idle_from_reset_loaded (image : Nat → Nat) :
    idle_from_reset (loaded image) :=
  ⟨idle_loaded image, ⟨rfl, rfl, rfl, rfl, rfl⟩, rfl, rfl, rfl, rfl⟩

/-- Reset and reload give the idle pipeline from reset again. -/
theorem idle_from_reset_reload (image : Nat → Nat) (t : Sim)
    (h : bubbles_kept t) : idle_from_reset (reload image (sim_reset t)) := by
  obtain ⟨h1, h2, h3, h4, h5⟩ := h
  refine ⟨⟨?_, ?_, ?_, ?_, rfl, ?_, ?_, rfl, ?_, ?_, rfl⟩,
    ⟨h1, h2, h3, h4, h5⟩, rfl, rfl, rfl, rfl⟩
  · exact h2
  · exact Or.inr ⟨rfl, h2⟩
  · exact h3
  · exact h3
  · show ex_mem_idle t.ex_mem_state.bubble_val
    rw [h4]; exact ⟨rfl, rfl, rfl, rfl, rfl, rfl, rfl⟩
  · show ex_mem_idle t.ex_mem_state.bubble_val
    rw [h4]; exact ⟨rfl, rfl, rfl, rfl, rfl, rfl, rfl⟩
  · exact h5
  · exact h5

/-- A run from the idle reset state: the outcome is fixed by the budgets. -/
theorem sim_run_pipe_from_reset (isa : isa_fns) (junk : Nat → if_locals)
    (max_instr max_cycle : Int) (s : Sim) (h : idle_from_reset s) :
    (sim_run_pipe isa junk max_instr max_cycle s).icount =
      min max_instr.toNat max_cycle.toNat ∧
    (sim_run_pipe isa junk max_instr max_cycle s).run_status = STAT_AOK ∧
    (sim_run_pipe isa junk max_instr max_cycle s).ccp = DEFAULT_CC ∧
    (sim_run_pipe isa junk max_instr max_cycle s).sim.cycles = 0 ∧
    (sim_run_pipe isa junk max_instr max_cycle s).sim.instructions = 0 ∧
    bubbles_kept (sim_run_pipe isa junk max_instr max_cycle s).sim := by
  have hinv := sim_run_loop_from_reset isa junk max_instr max_cycle
    max_cycle.toNat 0 0 STAT_AOK 0 s h
  obtain ⟨k, k1, k2, k3, k4, k5, k6, k7, k8, k9, k10, k11, k12⟩ :=
    sim_run_loop_idle isa junk max_instr max_cycle max_cycle.toNat 0 0
      STAT_AOK 0 s h.is_idle
  unfold sim_run_pipe
  refine ⟨?_, ?_, by rw [k11, h.cc_init], hinv.no_cycles, hinv.no_instr,
    hinv.kept⟩
  · rw [k2]
    rcases Nat.eq_zero_or_pos k with h0 | hp
    · subst h0
      rcases k7 with e | e
      · omega
      · have : ¬ ((0 : Int) < max_instr ∧ (0 : Int) < max_cycle) := by
          simpa using e
        omega
    · have := k6 hp
      rcases k7 with e | e
      · omega
      · have : ¬ ((k : Int) < max_instr ∧ (k : Int) < max_cycle) := by
          simpa using e
        omega
  · rcases Nat.eq_zero_or_pos k with h0 | hp
    · exact k4 h0
    · exact k5 hp

/-- C28: for every image, all budgets and whatever the uninitialised Fetch
locals are in either run: running `sim_run_pipe` on the loaded image, then
`sim_reset`, reloading the image and running again with the same budgets
gives the same returned count, final status, condition codes, cycle counter
and instruction counter. -/
theorem sim_run_pipe_repeatable (isa : isa_fns) (junk1 junk2 : Nat → if_locals)
    (image : Nat → Nat) (max_instr max_cycle : Int) :
    (sim_run_pipe isa junk2 max_instr max_cycle (reload image (sim_reset
      (sim_run_pipe isa junk1 max_instr max_cycle (loaded image)).sim))).icount
      = (sim_run_pipe isa junk1 max_instr max_cycle (loaded image)).icount ∧
    (sim_run_pipe isa junk2 max_instr max_cycle (reload image (sim_reset
      (sim_run_pipe isa junk1 max_instr max_cycle
        (loaded image)).sim))).run_status
      = (sim_run_pipe isa junk1 max_instr max_cycle
          (loaded image)).run_status ∧
    (sim_run_pipe isa junk2 max_instr max_cycle (reload image (sim_reset
      (sim_run_pipe isa junk1 max_instr max_cycle (loaded image)).sim))).ccp
      = (sim_run_pipe isa junk1 max_instr max_cycle (loaded image)).ccp ∧
    (sim_run_pipe isa junk2 max_instr max_cycle (reload image (sim_reset
      (sim_run_pipe isa junk1 max_instr max_cycle
        (loaded image)).sim))).sim.cycles
      = (sim_run_pipe isa junk1 max_instr max_cycle
          (loaded image)).sim.cycles ∧
    (sim_run_pipe isa junk2 max_instr max_cycle (reload image (sim_reset
      (sim_run_pipe isa junk1 max_instr max_cycle
        (loaded image)).sim))).sim.instructions
      = (sim_run_pipe isa junk1 max_instr max_cycle
          (loaded image)).sim.instructions := by
  obtain ⟨a1, a2, a3, a4, a5, a6⟩ := sim_run_pipe_from_reset isa junk1
    max_instr max_cycle (loaded image) (idle_from_reset_loaded image)
  obtain ⟨b1, b2, b3, b4, b5, -⟩ := sim_run_pipe_from_reset isa junk2
    max_instr max_cycle _ (idle_from_reset_reload image _ a6)
  exact ⟨b1.trans a1.symm, b2.trans a2.symm, b3.trans a3.symm,
    b4.trans a4.symm, b5.trans a5.symm⟩

/-- C23 (the code departs from the claim): when the instruction in the
Memory stage (`ex_mem_curr` after the commit phase) is a halt, the status
`sim_step_pipe` returns is Halt, whatever Writeback holds: `do_mem_stage`
overwrites the status that `do_wb_stage` has just taken from Writeback.  In
every other cycle the status returned is that of the instruction in
Writeback (`mem_wb_curr.status` after the commit phase), or Ok when that
status is Bubble. -/
theorem sim_step_pipe_status (isa : isa_fns) (j : if_locals) (s : Sim) :
    (sim_step_pipe isa j s).status =
      if (step_commit s).ex_mem_state.current.icode = I_HALT then STAT_HLT
      else if (step_commit s).mem_wb_state.current.status = STAT_BUB
        then STAT_AOK
      else (step_commit s).mem_wb_state.current.status :=
  sim_step_pipe_status_eq isa j s

/-- The code at the failing input of C23, `halt_to_mem_state`: the commit
phase puts a bubble in Writeback and a halt in Memory, and the cycle returns
Halt instead of Ok. -/
theorem sim_step_pipe_status_witness :
    (step_commit halt_to_mem_state).mem_wb_state.current.status = STAT_BUB ∧
    (step_commit halt_to_mem_state).ex_mem_state.current.icode = I_HALT ∧
    (sim_step_pipe isa_zero locals_zero halt_to_mem_state).status =
      STAT_HLT := by
  refine ⟨by decide, by decide, ?_⟩
  rw [sim_step_pipe_status isa_zero locals_zero halt_to_mem_state]
  decide


/-! ### Status propagation, Writeback values and sentinel operands -/

/-- The status that `do_ex_stage` leaves in `ex_mem_next`: the assignment
of `status` sits under `if (!my_cond)`, so for a conditional move whose
condition is false the field keeps the value it had. -/
theorem do_ex_stage_status_eq (isa : isa_fns) (s : Sim) :
    (do_ex_stage isa s).ex_mem_state.next.status =
      if s.id_ex_state.current.icode = I_RRMOVQ ∧
          isa.cond_holds s.cc s.id_ex_state.current.ifun = false
        then s.ex_mem_state.next.status
      else s.id_ex_state.current.status := by
  by_cases h : s.id_ex_state.current.icode = I_RRMOVQ
  · cases hc : isa.cond_holds s.cc s.id_ex_state.current.ifun <;>
      simp [do_ex_stage, h, hc]
  · simp [do_ex_stage, h]

/-- The status that `do_mem_stage` puts in `mem_wb_next` is AddressFault or
the status of `ex_mem_curr`. -/
theorem do_mem_stage_status_eq (s : Sim) :
    (do_mem_stage s).mem_wb_state.next.status = STAT_ADR ∨
    (do_mem_stage s).mem_wb_state.next.status = s.ex_mem_state.current.status := by
  by_cases hl : is_load s.ex_mem_state.current.icode
  · rcases hl with h | h | h
    · cases hv : get_word_val s.mem s.ex_mem_state.current.vale <;>
        simp [do_mem_stage, h, hv]
    · cases hv : get_word_val s.mem s.ex_mem_state.current.vala <;>
        simp [do_mem_stage, h, hv, I_MRMOVQ, I_POPQ, I_RET]
    · cases hv : get_word_val s.mem s.ex_mem_state.current.vala <;>
        simp [do_mem_stage, h, hv, I_MRMOVQ, I_POPQ, I_RET]
  · right
    unfold is_load at hl
    simp only [not_or] at hl
    simp [do_mem_stage, hl.1, hl.2.1, hl.2.2]

/-- C32 (the code departs from the claim): `do_id_stage` copies the status of
its input payload to its output payload; `do_ex_stage` does so unless the
instruction is a conditional move whose condition is false, in which case the
output payload keeps the status that `ex_mem_next` held before, whatever the
status of the instruction; `do_mem_stage` turns a status that is neither Ok
nor Bubble into one that is neither Ok nor Bubble. -/
theorem stage_status_kept (isa : isa_fns) (s : Sim) :
    (do_id_stage s).id_ex_state.next.status = s.if_id_state.current.status ∧
    (¬ cmov_not_taken isa s →
      (do_ex_stage isa s).ex_mem_state.next.status = s.id_ex_state.current.status) ∧
    (cmov_not_taken isa s →
      (do_ex_stage isa s).ex_mem_state.next.status = s.ex_mem_state.next.status) ∧
    (status_faulted s.ex_mem_state.current.status →
      status_faulted (do_mem_stage s).mem_wb_state.next.status) := by
  refine ⟨?_, ?_, ?_, ?_⟩
  · simp [do_id_stage, next_valb, next_vala]
  · intro h
    unfold cmov_not_taken at h
    rw [do_ex_stage_status_eq, if_neg h]
  · intro h
    unfold cmov_not_taken at h
    rw [do_ex_stage_status_eq, if_pos h]
  · intro h
    rcases do_mem_stage_status_eq s with h1 | h1
    · rw [h1]
      exact ⟨by decide, by decide⟩
    · rw [h1]
      exact h

/-- The code at the failing input of C32, `cmov_fault_state`: the conditional
move in Execute carries AddressFault, its condition is false, and the status
in `ex_mem_next` after `do_ex_stage` is Ok. -/
theorem stage_status_kept_witness :
    status_faulted cmov_fault_state.id_ex_state.current.status ∧
    (do_ex_stage isa_zero cmov_fault_state).ex_mem_state.next.status = STAT_AOK := by
  refine ⟨⟨by decide, by decide⟩, ?_⟩
  rw [(stage_status_kept isa_zero cmov_fault_state).2.2.1 ⟨by decide, rfl⟩]
  decide

/-- C33 (the code departs from the claim): after `do_wb_stage` the register
named by `deste` (when real and different from `destm`) holds
`mem_wb_curr.valm`, not `mem_wb_curr.vale`; the register named by `destm`
(when real) holds `mem_wb_curr.valm`; every other register is unchanged. -/
theorem do_wb_stage_regs (s : Sim) :
    (s.mem_wb_state.current.deste ≠ REG_NONE →
      s.mem_wb_state.current.deste ≠ s.mem_wb_state.current.destm →
      (do_wb_stage s).reg s.mem_wb_state.current.deste =
        s.mem_wb_state.current.valm) ∧
    (s.mem_wb_state.current.destm ≠ REG_NONE →
      (do_wb_stage s).reg s.mem_wb_state.current.destm =
        s.mem_wb_state.current.valm) ∧
    (∀ k, k ≠ s.mem_wb_state.current.deste → k ≠ s.mem_wb_state.current.destm →
      (do_wb_stage s).reg k = s.reg k) := by
  refine ⟨?_, ?_, ?_⟩
  · intro h1 h2
    by_cases hm : s.mem_wb_state.current.destm = REG_NONE
    · simp [do_wb_stage, set_reg_val, h1, hm]
    · simp [do_wb_stage, set_reg_val, h1, h2, hm]
  · intro h1
    by_cases he : s.mem_wb_state.current.deste = REG_NONE
    · simp [do_wb_stage, set_reg_val, h1, he]
    · simp [do_wb_stage, set_reg_val, h1, he]
  · intro k h1 h2
    by_cases he : s.mem_wb_state.current.deste = REG_NONE <;>
      by_cases hm : s.mem_wb_state.current.destm = REG_NONE <;>
      simp [do_wb_stage, set_reg_val, h1, h2, he, hm]

/-- The code at the failing input of C33, `wb_irmovq_state`: the instruction in
Writeback has status Ok, `deste` is `%rax` and `vale` is 42, and `%rax` holds
0 (its `valm`) after `do_wb_stage`. -/
theorem do_wb_stage_regs_witness :
    wb_irmovq_state.mem_wb_state.current.status = STAT_AOK ∧
    wb_irmovq_state.mem_wb_state.current.vale = 42 ∧
    (do_wb_stage wb_irmovq_state).reg 0 = 0 :=
  ⟨by decide, by decide,
    (do_wb_stage_regs wb_irmovq_state).1 (by decide) (by decide)⟩

/-- The if-chain of `next_vala` and `next_valb` at the sentinel `REG_NONE`:
the first forwarding source whose destination is the sentinel, else 0. -/
theorem forward_chain_sentinel (s : Sim) :
    (if REG_NONE = s.ex_mem_state.next.deste then s.ex_mem_state.next.vale
     else if REG_NONE = s.ex_mem_state.current.destm then s.mem_wb_state.next.valm
     else if REG_NONE = s.ex_mem_state.current.deste then s.ex_mem_state.current.vale
     else if REG_NONE = s.mem_wb_state.current.destm then s.mem_wb_state.current.valm
     else if REG_NONE = s.mem_wb_state.current.deste then s.mem_wb_state.current.vale
     else get_reg_val s.reg REG_NONE) = forward_sentinel s := by
  unfold forward_sentinel forward_candidates
  by_cases h1 : REG_NONE = s.ex_mem_state.next.deste
  · rw [if_pos h1, find_first_cons_eq _ _ _ _ h1]
  rw [if_neg h1, find_first_cons_ne _ _ _ _ h1]
  by_cases h2 : REG_NONE = s.ex_mem_state.current.destm
  · rw [if_pos h2, find_first_cons_eq _ _ _ _ h2]
  rw [if_neg h2, find_first_cons_ne _ _ _ _ h2]
  by_cases h3 : REG_NONE = s.ex_mem_state.current.deste
  · rw [if_pos h3, find_first_cons_eq _ _ _ _ h3]
  rw [if_neg h3, find_first_cons_ne _ _ _ _ h3]
  by_cases h4 : REG_NONE = s.mem_wb_state.current.destm
  · rw [if_pos h4, find_first_cons_eq _ _ _ _ h4]
  rw [if_neg h4, find_first_cons_ne _ _ _ _ h4]
  by_cases h5 : REG_NONE = s.mem_wb_state.current.deste
  · rw [if_pos h5, find_first_cons_eq _ _ _ _ h5]
  rw [if_neg h5, find_first_cons_ne _ _ _ _ h5]
  simp [get_reg_val]

/-- No forwarding source names the sentinel: the chain gives 0. -/
theorem forward_sentinel_none (s : Sim)
    (h1 : s.ex_mem_state.next.deste ≠ REG_NONE)
    (h2 : s.ex_mem_state.current.destm ≠ REG_NONE)
    (h3 : s.ex_mem_state.current.deste ≠ REG_NONE)
    (h4 : s.mem_wb_state.current.destm ≠ REG_NONE)
    (h5 : s.mem_wb_state.current.deste ≠ REG_NONE) :
    forward_sentinel s = 0 := by
  rw [← forward_chain_sentinel]
  rw [if_neg (Ne.symm h1), if_neg (Ne.symm h2), if_neg (Ne.symm h3), if_neg (Ne.symm h4),
    if_neg (Ne.symm h5)]
  simp [get_reg_val]

/-- C34, as stated, fails: in `nop_fwd_state` the instruction in Decode is a
`nop`, so both source ids are `REG_NONE`, and `do_id_stage` gives both
operands the store address `0x108` that Execute offers with destination
`REG_NONE`. -/
theorem do_id_stage_sentinel_fwd :
    (do_id_stage nop_fwd_state).id_ex_state.next.srcb = REG_NONE ∧
    (do_id_stage nop_fwd_state).id_ex_state.next.valb ≠ 0 ∧
    (do_id_stage nop_fwd_state).id_ex_state.next.srca = REG_NONE ∧
    (do_id_stage nop_fwd_state).id_ex_state.next.icode ≠ I_CALL ∧
    (do_id_stage nop_fwd_state).id_ex_state.next.icode ≠ I_JMP ∧
    (do_id_stage nop_fwd_state).id_ex_state.next.vala ≠ 0 := by
  decide

/-- C34, amended: after `do_id_stage`, `id_ex_next.valb` whenever
`id_ex_next.srcb` is `REG_NONE`, and `id_ex_next.vala` whenever
`id_ex_next.srca` is `REG_NONE` and the instruction is neither a call nor a
jump, is the value of the first forwarding source whose destination id is
`REG_NONE` too (in the order Execute-next `deste`, Memory-current `destm`,
Memory-current `deste`, Writeback-current `destm`, Writeback-current
`deste`); it is 0 when none of these five destination ids is `REG_NONE`. -/
theorem do_id_stage_sentinel (s : Sim) :
    ((do_id_stage s).id_ex_state.next.srcb = REG_NONE →
      (do_id_stage s).id_ex_state.next.valb = forward_sentinel s) ∧
    ((do_id_stage s).id_ex_state.next.srca = REG_NONE →
      s.if_id_state.current.icode ≠ I_CALL →
      s.if_id_state.current.icode ≠ I_JMP →
      (do_id_stage s).id_ex_state.next.vala = forward_sentinel s) ∧
    (s.ex_mem_state.next.deste ≠ REG_NONE →
      s.ex_mem_state.current.destm ≠ REG_NONE →
      s.ex_mem_state.current.deste ≠ REG_NONE →
      s.mem_wb_state.current.destm ≠ REG_NONE →
      s.mem_wb_state.current.deste ≠ REG_NONE →
      forward_sentinel s = 0) := by
  refine ⟨?_, ?_, forward_sentinel_none s⟩
  · intro h
    have key : (do_id_stage s).id_ex_state.next.valb =
        (if (do_id_stage s).id_ex_state.next.srcb = s.ex_mem_state.next.deste
          then s.ex_mem_state.next.vale
         else if (do_id_stage s).id_ex_state.next.srcb = s.ex_mem_state.current.destm
          then s.mem_wb_state.next.valm
         else if (do_id_stage s).id_ex_state.next.srcb = s.ex_mem_state.current.deste
          then s.ex_mem_state.current.vale
         else if (do_id_stage s).id_ex_state.next.srcb = s.mem_wb_state.current.destm
          then s.mem_wb_state.current.valm
         else if (do_id_stage s).id_ex_state.next.srcb = s.mem_wb_state.current.deste
          then s.mem_wb_state.current.vale
         else get_reg_val s.reg (do_id_stage s).id_ex_state.next.srcb) := rfl
    rw [key, h]
    exact forward_chain_sentinel s
  · intro h _ _
    have key : (do_id_stage s).id_ex_state.next.vala =
        (if (do_id_stage s).id_ex_state.next.srca = s.ex_mem_state.next.deste
          then s.ex_mem_state.next.vale
         else if (do_id_stage s).id_ex_state.next.srca = s.ex_mem_state.current.destm
          then s.mem_wb_state.next.valm
         else if (do_id_stage s).id_ex_state.next.srca = s.ex_mem_state.current.deste
          then s.ex_mem_state.current.vale
         else if (do_id_stage s).id_ex_state.next.srca = s.mem_wb_state.current.destm
          then s.mem_wb_state.current.valm
         else if (do_id_stage s).id_ex_state.next.srca = s.mem_wb_state.current.deste
          then s.mem_wb_state.current.vale
         else get_reg_val s.reg (do_id_stage s).id_ex_state.next.srca) := rfl
    rw [key, h]
    exact forward_chain_sentinel s

/-- Witness for the amended C34 at `no_sentinel_state`: every forwarding
source names a real register and both operands of the `nop` are 0. -/
theorem do_id_stage_sentinel_witness :
    (do_id_stage no_sentinel_state).id_ex_state.next.srcb = REG_NONE ∧
    (do_id_stage no_sentinel_state).id_ex_state.next.valb = 0 ∧
    (do_id_stage no_sentinel_state).id_ex_state.next.srca = REG_NONE ∧
    no_sentinel_state.if_id_state.current.icode ≠ I_CALL ∧
    no_sentinel_state.if_id_state.current.icode ≠ I_JMP ∧
    (do_id_stage no_sentinel_state).id_ex_state.next.vala = 0 := by
  have h := do_id_stage_sentinel no_sentinel_state
  have hz := h.2.2 (by decide) (by decide) (by decide) (by decide) (by decide)
  refine ⟨by decide, ?_, by decide, by decide, by decide, ?_⟩
  · rw [h.1 (by decide), hz]
  · rw [h.2.1 (by decide) (by decide) (by decide), hz]

end Psim

/-!
# Cache simulator: theorems
-/

namespace CacheSim

/-- The search loop of `get_line` finds nothing exactly when no line of its
range is valid with the tag looked for. -/
theorem get_line_loop_none (set : Nat → cache_line_t) (tag_add : Nat) :
    ∀ n i, get_line_loop set tag_add n i = none ↔
      ∀ k, i ≤ k → k < i + n → ¬((set k).valid = true ∧ (set k).tag = tag_add) := by
  intro n
  induction n with
  | zero =>
    intro i
    simp only [get_line_loop, true_iff]
    intro k h1 h2
    omega
  | succ n ih =>
    intro i
    unfold get_line_loop
    by_cases ht : (set i).tag = tag_add
    · by_cases hv : (set i).valid = true
      · rw [if_pos ht, if_pos hv]
        constructor
        · intro h
          cases h
        · intro h
          exact absurd ⟨hv, ht⟩ (h i (le_refl i) (by omega))
      · rw [if_pos ht, if_neg hv, ih (i + 1)]
        constructor
        · intro h k h1 h2
          by_cases hk : k = i
          · subst hk
            exact fun hh => hv hh.1
          · exact h k (by omega) (by omega)
        · intro h k h1 h2
          exact h k (by omega) (by omega)
    · rw [if_neg ht, ih (i + 1)]
      constructor
      · intro h k h1 h2
        by_cases hk : k = i
        · subst hk
          exact fun hh => ht hh.2
        · exact h k (by omega) (by omega)
      · intro h k h1 h2
        exact h k (by omega) (by omega)

/-- The line found by the search loop of `get_line` lies in its range, is
valid and carries the tag looked for. -/
theorem get_line_loop_some (set : Nat → cache_line_t) (tag_add : Nat) :
    ∀ n i k, get_line_loop set tag_add n i = some k →
      i ≤ k ∧ k < i + n ∧ (set k).valid = true ∧ (set k).tag = tag_add := by
  intro n
  induction n with
  | zero =>
    intro i k h
    simp [get_line_loop] at h
  | succ n ih =>
    intro i k h
    unfold get_line_loop at h
    by_cases ht : (set i).tag = tag_add
    · by_cases hv : (set i).valid = true
      · rw [if_pos ht, if_pos hv] at h
        cases h
        exact ⟨le_refl _, by omega, hv, ht⟩
      · rw [if_pos ht, if_neg hv] at h
        have := ih (i + 1) k h
        exact ⟨by omega, by omega, this.2.2⟩
    · rw [if_neg ht] at h
      have := ih (i + 1) k h
      exact ⟨by omega, by omega, this.2.2⟩

/-- The `while` loop of `select_line` stops at the first invalid line of its
range, or at the end of the range when there is none. -/
theorem select_line_scan_fst (set : Nat → cache_line_t) :
    ∀ n j bi far,
      j ≤ (select_line_scan set n j bi far).1 ∧
      (select_line_scan set n j bi far).1 ≤ j + n ∧
      (∀ k, j ≤ k → k < (select_line_scan set n j bi far).1 → (set k).valid = true) ∧
      ((select_line_scan set n j bi far).1 < j + n →
        (set (select_line_scan set n j bi far).1).valid = false) := by
  intro n
  induction n with
  | zero =>
    intro j bi far
    simp only [select_line_scan]
    refine ⟨le_refl _, le_refl _, ?_, ?_⟩
    · intro k h1 h2
      omega
    · intro h
      omega
  | succ n ih =>
    intro j bi far
    unfold select_line_scan
    by_cases hv : (set j).valid = true
    · rw [if_pos hv]
      by_cases hl : (set j).lru ≥ far
      · rw [if_pos hl]
        obtain ⟨h1, h2, h3, h4⟩ := ih (j + 1) j (set j).lru
        refine ⟨by omega, by omega, ?_, ?_⟩
        · intro k hk1 hk2
          by_cases hk : k = j
          · subst hk
            exact hv
          · exact h3 k (by omega) hk2
        · intro h
          exact h4 (by omega)
      · rw [if_neg hl]
        obtain ⟨h1, h2, h3, h4⟩ := ih (j + 1) bi far
        refine ⟨by omega, by omega, ?_, ?_⟩
        · intro k hk1 hk2
          by_cases hk : k = j
          · subst hk
            exact hv
          · exact h3 k (by omega) hk2
        · intro h
          exact h4 (by omega)
    · rw [if_neg hv]
      refine ⟨le_refl _, by omega, ?_, ?_⟩
      · intro k h1 h2
        simp only at h2
        omega
      · intro _
        simpa using hv

/-- When every line of the set is valid, the `while` loop of `select_line`
leaves in `biggest_I` a line of the set whose counter is the largest. -/
theorem select_line_scan_snd (set : Nat → cache_line_t) :
    ∀ n j bi far,
      (j = 0 ∧ far = 0 ∧ 1 ≤ n ∨ (bi < j ∧ far = (set bi).lru ∧ ∀ k, k < j → (set k).lru ≤ far)) →
      (∀ k, j ≤ k → k < j + n → (set k).valid = true) →
      (select_line_scan set n j bi far).2 < j + n ∧
      ∀ k, k < j + n → (set k).lru ≤ (set (select_line_scan set n j bi far).2).lru := by
  intro n
  induction n with
  | zero =>
    intro j bi far hinv _
    simp only [select_line_scan]
    rcases hinv with ⟨_, _, h⟩ | ⟨h1, h2, h3⟩
    · omega
    · refine ⟨by omega, ?_⟩
      intro k hk
      rw [← h2]
      exact h3 k (by omega)
  | succ n ih =>
    intro j bi far hinv hval
    unfold select_line_scan
    have hv : (set j).valid = true := hval j (le_refl _) (by omega)
    rw [if_pos hv]
    by_cases hl : (set j).lru ≥ far
    · rw [if_pos hl]
      have := ih (j + 1) j (set j).lru (Or.inr ⟨by omega, rfl, by
        intro k hk
        by_cases hkj : k = j
        · subst hkj
          exact le_refl _
        · rcases hinv with ⟨h0, _, _⟩ | ⟨_, _, h3⟩
          · omega
          · have := h3 k (by omega)
            omega⟩) (fun k h1 h2 => hval k (by omega) (by omega))
      refine ⟨by omega, ?_⟩
      intro k hk
      exact this.2 k (by omega)
    · rw [if_neg hl]
      rcases hinv with ⟨h0, hf0, _⟩ | ⟨h1, h2, h3⟩
      · omega
      · have := ih (j + 1) bi far (Or.inr ⟨by omega, h2, by
          intro k hk
          by_cases hkj : k = j
          · subst hkj
            omega
          · exact h3 k (by omega)⟩) (fun k h1 h2 => hval k (by omega) (by omega))
        refine ⟨by omega, ?_⟩
        intro k hk
        exact this.2 k (by omega)

/-- Function `get_line` returns NULL exactly on a miss. -/
theorem get_line_none_iff (c : Cache) (addr : Nat) :
    get_line_loop (c.lines (addr_set c addr)) (addr_tag c addr) c.E 0 = none ↔ ¬ is_hit c addr := by
  rw [get_line_loop_none]
  unfold is_hit
  constructor
  · rintro h ⟨i, hi, hv, ht⟩
    exact h i (Nat.zero_le _) (by omega) ⟨hv, ht⟩
  · intro h k _ hk hh
    exact h ⟨k, by omega, hh.1, hh.2⟩

/-- The `while` loop of `select_line` runs to `E` exactly when the selected
set is full. -/
theorem scan_full_iff (c : Cache) (addr : Nat) :
    (select_line_scan (c.lines (addr_set c addr)) c.E 0 0 0).1 = c.E ↔ set_full c addr := by
  obtain ⟨h1, h2, h3, h4⟩ := select_line_scan_fst (c.lines (addr_set c addr)) c.E 0 0 0
  unfold set_full
  constructor
  · intro h i hi
    exact h3 i (Nat.zero_le _) (by omega)
  · intro h
    by_contra hne
    have hlt : (select_line_scan (c.lines (addr_set c addr)) c.E 0 0 0).1 < 0 + c.E := by omega
    have := h4 hlt
    rw [h _ (by omega)] at this
    cases this

/-- An access that finds line `i`: one hit more, and the counters of the set
updated. -/
theorem accessData_hit (c : Cache) (addr i : Nat)
    (h : get_line_loop (c.lines (addr_set c addr)) (addr_tag c addr) c.E 0 = some i) :
    accessData c addr =
      { c with
        hit_count := c.hit_count + 1
        lines := fun k =>
          if k = addr_set c addr then hit_update c.E (c.lines (addr_set c addr)) i
          else c.lines k } := by
  simp [accessData, check_hit, get_line, h]

/-- An access that finds no line: one miss more, then `select_line`. -/
theorem accessData_miss (c : Cache) (addr : Nat)
    (h : get_line_loop (c.lines (addr_set c addr)) (addr_tag c addr) c.E 0 = none) :
    accessData c addr = (select_line { c with miss_count := c.miss_count + 1 } addr).1 := by
  simp [accessData, check_hit, get_line, h, handle_miss]

/-- The three statistics counters after one access, for every state of the
globals. -/
theorem accessData_counters (c : Cache) (addr : Nat) :
    (is_hit c addr →
      (accessData c addr).hit_count = c.hit_count + 1 ∧
      (accessData c addr).miss_count = c.miss_count) ∧
    (¬ is_hit c addr →
      (accessData c addr).miss_count = c.miss_count + 1 ∧
      (accessData c addr).hit_count = c.hit_count) ∧
    (¬ is_hit c addr ∧ set_full c addr →
      (accessData c addr).eviction_count = c.eviction_count + 1) ∧
    (¬ (¬ is_hit c addr ∧ set_full c addr) →
      (accessData c addr).eviction_count = c.eviction_count) := by
  have hfull := scan_full_iff { c with miss_count := c.miss_count + 1 } addr
  cases hg : get_line_loop (c.lines (addr_set c addr)) (addr_tag c addr) c.E 0 with
  | none =>
    have hm : ¬ is_hit c addr := (get_line_none_iff c addr).1 hg
    rw [accessData_miss c addr hg]
    by_cases hf : set_full c addr
    · have hf2 : (select_line_scan (c.lines (addr_set c addr)) c.E 0 0 0).1 = c.E :=
        (scan_full_iff c addr).2 hf
      simp [select_line, addr_set, addr_tag] at *
      simp [hf2, hm, hf]
    · have hf2 : ¬ (select_line_scan (c.lines (addr_set c addr)) c.E 0 0 0).1 = c.E :=
        fun h => hf ((scan_full_iff c addr).1 h)
      simp [select_line, addr_set, addr_tag] at *
      simp [hf2, hm, hf]
  | some i =>
    have hh : is_hit c addr := by
      by_contra hn
      rw [(get_line_none_iff c addr).2 hn] at hg
      cases hg
    rw [accessData_hit c addr i hg]
    simp [hh]

/-- C29: for a cache with `E ≥ 1`, one call of `accessData` adds 1 to
`hit_count` and leaves `miss_count` when the selected set holds a valid line
with the tag of the address, and adds 1 to `miss_count` and leaves `hit_count`
otherwise; it adds 1 to `eviction_count` when the access misses and all `E`
lines of the set are valid, and leaves `eviction_count` otherwise. -/
theorem accessData_counts (c : Cache) (addr : Nat) (hE : 1 ≤ c.E) :
    (is_hit c addr →
      (accessData c addr).hit_count = c.hit_count + 1 ∧
      (accessData c addr).miss_count = c.miss_count) ∧
    (¬ is_hit c addr →
      (accessData c addr).miss_count = c.miss_count + 1 ∧
      (accessData c addr).hit_count = c.hit_count) ∧
    (¬ is_hit c addr ∧ set_full c addr →
      (accessData c addr).eviction_count = c.eviction_count + 1) ∧
    (¬ (¬ is_hit c addr ∧ set_full c addr) →
      (accessData c addr).eviction_count = c.eviction_count) := by
  have _ := hE
  exact accessData_counters c addr

/-- C29 at work: after the blocks 1 and 2 were accessed, block 1 hits. -/
theorem accessData_counts_witness :
    1 ≤ (cache_after cache_two [2, 1]).E ∧
    (accessData (cache_after cache_two [2, 1]) 1).hit_count =
      (cache_after cache_two [2, 1]).hit_count + 1 :=
  ⟨by decide,
    ((accessData_counts (cache_after cache_two [2, 1]) 1 (by decide)).1
      ⟨0, by decide, by decide, by decide⟩).1⟩

/-- Under the invariant two different valid lines of a set have different
counters. -/
theorem lru_inv_distinct {E : Nat} {set : Nat → cache_line_t} {touch : Nat → Nat} {T : Nat}
    (h : lru_inv E set touch T) (i j : Nat) (hi : i < E) (hj : j < E)
    (hvi : (set i).valid = true) (hvj : (set j).valid = true) (hne : i ≠ j) :
    (set i).lru ≠ (set j).lru := by
  have hp := h.pos i hi hvi
  have hne2 : touch i ≠ touch j := fun he => hne (h.inj i j he hp)
  have h1 := h.ord i j hi hj hvi hvj
  have h2 := h.ord j i hj hi hvj hvi
  intro he
  rcases Nat.lt_or_gt_of_ne hne2 with hlt | hgt
  · have := h2.2 hlt
    omega
  · have := h1.2 hgt
    omega

/-- The invariant of a set survives an access to another set. -/
theorem lru_inv_later {E : Nat} {set : Nat → cache_line_t} {touch : Nat → Nat} {T : Nat}
    (h : lru_inv E set touch T) : lru_inv E set touch (T + 1) :=
  ⟨h.pos, fun i => Nat.le_succ_of_le (h.le i), h.inj, h.ord⟩

/-- Stamping one line with a fresh time keeps the times of different lines
different. -/
theorem touch_update_inj {touch : Nat → Nat} {T : Nat} (i0 : Nat)
    (hle : ∀ i, touch i ≤ T) (hinj : ∀ i j, touch i = touch j → 0 < touch i → i = j) :
    ∀ i j, (if i = i0 then T + 1 else touch i) = (if j = i0 then T + 1 else touch j) →
      0 < (if i = i0 then T + 1 else touch i) → i = j := by
  intro i j he hp
  by_cases hi : i = i0 <;> by_cases hj : j = i0
  · rw [hi, hj]
  · rw [if_pos hi, if_neg hj] at he
    have := hle j
    omega
  · rw [if_neg hi, if_pos hj] at he
    have := hle i
    omega
  · rw [if_neg hi, if_neg hj] at he
    rw [if_neg hi] at hp
    exact hinj i j he hp

/-- A hit keeps the invariant of the selected set. -/
theorem lru_inv_hit {E : Nat} {set : Nat → cache_line_t} {touch : Nat → Nat} {T : Nat}
    (h : lru_inv E set touch T) (i0 : Nat) (hi0 : i0 < E) (hv0 : (set i0).valid = true) :
    lru_inv E (hit_update E set i0) (fun k => if k = i0 then T + 1 else touch k) (T + 1) := by
  have hval : ∀ k, (hit_update E set i0 k).valid = (set k).valid := by
    intro k
    unfold hit_update
    by_cases hk : k = i0
    · simp [hk]
    · by_cases hc : k < E ∧ (set k).valid = true ∧ (set k).lru < (set i0).lru
      · simp [hk, hc]
      · simp only [if_neg hk, if_neg hc]
  refine ⟨?_, ?_, touch_update_inj i0 h.le h.inj, ?_⟩
  · intro i hi hv
    rw [hval] at hv
    show 0 < (if i = i0 then T + 1 else touch i)
    by_cases hk : i = i0
    · rw [if_pos hk]
      omega
    · rw [if_neg hk]
      exact h.pos i hi hv
  · intro i
    show (if i = i0 then T + 1 else touch i) ≤ T + 1
    by_cases hk : i = i0
    · rw [if_pos hk]
    · rw [if_neg hk]
      have := h.le i
      omega
  · intro i j hi hj hvi hvj
    rw [hval] at hvi hvj
    show (hit_update E set i0 i).lru < (hit_update E set i0 j).lru ↔
      (if j = i0 then T + 1 else touch j) < (if i = i0 then T + 1 else touch i)
    have hlru0 : (hit_update E set i0 i0).lru = 0 := by simp [hit_update]
    have hlru : ∀ k, k < E → (set k).valid = true → k ≠ i0 →
        (hit_update E set i0 k).lru =
          (if (set k).lru < (set i0).lru then (set k).lru + 1 else (set k).lru) := by
      intro k hk hvk hne
      unfold hit_update
      by_cases hc : (set k).lru < (set i0).lru
      · simp [hne, hk, hvk, hc]
      · simp [hne, hk, hvk, hc]
    by_cases hi' : i = i0 <;> by_cases hj' : j = i0
    · subst hi'
      subst hj'
      simp
    · subst hi'
      rw [hlru0, hlru j hj hvj hj', if_neg hj', if_pos rfl]
      have hd := lru_inv_distinct h j i hj hi hvj hvi hj'
      have := h.le j
      constructor
      · intro _
        omega
      · intro _
        split_ifs <;> omega
    · subst hj'
      rw [hlru0, if_pos rfl, if_neg hi']
      have := h.le i
      constructor
      · intro hh
        omega
      · intro hh
        omega
    · rw [hlru i hi hvi hi', hlru j hj hvj hj', if_neg hi', if_neg hj']
      have hdi := lru_inv_distinct h i i0 hi hi0 hvi hv0 hi'
      have hdj := lru_inv_distinct h j i0 hj hi0 hvj hv0 hj'
      rw [← h.ord i j hi hj hvi hvj]
      split_ifs <;> omega

/-- Filling a line keeps the invariant of the selected set. -/
theorem lru_inv_fill {E : Nat} {set : Nat → cache_line_t} {touch : Nat → Nat} {T : Nat}
    (h : lru_inv E set touch T) (j0 tag_add : Nat) :
    lru_inv E (fill_update E set j0 tag_add) (fun k => if k = j0 then T + 1 else touch k)
      (T + 1) := by
  have hval : ∀ k, k ≠ j0 → (fill_update E set j0 tag_add k).valid = (set k).valid := by
    intro k hk
    unfold fill_update
    by_cases hc : k < E ∧ (set k).valid = true
    · simp [hk, hc]
    · simp only [if_neg hk, if_neg hc]
  have hlru0 : (fill_update E set j0 tag_add j0).lru = 0 := by simp [fill_update]
  have hlru : ∀ k, k < E → (set k).valid = true → k ≠ j0 →
      (fill_update E set j0 tag_add k).lru = (set k).lru + 1 := by
    intro k hk hvk hne
    simp [fill_update, hne, hk, hvk]
  refine ⟨?_, ?_, touch_update_inj j0 h.le h.inj, ?_⟩
  · intro i hi hv
    show 0 < (if i = j0 then T + 1 else touch i)
    by_cases hk : i = j0
    · rw [if_pos hk]
      omega
    · rw [if_neg hk]
      rw [hval i hk] at hv
      exact h.pos i hi hv
  · intro i
    show (if i = j0 then T + 1 else touch i) ≤ T + 1
    by_cases hk : i = j0
    · rw [if_pos hk]
    · rw [if_neg hk]
      have := h.le i
      omega
  · intro i j hi hj hvi hvj
    show (fill_update E set j0 tag_add i).lru < (fill_update E set j0 tag_add j).lru ↔
      (if j = j0 then T + 1 else touch j) < (if i = j0 then T + 1 else touch i)
    by_cases hi' : i = j0 <;> by_cases hj' : j = j0
    · subst hi'
      subst hj'
      simp
    · subst hi'
      rw [hval j hj'] at hvj
      rw [hlru0, hlru j hj hvj hj', if_neg hj', if_pos rfl]
      have := h.le j
      constructor <;> intro _ <;> omega
    · subst hj'
      rw [hlru0, if_pos rfl, if_neg hi']
      have := h.le i
      constructor <;> intro hh <;> omega
    · rw [hval i hi'] at hvi
      rw [hval j hj'] at hvj
      rw [hlru i hi hvi hi', hlru j hj hvj hj', if_neg hi', if_neg hj']
      rw [← h.ord i j hi hj hvi hvj]
      omega

/-- Replacing a line keeps the invariant of the selected set. -/
theorem lru_inv_evict {E : Nat} {set : Nat → cache_line_t} {touch : Nat → Nat} {T : Nat}
    (h : lru_inv E set touch T) (v tag_add : Nat) :
    lru_inv E (evict_update E set v tag_add) (fun k => if k = v then T + 1 else touch k)
      (T + 1) := by
  have hval : ∀ k, (evict_update E set v tag_add k).valid = (set k).valid := by
    intro k
    unfold evict_update
    by_cases hk : k = v
    · simp [hk]
    · by_cases hc : k < E
      · simp [hk, hc]
      · simp only [if_neg hk, if_neg hc]
  have hlru0 : (evict_update E set v tag_add v).lru = 0 := by simp [evict_update]
  have hlru : ∀ k, k < E → k ≠ v →
      (evict_update E set v tag_add k).lru = (set k).lru + 1 := by
    intro k hk hne
    simp [evict_update, hne, hk]
  refine ⟨?_, ?_, touch_update_inj v h.le h.inj, ?_⟩
  · intro i hi hv
    show 0 < (if i = v then T + 1 else touch i)
    by_cases hk : i = v
    · rw [if_pos hk]
      omega
    · rw [if_neg hk]
      rw [hval i] at hv
      exact h.pos i hi hv
  · intro i
    show (if i = v then T + 1 else touch i) ≤ T + 1
    by_cases hk : i = v
    · rw [if_pos hk]
    · rw [if_neg hk]
      have := h.le i
      omega
  · intro i j hi hj hvi hvj
    show (evict_update E set v tag_add i).lru < (evict_update E set v tag_add j).lru ↔
      (if j = v then T + 1 else touch j) < (if i = v then T + 1 else touch i)
    rw [hval] at hvi hvj
    by_cases hi' : i = v <;> by_cases hj' : j = v
    · subst hi'
      subst hj'
      simp
    · subst hi'
      rw [hlru0, hlru j hj hj', if_neg hj', if_pos rfl]
      have := h.le j
      constructor <;> intro _ <;> omega
    · subst hj'
      rw [hlru0, if_pos rfl, if_neg hi']
      have := h.le i
      constructor <;> intro hh <;> omega
    · rw [hlru i hi hi', hlru j hj hj', if_neg hi', if_neg hj']
      rw [← h.ord i j hi hj hvi hvj]
      omega

/-- Function `select_line` neither reads nor writes `miss_count`. -/
theorem select_line_miss_count (c : Cache) (addr : Nat) :
    select_line { c with miss_count := c.miss_count + 1 } addr =
      ({ (select_line c addr).1 with miss_count := c.miss_count + 1 }, (select_line c addr).2) := by
  unfold select_line
  simp only [addr_set, addr_tag]
  split_ifs <;> rfl

/-- An access leaves the geometry of the cache as it is. -/
theorem accessData_geom (c : Cache) (addr : Nat) :
    (accessData c addr).E = c.E ∧ (accessData c addr).s = c.s ∧
    (accessData c addr).b = c.b ∧ (accessData c addr).s_mask = c.s_mask := by
  cases hg : get_line_loop (c.lines (addr_set c addr)) (addr_tag c addr) c.E 0 with
  | none =>
    rw [accessData_miss c addr hg, select_line_miss_count]
    unfold select_line
    simp only
    split_ifs <;> exact ⟨rfl, rfl, rfl, rfl⟩
  | some i =>
    rw [accessData_hit c addr i hg]
    exact ⟨rfl, rfl, rfl, rfl⟩

/-- The geometry of the cache is that set by the initial state, whatever the
accesses. -/
theorem cache_after_geom (c0 : Cache) (hist : List Nat) :
    (cache_after c0 hist).E = c0.E ∧ (cache_after c0 hist).s = c0.s ∧
    (cache_after c0 hist).b = c0.b ∧ (cache_after c0 hist).s_mask = c0.s_mask := by
  induction hist with
  | nil => exact ⟨rfl, rfl, rfl, rfl⟩
  | cons a older ih =>
    have := accessData_geom (cache_after c0 older) a
    simp only [cache_after]
    exact ⟨this.1.trans ih.1, this.2.1.trans ih.2.1, this.2.2.1.trans ih.2.2.1,
      this.2.2.2.trans ih.2.2.2⟩

/-- The lines of the selected set after an access, and the line touched. -/
theorem accessData_set (c : Cache) (addr : Nat) :
    (accessData c addr).lines (addr_set c addr) =
      (match get_line_loop (c.lines (addr_set c addr)) (addr_tag c addr) c.E 0 with
       | some i => hit_update c.E (c.lines (addr_set c addr)) i
       | none =>
         if (select_line_scan (c.lines (addr_set c addr)) c.E 0 0 0).1 ≠ c.E then
           fill_update c.E (c.lines (addr_set c addr))
             (select_line_scan (c.lines (addr_set c addr)) c.E 0 0 0).1 (addr_tag c addr)
         else
           evict_update c.E (c.lines (addr_set c addr))
             (select_line_scan (c.lines (addr_set c addr)) c.E 0 0 0).2 (addr_tag c addr)) ∧
    touched_line c addr =
      (match get_line_loop (c.lines (addr_set c addr)) (addr_tag c addr) c.E 0 with
       | some i => i
       | none =>
         if (select_line_scan (c.lines (addr_set c addr)) c.E 0 0 0).1 ≠ c.E then
           (select_line_scan (c.lines (addr_set c addr)) c.E 0 0 0).1
         else (select_line_scan (c.lines (addr_set c addr)) c.E 0 0 0).2) := by
  cases hg : get_line_loop (c.lines (addr_set c addr)) (addr_tag c addr) c.E 0 with
  | none =>
    rw [accessData_miss c addr hg, select_line_miss_count]
    have ht : touched_line c addr = (select_line c addr).2 := by
      simp [touched_line, get_line, hg, select_line_miss_count]
    rw [ht]
    unfold select_line
    simp only
    split_ifs <;> simp
  | some i =>
    rw [accessData_hit c addr i hg]
    simp [touched_line, get_line, hg]

/-- An access changes no line outside the set it selects. -/
theorem accessData_other_set (c : Cache) (addr idx : Nat) (h : idx ≠ addr_set c addr) :
    (accessData c addr).lines idx = c.lines idx := by
  cases hg : get_line_loop (c.lines (addr_set c addr)) (addr_tag c addr) c.E 0 with
  | none =>
    rw [accessData_miss c addr hg, select_line_miss_count]
    unfold select_line
    simp only
    split_ifs <;> simp [h]
  | some i =>
    rw [accessData_hit c addr i hg]
    simp [h]

/-- From a state without valid lines, after any accesses, in every set the
order of the counters of the valid lines mirrors the order of their most
recent accesses. -/
theorem cache_after_lru_inv (c0 : Cache) (h0 : ∀ idx i, (c0.lines idx i).valid = false)
    (hist : List Nat) :
    ∀ idx, lru_inv c0.E ((cache_after c0 hist).lines idx) (last_touch c0 hist idx)
      hist.length := by
  induction hist with
  | nil =>
    intro idx
    refine ⟨?_, ?_, ?_, ?_⟩
    · intro i _ hv
      simp [cache_after, h0] at hv
    · intro i
      simp [last_touch]
    · intro i j _ hp
      simp [last_touch] at hp
    · intro i j _ _ hv
      simp [cache_after, h0] at hv
  | cons a older ih =>
    intro idx
    have hE := (cache_after_geom c0 older).1
    simp only [cache_after, List.length_cons]
    by_cases hidx : idx = addr_set (cache_after c0 older) a
    · subst hidx
      have htouch : last_touch c0 (a :: older) (addr_set (cache_after c0 older) a) =
          fun k => if k = touched_line (cache_after c0 older) a then older.length + 1
            else last_touch c0 older (addr_set (cache_after c0 older) a) k := by
        funext k
        simp only [last_touch, true_and]
        by_cases hk : touched_line (cache_after c0 older) a = k
        · rw [if_pos hk, if_pos hk.symm]
        · rw [if_neg hk, if_neg (fun h => hk h.symm)]
      rw [htouch]
      have hset := accessData_set (cache_after c0 older) a
      have hprev := ih (addr_set (cache_after c0 older) a)
      rw [hset.1, hset.2, hE]
      cases hg : get_line_loop ((cache_after c0 older).lines (addr_set (cache_after c0 older) a))
          (addr_tag (cache_after c0 older) a) c0.E 0 with
      | none =>
        simp only
        by_cases hf : (select_line_scan
            ((cache_after c0 older).lines (addr_set (cache_after c0 older) a)) c0.E 0 0 0).1 ≠ c0.E
        · rw [if_pos hf, if_pos hf]
          exact lru_inv_fill hprev _ _
        · rw [if_neg hf, if_neg hf]
          exact lru_inv_evict hprev _ _
      | some i =>
        simp only
        have hs := get_line_loop_some _ _ _ _ _ hg
        exact lru_inv_hit hprev i (by omega) hs.2.2.1
    · have htouch : last_touch c0 (a :: older) idx = last_touch c0 older idx := by
        funext k
        simp only [last_touch]
        rw [if_neg (fun h => hidx h.1.symm)]
      rw [htouch, accessData_other_set _ _ _ hidx]
      exact lru_inv_later (ih idx)

/-- An access that counts an eviction missed in a full set. -/
theorem accessData_evicts (c : Cache) (addr : Nat)
    (h : (accessData c addr).eviction_count = c.eviction_count + 1) :
    ¬ is_hit c addr ∧ set_full c addr := by
  by_contra hn
  have := (accessData_counters c addr).2.2.2 hn
  omega

/-- C30: replacement is LRU.  Let `c` be the cache after any accesses `hist`
made from `initCache` with `E ≥ 1`, and let the next access, to `addr`, evict
(it counts one eviction more).  Then the line it touches is a line `v < E` of
the selected set, that line now carries the tag of `addr`, every other line
`k` of the set keeps its tag, stays valid and was accessed (hit or filled)
more recently than `v`, and the lines of all other sets are unchanged. -/
theorem accessData_lru (s_in b_in E_in : Nat) (cs : Cache) (hist : List Nat) (addr : Nat)
    (c0 c : Cache) (hc0 : c0 = initCache s_in b_in E_in cs) (hc : c = cache_after c0 hist)
    (hE : 1 ≤ E_in)
    (hev : (accessData c addr).eviction_count = c.eviction_count + 1) :
    touched_line c addr < E_in ∧
    ((accessData c addr).lines (addr_set c addr) (touched_line c addr)).tag = addr_tag c addr ∧
    (∀ k, k < E_in → k ≠ touched_line c addr →
      last_touch c0 hist (addr_set c addr) (touched_line c addr) <
        last_touch c0 hist (addr_set c addr) k ∧
      ((accessData c addr).lines (addr_set c addr) k).tag =
        (c.lines (addr_set c addr) k).tag ∧
      ((accessData c addr).lines (addr_set c addr) k).valid = true) ∧
    (∀ idx, idx ≠ addr_set c addr → (accessData c addr).lines idx = c.lines idx) := by
  have h0 : ∀ idx i, (c0.lines idx i).valid = false := by
    intro idx i
    rw [hc0]
    rfl
  have hE0 : c0.E = E_in := by
    rw [hc0]
    rfl
  have hcE : c.E = E_in := by
    rw [hc, (cache_after_geom c0 hist).1, hE0]
  have hinv : lru_inv E_in (c.lines (addr_set c addr)) (last_touch c0 hist (addr_set c addr))
      hist.length := by
    have := cache_after_lru_inv c0 h0 hist (addr_set c addr)
    rw [hE0, ← hc] at this
    exact this
  obtain ⟨hmiss, hfull⟩ := accessData_evicts c addr hev
  have hg := (get_line_none_iff c addr).2 hmiss
  have hf := (scan_full_iff c addr).2 hfull
  have hset := accessData_set c addr
  rw [hg] at hset
  simp only [hf, ne_eq, not_true_eq_false, if_false] at hset
  have hsnd := select_line_scan_snd (c.lines (addr_set c addr)) c.E 0 0 0
    (Or.inl ⟨rfl, rfl, by omega⟩) (fun k _ hk => hfull k (by omega))
  rw [hcE] at hsnd hset
  obtain ⟨hset1, hset2⟩ := hset
  rw [← hset2] at hsnd hset1
  refine ⟨by omega, ?_, ?_, fun idx hidx => accessData_other_set c addr idx hidx⟩
  · rw [hset1]
    simp [evict_update]
  · intro k hk hne
    have hvk : (c.lines (addr_set c addr) k).valid = true := hfull k (by omega)
    have hvv : (c.lines (addr_set c addr) (touched_line c addr)).valid = true :=
      hfull _ (by omega)
    refine ⟨?_, ?_, ?_⟩
    · have hd := lru_inv_distinct hinv k (touched_line c addr) hk (by omega) hvk hvv hne
      have hle := hsnd.2 k (by omega)
      exact (hinv.ord k (touched_line c addr) hk (by omega) hvk hvv).1 (by omega)
    · rw [hset1]
      simp [evict_update, hne, hk]
    · rw [hset1]
      simp [evict_update, hne, hk, hvk]

/-- C30 at work: two lines, accesses to the blocks 1, 2, 1, then 3 evicts. -/
theorem accessData_lru_witness :
    1 ≤ 2 ∧
    (accessData (cache_after (initCache 0 0 2 cache_start) [1, 2, 1]) 3).eviction_count =
      (cache_after (initCache 0 0 2 cache_start) [1, 2, 1]).eviction_count + 1 ∧
    touched_line (cache_after (initCache 0 0 2 cache_start) [1, 2, 1]) 3 < 2 :=
  ⟨by decide, by decide,
    (accessData_lru 0 0 2 cache_start [1, 2, 1] 3 _ _ rfl rfl (by decide) (by decide)).1⟩


/-! ### The return value of `handle_miss`, the shape of a set, repeated
access to a block -/

/-- C31 (the code departs from the claim): `handle_miss` returns true on
every call; the call evicts (counts one eviction more) when every line of the
selected set was valid, and leaves `eviction_count` when it fills an invalid
line. -/
theorem handle_miss_returns (c : Cache) (pos : Nat) :
    (handle_miss c pos).2 = true ∧
    (set_full c pos →
      (handle_miss c pos).1.eviction_count = c.eviction_count + 1) ∧
    (¬ set_full c pos →
      (handle_miss c pos).1.eviction_count = c.eviction_count) := by
  refine ⟨rfl, ?_, ?_⟩
  · intro h
    have hf := (scan_full_iff c pos).2 h
    simp only [addr_set] at hf
    simp [handle_miss, select_line, addr_set, hf]
  · intro h
    have hf : ¬ (select_line_scan (c.lines (addr_set c pos)) c.E 0 0 0).1 = c.E :=
      fun hh => h ((scan_full_iff c pos).1 hh)
    simp only [addr_set] at hf
    simp [handle_miss, select_line, addr_set, hf]

/-- The code at the failing input of C31: in the empty two-line cache the
set is not full, `handle_miss(1)` evicts nothing and returns true. -/
theorem handle_miss_returns_witness :
    ¬ set_full cache_two 1 ∧
    (handle_miss cache_two 1).1.eviction_count = cache_two.eviction_count ∧
    (handle_miss cache_two 1).2 = true := by
  have hn : ¬ set_full cache_two 1 := fun h => by
    have := h 0 (by decide)
    revert this
    decide
  exact ⟨hn, (handle_miss_returns cache_two 1).2.2 hn, (handle_miss_returns cache_two 1).1⟩

/-- A hit keeps the shape of the selected set. -/
theorem set_inv_hit {E : Nat} {set : Nat → cache_line_t} {k : Nat}
    (h : set_inv E set k) (i0 : Nat) (hi0 : i0 < k) :
    set_inv E (hit_update E set i0) k := by
  have hval : ∀ j, (hit_update E set i0 j).valid = (set j).valid := by
    intro j
    unfold hit_update
    by_cases hj : j = i0
    · simp [hj]
    · by_cases hc : j < E ∧ (set j).valid = true ∧ (set j).lru < (set i0).lru
      · simp [hj, hc]
      · simp only [if_neg hj, if_neg hc]
  have htag : ∀ j, (hit_update E set i0 j).tag = (set j).tag := by
    intro j
    unfold hit_update
    by_cases hj : j = i0
    · simp [hj]
    · by_cases hc : j < E ∧ (set j).valid = true ∧ (set j).lru < (set i0).lru
      · simp [hj, hc]
      · simp only [if_neg hj, if_neg hc]
  have hlru0 : (hit_update E set i0 i0).lru = 0 := by simp [hit_update]
  have hlru : ∀ j, j < k → j ≠ i0 →
      (hit_update E set i0 j).lru =
        (if (set j).lru < (set i0).lru then (set j).lru + 1 else (set j).lru) := by
    intro j hj hne
    have hjE : j < E := Nat.lt_of_lt_of_le hj h.le
    have hvj : (set j).valid = true := (h.valid_iff j hjE).2 hj
    unfold hit_update
    by_cases hc : (set j).lru < (set i0).lru
    · simp [hne, hjE, hvj, hc]
    · simp [hne, hjE, hvj, hc]
  refine ⟨h.le, ?_, ?_, ?_, ?_⟩
  · intro i hi
    rw [hval]
    exact h.valid_iff i hi
  · intro i j hi hj
    rw [htag, htag]
    exact h.tag_inj i j hi hj
  · intro i hi
    by_cases hne : i = i0
    · rw [hne, hlru0]
      omega
    · rw [hlru i hi hne]
      have := h.lru_lt i hi
      have := h.lru_lt i0 hi0
      split_ifs <;> omega
  · intro i j hi hj he
    by_cases hi' : i = i0 <;> by_cases hj' : j = i0
    · rw [hi', hj']
    · rw [hi', hlru0, hlru j hj hj'] at he
      have hd : (set j).lru ≠ (set i0).lru := fun e => hj' (h.lru_inj j i0 hj hi0 e)
      split_ifs at he
      omega
    · rw [hj', hlru0, hlru i hi hi'] at he
      have hd : (set i).lru ≠ (set i0).lru := fun e => hi' (h.lru_inj i i0 hi hi0 e)
      split_ifs at he
      omega
    · rw [hlru i hi hi', hlru j hj hj'] at he
      have hdi : (set i).lru ≠ (set i0).lru := fun e => hi' (h.lru_inj i i0 hi hi0 e)
      have hdj : (set j).lru ≠ (set i0).lru := fun e => hj' (h.lru_inj j i0 hj hi0 e)
      apply h.lru_inj i j hi hj
      split_ifs at he <;> omega

/-- Filling the first invalid line with a tag that no valid line carries
extends the shape of the set by one line. -/
theorem set_inv_fill {E : Nat} {set : Nat → cache_line_t} {k : Nat}
    (h : set_inv E set k) (tag_add : Nat) (hk : k < E)
    (hnew : ∀ i, i < k → (set i).tag ≠ tag_add) :
    set_inv E (fill_update E set k tag_add) (k + 1) := by
  have hat : fill_update E set k tag_add k = { valid := true, tag := tag_add, lru := 0 } := by
    simp [fill_update]
  have hother : ∀ i, i < k →
      fill_update E set k tag_add i = { set i with lru := (set i).lru + 1 } := by
    intro i hi
    have hiE : i < E := by omega
    have hvi : (set i).valid = true := (h.valid_iff i hiE).2 hi
    have hne : i ≠ k := by omega
    simp [fill_update, hne, hiE, hvi]
  have hbeyond : ∀ i, i < E → k < i → (fill_update E set k tag_add i).valid = false := by
    intro i hiE hi
    have hne : i ≠ k := by omega
    have hvi : ¬ (set i).valid = true := fun hv => by
      have := (h.valid_iff i hiE).1 hv
      omega
    simp only [fill_update, if_neg hne, hvi, and_false, if_false]
    simpa using hvi
  refine ⟨by omega, ?_, ?_, ?_, ?_⟩
  · intro i hi
    rcases Nat.lt_trichotomy i k with hlt | heq | hgt
    · rw [hother i hlt]
      simp only [(h.valid_iff i hi).2 hlt, true_iff]
      omega
    · rw [heq, hat]
      simp
    · rw [hbeyond i hi hgt]
      constructor
      · intro hh
        cases hh
      · intro hh
        omega
  · intro i j hi hj he
    rcases Nat.lt_or_ge i k with hik | hik <;> rcases Nat.lt_or_ge j k with hjk | hjk
    · rw [hother i hik, hother j hjk] at he
      exact h.tag_inj i j hik hjk he
    · have hj' : j = k := by omega
      rw [hj', hat, hother i hik] at he
      exact absurd he (hnew i hik)
    · have hi' : i = k := by omega
      rw [hi', hat, hother j hjk] at he
      exact absurd he.symm (hnew j hjk)
    · omega
  · intro i hi
    rcases Nat.lt_or_ge i k with hik | hik
    · rw [hother i hik]
      have := h.lru_lt i hik
      show (set i).lru + 1 < k + 1
      omega
    · have hi' : i = k := by omega
      rw [hi', hat]
      show 0 < k + 1
      omega
  · intro i j hi hj he
    rcases Nat.lt_or_ge i k with hik | hik <;> rcases Nat.lt_or_ge j k with hjk | hjk
    · rw [hother i hik, hother j hjk] at he
      have he2 : (set i).lru + 1 = (set j).lru + 1 := he
      exact h.lru_inj i j hik hjk (by omega)
    · have hj' : j = k := by omega
      rw [hj', hat, hother i hik] at he
      have he2 : (set i).lru + 1 = 0 := he
      omega
    · have hi' : i = k := by omega
      rw [hi', hat, hother j hjk] at he
      have he2 : 0 = (set j).lru + 1 := he
      omega
    · omega

/-- Replacing, in a full set, a line with the largest counter by a tag that
no line carries keeps the shape of the set. -/
theorem set_inv_evict {E : Nat} {set : Nat → cache_line_t}
    (h : set_inv E set E) (v tag_add : Nat) (hv : v < E)
    (hmax : ∀ i, i < E → (set i).lru ≤ (set v).lru)
    (hnew : ∀ i, i < E → (set i).tag ≠ tag_add) :
    set_inv E (evict_update E set v tag_add) E := by
  have hat : evict_update E set v tag_add v = { set v with lru := 0, tag := tag_add } := by
    simp [evict_update]
  have hother : ∀ i, i < E → i ≠ v →
      evict_update E set v tag_add i = { set i with lru := (set i).lru + 1 } := by
    intro i hi hne
    simp [evict_update, hne, hi]
  have hlt : ∀ i, i < E → i ≠ v → (set i).lru < (set v).lru := by
    intro i hi hne
    have h1 := hmax i hi
    have h2 : (set i).lru ≠ (set v).lru := fun e => hne (h.lru_inj i v hi hv e)
    omega
  refine ⟨le_refl _, ?_, ?_, ?_, ?_⟩
  · intro i hi
    by_cases hne : i = v
    · rw [hne, hat]
      exact h.valid_iff v hv
    · rw [hother i hi hne]
      exact h.valid_iff i hi
  · intro i j hi hj he
    by_cases hi' : i = v <;> by_cases hj' : j = v
    · rw [hi', hj']
    · rw [hi', hat, hother j hj hj'] at he
      exact absurd he.symm (hnew j hj)
    · rw [hj', hat, hother i hi hi'] at he
      exact absurd he (hnew i hi)
    · rw [hother i hi hi', hother j hj hj'] at he
      exact h.tag_inj i j hi hj he
  · intro i hi
    by_cases hne : i = v
    · rw [hne, hat]
      show 0 < E
      omega
    · rw [hother i hi hne]
      have := hlt i hi hne
      have := h.lru_lt v hv
      show (set i).lru + 1 < E
      omega
  · intro i j hi hj he
    by_cases hi' : i = v <;> by_cases hj' : j = v
    · rw [hi', hj']
    · rw [hi', hat, hother j hj hj'] at he
      have he2 : 0 = (set j).lru + 1 := he
      omega
    · rw [hj', hat, hother i hi hi'] at he
      have he2 : (set i).lru + 1 = 0 := he
      omega
    · rw [hother i hi hi', hother j hj hj'] at he
      have he2 : (set i).lru + 1 = (set j).lru + 1 := he
      exact h.lru_inj i j hi hj (by omega)

/-- From a state without valid lines and `E ≥ 1`, after any accesses, every
set has the shape `set_inv` for some number of valid lines. -/
theorem cache_after_set_inv (c0 : Cache) (h0 : ∀ idx i, (c0.lines idx i).valid = false)
    (hE : 1 ≤ c0.E) (hist : List Nat) :
    ∀ idx, ∃ k, set_inv c0.E ((cache_after c0 hist).lines idx) k := by
  induction hist with
  | nil =>
    intro idx
    refine ⟨0, Nat.zero_le _, ?_, ?_, ?_, ?_⟩
    · intro i _
      simp [cache_after, h0]
    · intro i j hi
      omega
    · intro i hi
      omega
    · intro i j hi
      omega
  | cons a older ih =>
    intro idx
    have hcE := (cache_after_geom c0 older).1
    simp only [cache_after]
    by_cases hidx : idx = addr_set (cache_after c0 older) a
    · subst hidx
      obtain ⟨k, hk⟩ := ih (addr_set (cache_after c0 older) a)
      rw [(accessData_set (cache_after c0 older) a).1, hcE]
      cases hg : get_line_loop ((cache_after c0 older).lines (addr_set (cache_after c0 older) a))
          (addr_tag (cache_after c0 older) a) c0.E 0 with
      | none =>
        simp only
        have hnone := (get_line_loop_none _ _ _ _).1 hg
        have hnew : ∀ i, i < k →
            ((cache_after c0 older).lines (addr_set (cache_after c0 older) a) i).tag ≠
              addr_tag (cache_after c0 older) a := by
          intro i hi ht
          have hiE : i < c0.E := Nat.lt_of_lt_of_le hi hk.le
          exact hnone i (Nat.zero_le _) (by omega) ⟨(hk.valid_iff i hiE).2 hi, ht⟩
        obtain ⟨f1, f2, f3, f4⟩ := select_line_scan_fst
          ((cache_after c0 older).lines (addr_set (cache_after c0 older) a)) c0.E 0 0 0
        by_cases hf : (select_line_scan
            ((cache_after c0 older).lines (addr_set (cache_after c0 older) a)) c0.E 0 0 0).1 ≠ c0.E
        · rw [if_pos hf]
          have hlt : (select_line_scan
              ((cache_after c0 older).lines (addr_set (cache_after c0 older) a)) c0.E 0 0 0).1
                < c0.E := by omega
          have hinv := f4 (by omega)
          have hge : k ≤ (select_line_scan
              ((cache_after c0 older).lines (addr_set (cache_after c0 older) a)) c0.E 0 0 0).1 := by
            by_contra hn
            have := (hk.valid_iff _ hlt).2 (by omega)
            rw [hinv] at this
            cases this
          have hle : (select_line_scan
              ((cache_after c0 older).lines (addr_set (cache_after c0 older) a)) c0.E 0 0 0).1
                ≤ k := by
            by_contra hn
            have hkE : k < c0.E := by omega
            have := (hk.valid_iff k hkE).1 (f3 k (Nat.zero_le _) (by omega))
            omega
          have heq : (select_line_scan
              ((cache_after c0 older).lines (addr_set (cache_after c0 older) a)) c0.E 0 0 0).1
                = k := by omega
          rw [heq]
          exact ⟨k + 1, set_inv_fill hk _ (by omega) hnew⟩
        · rw [if_neg hf]
          have heq : (select_line_scan
              ((cache_after c0 older).lines (addr_set (cache_after c0 older) a)) c0.E 0 0 0).1
                = c0.E := by
            by_contra hn
            exact hf hn
          have hall : ∀ i, 0 ≤ i → i < 0 + c0.E →
              ((cache_after c0 older).lines (addr_set (cache_after c0 older) a) i).valid = true := by
            intro i h1 h2
            exact f3 i h1 (by omega)
          have hkE : k = c0.E := by
            have := (hk.valid_iff (c0.E - 1) (by omega)).1 (hall _ (Nat.zero_le _) (by omega))
            have := hk.le
            omega
          obtain ⟨g1, g2⟩ := select_line_scan_snd
            ((cache_after c0 older).lines (addr_set (cache_after c0 older) a)) c0.E 0 0 0
            (Or.inl ⟨rfl, rfl, hE⟩) hall
          rw [hkE] at hk hnew
          exact ⟨c0.E, set_inv_evict hk _ _ (by omega) (fun i hi => g2 i (by omega)) hnew⟩
      | some i =>
        simp only
        have hs := get_line_loop_some _ _ _ _ _ hg
        exact ⟨k, set_inv_hit hk i ((hk.valid_iff i (by omega)).1 hs.2.2.1)⟩
    · rw [accessData_other_set _ _ _ hidx]
      exact ih idx

/-- In a set of shape `set_inv` the counters of the valid lines are a
permutation of `0 .. k - 1`. -/
theorem lru_list_perm {E : Nat} {set : Nat → cache_line_t} {k : Nat}
    (h : set_inv E set k) : List.Perm (lru_list set k) (List.range k) := by
  unfold lru_list
  have hnd : ((List.range k).map (fun i => (set i).lru)).Nodup := by
    apply List.Nodup.map_on _ (List.nodup_range k)
    intro x hx y hy he
    exact h.lru_inj x y (List.mem_range.1 hx) (List.mem_range.1 hy) he
  have hsub : (List.range k).map (fun i => (set i).lru) ⊆ List.range k := by
    intro x hx
    obtain ⟨i, hi, rfl⟩ := List.mem_map.1 hx
    exact List.mem_range.2 (h.lru_lt i (List.mem_range.1 hi))
  exact (List.subperm_of_subset hnd hsub).perm_of_length_le (by simp)

/-- C35: after `initCache` with `E ≥ 1` and any accesses `hist`, for every
set `idx` there is `k ≤ E` such that the valid lines are exactly the lines
`0 .. k - 1`, their tags are pairwise different, their counters are a
permutation of `0, 1, .., k - 1`, and a valid line has counter 0 exactly when
it was accessed (hit or filled) more recently than every other valid line of
the set. -/
theorem cache_after_invariant (s_in b_in E_in : Nat) (cs : Cache) (hist : List Nat)
    (idx : Nat) (c0 c : Cache) (hc0 : c0 = initCache s_in b_in E_in cs)
    (hc : c = cache_after c0 hist) (hE : 1 ≤ E_in) :
    ∃ k, k ≤ E_in ∧
      (∀ i, i < E_in → ((c.lines idx i).valid = true ↔ i < k)) ∧
      (∀ i j, i < k → j < k → i ≠ j → (c.lines idx i).tag ≠ (c.lines idx j).tag) ∧
      List.Perm (lru_list (c.lines idx) k) (List.range k) ∧
      (∀ i, i < k →
        ((c.lines idx i).lru = 0 ↔
          ∀ j, j < k → j ≠ i → last_touch c0 hist idx j < last_touch c0 hist idx i)) := by
  have h0 : ∀ idx i, (c0.lines idx i).valid = false := by
    intro idx i
    rw [hc0]
    rfl
  have hE0 : c0.E = E_in := by
    rw [hc0]
    rfl
  obtain ⟨k, hk⟩ := cache_after_set_inv c0 h0 (by omega) hist idx
  have hord := cache_after_lru_inv c0 h0 hist idx
  rw [hE0, ← hc] at hk hord
  have hperm := lru_list_perm hk
  refine ⟨k, hk.le, hk.valid_iff, ?_, hperm, ?_⟩
  · intro i j hi hj hne he
    exact hne (hk.tag_inj i j hi hj he)
  · intro i hi
    have hiE : i < E_in := Nat.lt_of_lt_of_le hi hk.le
    have hvi := (hk.valid_iff i hiE).2 hi
    constructor
    · intro hz j hj hne
      have hjE : j < E_in := Nat.lt_of_lt_of_le hj hk.le
      have hvj := (hk.valid_iff j hjE).2 hj
      have hd : (c.lines idx j).lru ≠ (c.lines idx i).lru :=
        fun e => hne (hk.lru_inj j i hj hi e)
      exact (hord.ord i j hiE hjE hvi hvj).1 (by omega)
    · intro hall
      have hmem : 0 ∈ lru_list (c.lines idx) k :=
        hperm.symm.subset (List.mem_range.2 (by omega))
      unfold lru_list at hmem
      obtain ⟨j, hj, hjz⟩ := List.mem_map.1 hmem
      have hjk := List.mem_range.1 hj
      by_cases hji : j = i
      · rw [← hji]
        exact hjz
      · have hjE : j < E_in := Nat.lt_of_lt_of_le hjk hk.le
        have hvj := (hk.valid_iff j hjE).2 hjk
        have := (hord.ord i j hiE hjE hvi hvj).2 (hall j hjk hji)
        omega

/-- C35 at work: two lines, after the accesses to the blocks 1, 2, 1. -/
theorem cache_after_invariant_witness :
    1 ≤ 2 ∧
    ∃ k, k ≤ 2 ∧
      (∀ i, i < 2 →
        (((cache_after (initCache 0 0 2 cache_start) [1, 2, 1]).lines 0 i).valid = true ↔
          i < k)) ∧
      List.Perm (lru_list ((cache_after (initCache 0 0 2 cache_start) [1, 2, 1]).lines 0) k)
        (List.range k) := by
  obtain ⟨k, h1, h2, _, h4, _⟩ :=
    cache_after_invariant 0 0 2 cache_start [1, 2, 1] 0 _ _ rfl rfl (by decide)
  exact ⟨by decide, k, h1, h2, h4⟩

/-- For `E ≥ 1` the line an access touches is a line of the selected set, and
after the access it is valid and carries the tag of the address. -/
theorem accessData_touched (c : Cache) (addr : Nat) (hE : 1 ≤ c.E) :
    touched_line c addr < c.E ∧
    ((accessData c addr).lines (addr_set c addr) (touched_line c addr)).valid = true ∧
    ((accessData c addr).lines (addr_set c addr) (touched_line c addr)).tag =
      addr_tag c addr := by
  obtain ⟨hset, htouch⟩ := accessData_set c addr
  rw [hset, htouch]
  cases hg : get_line_loop (c.lines (addr_set c addr)) (addr_tag c addr) c.E 0 with
  | none =>
    simp only
    obtain ⟨f1, f2, f3, f4⟩ := select_line_scan_fst (c.lines (addr_set c addr)) c.E 0 0 0
    by_cases hf : (select_line_scan (c.lines (addr_set c addr)) c.E 0 0 0).1 ≠ c.E
    · rw [if_pos hf, if_pos hf]
      refine ⟨by omega, ?_, ?_⟩ <;> simp [fill_update]
    · rw [if_neg hf, if_neg hf]
      have heq : (select_line_scan (c.lines (addr_set c addr)) c.E 0 0 0).1 = c.E := by
        by_contra hn
        exact hf hn
      have hall : ∀ i, 0 ≤ i → i < 0 + c.E → (c.lines (addr_set c addr) i).valid = true := by
        intro i h1 h2
        exact f3 i h1 (by omega)
      obtain ⟨g1, g2⟩ := select_line_scan_snd (c.lines (addr_set c addr)) c.E 0 0 0
        (Or.inl ⟨rfl, rfl, hE⟩) hall
      refine ⟨by omega, ?_, ?_⟩
      · simp only [evict_update, if_true]
        exact hall _ (Nat.zero_le _) g1
      · simp [evict_update]
  | some i =>
    simp only
    have hs := get_line_loop_some _ _ _ _ _ hg
    refine ⟨by omega, ?_, ?_⟩
    · simp only [hit_update, if_true]
      exact hs.2.2.1
    · simp only [hit_update, if_true]
      exact hs.2.2.2

/-- Two addresses of the same block select the same set and have the same
tag. -/
theorem same_block_same_line (c : Cache) (a a2 : Nat) (h : a >>> c.b = a2 >>> c.b) :
    addr_set c a2 = addr_set c a ∧ addr_tag c a2 = addr_tag c a := by
  unfold addr_set addr_tag
  rw [Nat.add_comm c.s c.b, Nat.shiftRight_add, Nat.shiftRight_add, h]
  exact ⟨rfl, rfl⟩

/-- C36: for every state of the cache with `E ≥ 1` (hence every state
reachable from `initCache`) and all addresses `a`, `a2` of the same block
(`a >> b == a2 >> b`), after `accessData(a)` the access to `a2` hits: the
second call adds 1 to `hit_count` and leaves `miss_count` and
`eviction_count`. -/
theorem accessData_same_block (c : Cache) (a a2 : Nat) (hE : 1 ≤ c.E)
    (hblk : a >>> c.b = a2 >>> c.b) :
    is_hit (accessData c a) a2 ∧
    (accessData (accessData c a) a2).hit_count = (accessData c a).hit_count + 1 ∧
    (accessData (accessData c a) a2).miss_count = (accessData c a).miss_count ∧
    (accessData (accessData c a) a2).eviction_count = (accessData c a).eviction_count := by
  obtain ⟨gE, gs, gb, gm⟩ := accessData_geom c a
  obtain ⟨t1, t2, t3⟩ := accessData_touched c a hE
  have hsame := same_block_same_line c a a2 hblk
  have hset : addr_set (accessData c a) a2 = addr_set c a := by
    rw [← hsame.1]
    simp only [addr_set, gb, gm]
  have htag : addr_tag (accessData c a) a2 = addr_tag c a := by
    rw [← hsame.2]
    simp only [addr_tag, gb, gs]
  have hhit : is_hit (accessData c a) a2 := by
    refine ⟨touched_line c a, ?_, ?_, ?_⟩
    · rw [gE]
      exact t1
    · rw [hset]
      exact t2
    · rw [hset, htag]
      exact t3
  obtain ⟨c1, _, _, c4⟩ := accessData_counters (accessData c a) a2
  exact ⟨hhit, (c1 hhit).1, (c1 hhit).2, c4 (fun hh => hh.1 hhit)⟩

/-- C36 at work: two sets, blocks of four bytes, two lines; the addresses 8
and 11 share a block, and 11 hits after 8. -/
theorem accessData_same_block_witness :
    1 ≤ (initCache 1 2 2 cache_start).E ∧
    (8 : Nat) >>> (initCache 1 2 2 cache_start).b =
      11 >>> (initCache 1 2 2 cache_start).b ∧
    (accessData (accessData (initCache 1 2 2 cache_start) 8) 11).hit_count =
      (accessData (initCache 1 2 2 cache_start) 8).hit_count + 1 :=
  ⟨by decide, by decide,
    (accessData_same_block (initCache 1 2 2 cache_start) 8 11 (by decide)
      (by decide)).2.1⟩

end CacheSim
